import Mathlib

/-!
Shallow embedding of the WebSocket request channel of `src/static/app.js`
(lines 91-183: the `wsConnect` / `wsSend` manager, its token handling,
pending-request table, per-request timers and reconnect backoff).

The JavaScript is single-threaded and event-driven: all mutation of the
shared variables `_ws`, `_wsToken`, `_wsPending`, `_wsReqId`,
`_wsReconnectDelay` happens inside event handlers that run to completion.
We model the mutable heap as an explicit state `St` and every external
stimulus (a script-level call of `wsConnect`/`wsSend`, a transport
`open`/`message`/`close` event, a timer firing, a scheduled reconnect
firing) as an event `Ev`; `step : St → Ev → St` runs the corresponding
handler exactly as the source does.

Promises are modelled explicitly: each `new Promise` allocates an entry in
a table; `resolve`/`reject` calls append to an attempt log (`settleLog`)
and set the promise state on the first effective call only, as in
JavaScript.  The `.then(ready).catch(reject)` chain of `wsSend` is
modelled as a stored continuation on the connect promise, run when that
promise resolves (microtasks run before the next macrotask, so running
them inside the resolving handler is faithful).  Sockets record their
`readyState`; a closed socket emits no further events, and `message`
events are only delivered on an OPEN socket.
-/

/-- readyState of a WebSocket, named as the `WebSocket` constants used by the source. -/
inductive ReadyState
  | CONNECTING
  | OPEN
  | CLOSED
deriving DecidableEq, Repr

/-- A JavaScript `Error` object as built by the channel code: `new Error(message)`
plus the properties the source optionally assigns (`code`, `limit`, `current`,
`attempted`).  `none` models an absent property. -/
structure WsError where
  message : String
  code : Option Int
  limit : Option Int
  current : Option Int
  attempted : Option Int
deriving DecidableEq, Repr

/-- Which executor created a promise: the `wsConnect` executor or the `wsSend` executor. -/
inductive PKind
  | connect
  | send
deriving DecidableEq, Repr

/-- An effective settlement of a promise: `ready` is the argumentless `resolve()` of
`wsConnect`, `value` a `resolve(msg.result)` of `wsSend`, `failed` any `reject(err)`. -/
inductive Settlement
  | ready
  | value (v : Nat)
  | failed (e : WsError)
deriving DecidableEq, Repr

/-- The continuation `wsSend` chains on the connect promise:
`wsConnect().then(ready).catch(reject)`.  It carries the data the `ready`
closure captures: the send promise to settle, the action and the timeout. -/
structure ThenCont where
  sendPid : Nat
  action : String
  timeoutMs : Nat
deriving DecidableEq, Repr

/-- A promise.  `state = none` means unsettled.  `conts` are pending
`.then` continuations (cleared when run).  `sock` is the WebSocket the
`wsConnect` executor created for this promise, if it created one. -/
structure Prom where
  kind : PKind
  state : Option Settlement
  conts : List ThenCont
  sock : Option Nat
deriving DecidableEq, Repr

/-- A WebSocket object.  `connPid` is the connect promise whose executor created it
(whose `resolve` its listeners capture); `urlToken` is the token appended as the
`?token=` query parameter of the connection URL, when one was appended. -/
structure Sock where
  readyState : ReadyState
  connPid : Nat
  urlToken : Option String
deriving DecidableEq, Repr

/-- A `setTimeout` timer started by `wsSend`: it fires at most once
(`active = false` after firing or after `clearTimeout`), and its callback
deletes pending entry `reqIdOf` and rejects promise `sendPid`. -/
structure Timer where
  active : Bool
  reqIdOf : Nat
  sendPid : Nat
  timeoutMs : Nat
deriving DecidableEq, Repr

/-- A value of the `_wsPending` map: the wrapped resolve/reject pair is represented by
the promise it settles (`sendPid`) plus the timer the wrappers clear (`timer`). -/
structure Pend where
  sendPid : Nat
  timer : Nat
deriving DecidableEq, Repr

/-- A parsed inbound frame, as the message handler reads it after `JSON.parse`:
either the authentication push (`msg.type === 'auth'`) or a correlated reply
carrying the fields the handler inspects.  Absent JSON fields are `none`;
correlation ids are modelled by the numeric counter value (the wire form is
the injective encoding `r` followed by the decimal counter). -/
inductive ServerMsg
  | auth (token : String)
  | reply (id : Nat) (ok : Bool) (result : Nat) (error : Option String)
      (code : Option Int) (lim : Option Int) (cur : Option Int) (att : Option Int)
deriving DecidableEq, Repr

/-- The program point at which a `resolve`/`reject` call was made; recorded in the
settlement-attempt log so theorems can speak about which path settled a promise. -/
inductive Reason
  | success
  | remoteFailure
  | timedOut
  | channelClosed
  | notConnected
  | connectImmediate
  | connectAuth
  | connectCatch
deriving DecidableEq, Repr

/-- External stimuli of the event loop. -/
inductive Ev
  | connect
  | send (action : String) (timeoutMs : Nat)
  | sendDefault (action : String)
  | sockOpen (sid : Nat)
  | sockMsg (sid : Nat) (m : ServerMsg)
  | sockClose (sid : Nat)
  | timerFire (tid : Nat)
  | reconFire (k : Nat)
deriving DecidableEq, Repr

/-- The whole mutable state: the module-level variables of the source
(`_ws`, `_wsToken`, `_wsPending`, `_wsReqId`, `_wsReconnectDelay`), the
environment they read (`metaTok` for the `bs-token` meta tag, `sessionTok`
for `sessionStorage['bs-token']`), and the runtime objects (promises,
sockets, timers, scheduled reconnects) plus two pure logs (`settleLog` of
settlement attempts, `issued` of allocated correlation ids). -/
structure St where
  ws : Option Nat
  wsToken : Option String
  sessionTok : Option String
  metaTok : Option String
  wsPending : List (Nat × Pend)
  wsReqId : Nat
  wsReconnectDelay : Nat
  proms : Nat → Option Prom
  nProms : Nat
  socks : Nat → Option Sock
  nSocks : Nat
  timers : Nat → Option Timer
  nTimers : Nat
  recon : List (Nat × Bool)
  settleLog : List (Nat × Reason)
  issued : List Nat

/-- `const WS_MAX_RECONNECT_DELAY = 16000`. -/
def WS_MAX_RECONNECT_DELAY : Nat := 16000

/-- `const GENERATION_TIMEOUT_MS = 120000`. -/
def GENERATION_TIMEOUT_MS : Nat := 120000

/-- JavaScript truthiness of a string-or-nullish value: `null`/`undefined` and the
empty string are falsy. -/
def jsTruthyStr : Option String → Bool
  | none => false
  | some s => s ≠ ""

/-- JavaScript `a || b` on string-or-nullish values. -/
def jsOrOpt (a b : Option String) : Option String :=
  if jsTruthyStr a then a else b

/-- JavaScript `a || d` where `a` is a string-or-absent JSON field and `d` a string. -/
def jsOrString (a : Option String) (d : String) : String :=
  match a with
  | some s => if s = "" then d else s
  | none => d

/-- JavaScript `a || d` where `a` is a number-or-absent JSON field and `d` a number
(`0` is falsy). -/
def jsOrInt (a : Option Int) (d : Int) : Int :=
  match a with
  | some x => if x = 0 then d else x
  | none => d

/-- `Math.round(timeoutMs / 1000)` for a non-negative integer number of milliseconds:
round half up. -/
def jsRoundSecs (t : Nat) : Nat := (t + 500) / 1000

/-- The error of the close handler: `new Error('WebSocket closed')`. -/
def closedErr : WsError := ⟨"WebSocket closed", none, none, none, none⟩

/-- The error of the not-connected guard: `new Error('WebSocket not connected')`. -/
def notConnectedErr : WsError := ⟨"WebSocket not connected", none, none, none, none⟩

/-- The timeout rejection: `` new Error(`Request timed out after N s`) `` where `N` is
`Math.round(timeoutMs / 1000)`. -/
def timeoutErr (t : Nat) : WsError :=
  ⟨"Request timed out after " ++ toString (jsRoundSecs t) ++ "s", none, none, none, none⟩

/-- The failure error built by the message handler:
`err = new Error(msg.error || 'Request failed'); err.code = msg.code || 500;`
and, only when `msg.limit !== undefined`, the assignments
`err.limit = msg.limit; err.current = msg.current; err.attempted = msg.attempted`. -/
def mkWsError (er : Option String) (c : Option Int)
    (lim cur att : Option Int) : WsError :=
  ⟨jsOrString er "Request failed", some (jsOrInt c 500), lim,
    if lim.isSome then cur else none,
    if lim.isSome then att else none⟩

/-- `Map.prototype.get` on the pending table. -/
def pendGet (l : List (Nat × Pend)) (k : Nat) : Option Pend :=
  (l.find? (fun e => e.1 = k)).map (fun e => e.2)

/-- `Map.prototype.set`: replace in place when the key exists, append otherwise. -/
def pendSet (l : List (Nat × Pend)) (k : Nat) (v : Pend) : List (Nat × Pend) :=
  if (pendGet l k).isSome then
    l.map (fun e => if e.1 = k then (k, v) else e)
  else l ++ [(k, v)]

/-- `Map.prototype.delete`. -/
def pendDel (l : List (Nat × Pend)) (k : Nat) : List (Nat × Pend) :=
  l.filter (fun e => e.1 ≠ k)

/-- The guard `_ws && _ws.readyState === WebSocket.OPEN`. -/
def wsOpenB (s : St) : Bool :=
  match s.ws with
  | some i =>
    match s.socks i with
    | some k => k.readyState = .OPEN
    | none => false
  | none => false

/-- `_getInitialToken()`: prefer the `bs-token` meta tag (when present with truthy
content) over `sessionStorage.getItem('bs-token')`. -/
def getInitialToken (s : St) : Option String :=
  if jsTruthyStr s.metaTok then s.metaTok else s.sessionTok

/-- The token appended to the connection URL: `_wsToken || _getInitialToken()`,
appended as the `?token=` query parameter only when truthy. -/
def urlTokenOf (s : St) : Option String :=
  let tok := jsOrOpt s.wsToken (getInitialToken s)
  if jsTruthyStr tok then tok else none

/-- `clearTimeout` on timer `tid`. -/
def clearTimer (s : St) (tid : Nat) : St :=
  { s with timers := fun t =>
      if t = tid then
        match s.timers t with
        | some x => some { x with active := false }
        | none => none
      else s.timers t }

/-- Allocate a fresh promise object (`new Promise(...)`). -/
def allocProm (s : St) (pr : Prom) : St :=
  { s with
    proms := fun x => if x = s.nProms then some pr else s.proms x,
    nProms := s.nProms + 1 }

/-- A `resolve`/`reject` call on a promise with no `.then` continuations (all the
`wsSend` promise settlements).  The attempt is always logged; it takes effect only
when the promise is still unsettled, as in JavaScript. -/
def settleSend (s : St) (p : Nat) (out : Settlement) (r : Reason) : St :=
  { s with
    settleLog := s.settleLog ++ [(p, r)],
    proms := fun x =>
      if x = p then
        match s.proms x with
        | some pr => some (if pr.state = none then { pr with state := some out } else pr)
        | none => none
      else s.proms x }

/-- The body of the `ready` closure of `wsSend`: re-check the guard; if the current
transport is open, allocate the next correlation id (`` `r${++_wsReqId}` ``), start
the timeout timer, register the pending entry and write the frame; otherwise reject
with `'WebSocket not connected'`. -/
def readyBody (s : St) (c : ThenCont) : St :=
  if wsOpenB s then
    { s with
      wsReqId := s.wsReqId + 1,
      timers := fun t =>
        if t = s.nTimers then some ⟨true, s.wsReqId + 1, c.sendPid, c.timeoutMs⟩
        else s.timers t,
      nTimers := s.nTimers + 1,
      wsPending := pendSet s.wsPending (s.wsReqId + 1) ⟨c.sendPid, s.nTimers⟩,
      issued := s.issued ++ [s.wsReqId + 1] }
  else
    settleSend s c.sendPid (.failed notConnectedErr) .notConnected

/-- A `resolve()` call on a connect promise: on its first effective call the promise
becomes `ready` and its queued `.then` continuations run (in order, before any
further macrotask); later calls are logged no-ops. -/
def resolveConnect (s : St) (p : Nat) (r : Reason) : St :=
  let s1 : St := { s with settleLog := s.settleLog ++ [(p, r)] }
  match s.proms p with
  | some pr =>
    if pr.state = none then
      pr.conts.foldl readyBody
        { s1 with proms := fun x =>
            if x = p then some { pr with state := some .ready, conts := [] }
            else s1.proms x }
    else s1
  | none => s1

/-- `wsConnect().then(ready).catch(reject)` seen from the connect promise `p`:
queue the continuation when `p` is pending, run `ready` at once when it is already
resolved, forward the rejection when it is already rejected. -/
def attachCont (s : St) (p : Nat) (c : ThenCont) : St :=
  match s.proms p with
  | some pr =>
    match pr.state with
    | none =>
      { s with proms := fun x =>
          if x = p then some { pr with conts := pr.conts ++ [c] }
          else s.proms x }
    | some .ready => readyBody s c
    | some (.value _) => readyBody s c
    | some (.failed e) => settleSend s c.sendPid (.failed e) .connectCatch
  | none => s

/-- `wsConnect()`: allocate the promise; if `_ws` exists with `readyState === OPEN`,
resolve it immediately; otherwise build the URL with
`_wsToken || _getInitialToken()` (the token query parameter is appended only when
that value is truthy), create a new WebSocket capturing this promise's `resolve`,
and store it in `_ws`.  Returns the updated state and the promise id. -/
def wsConnect (s : St) : St × Nat :=
  let p := s.nProms
  let s1 : St := allocProm s ⟨.connect, none, [], none⟩
  if wsOpenB s1 then (resolveConnect s1 p .connectImmediate, p)
  else
    let sid := s1.nSocks
    ({ s1 with
        socks := fun i =>
          if i = sid then some ⟨.CONNECTING, p, urlTokenOf s1⟩
          else s1.socks i,
        nSocks := sid + 1,
        proms := fun x =>
          if x = p then some ⟨.connect, none, [], some sid⟩ else s1.proms x,
        ws := some sid }, p)

/-- `wsSend(action, payload, timeoutMs)`: allocate the result promise; if the
transport is already open run `ready` synchronously, otherwise call `wsConnect`
and chain `ready` (and the dead `.catch`) on the returned promise. -/
def wsSend (s : St) (a : String) (tmo : Nat) : St :=
  let p := s.nProms
  let s1 : St := allocProm s ⟨.send, none, [], none⟩
  if wsOpenB s1 then readyBody s1 ⟨p, a, tmo⟩
  else
    let r := wsConnect s1
    attachCont r.1 r.2 ⟨p, a, tmo⟩

/-- The `message` listener of the socket whose connect promise is `connPid`:
an `auth` frame stores the pushed token in `_wsToken` and `sessionStorage` and
resolves the connect promise; any other frame is looked up in `_wsPending` —
if found the entry is removed and its wrapped resolve/reject (which first clears
the timer) is called, otherwise the frame is silently discarded. -/
def handleMessage (s : St) (connPid : Nat) (m : ServerMsg) : St :=
  match m with
  | .auth tok =>
    resolveConnect { s with wsToken := some tok, sessionTok := some tok }
      connPid .connectAuth
  | .reply id ok res er c lim cur att =>
    match pendGet s.wsPending id with
    | none => s
    | some e =>
      let s1 : St := { s with wsPending := pendDel s.wsPending id }
      let s2 := clearTimer s1 e.timer
      if ok then settleSend s2 e.sendPid (.value res) .success
      else settleSend s2 e.sendPid (.failed (mkWsError er c lim cur att)) .remoteFailure

/-- One iteration of the close handler's rejection loop: the wrapped `reject`
clears the entry's timer, then rejects its promise with `'WebSocket closed'`. -/
def closeRejectOne (acc : St) (e : Nat × Pend) : St :=
  settleSend (clearTimer acc e.2.timer) e.2.sendPid (.failed closedErr) .channelClosed

/-- The `close` listener (of any socket): null out `_ws`, reject every pending entry
with `'WebSocket closed'` (each wrapped reject clears its timer), clear the table,
schedule a reconnect after the current backoff delay, then double the delay capped
at `WS_MAX_RECONNECT_DELAY`. -/
def closeHandler (s : St) : St :=
  let s1 : St := { s with ws := none }
  let s2 := s.wsPending.foldl closeRejectOne s1
  { s2 with
    wsPending := [],
    recon := s2.recon ++ [(s2.wsReconnectDelay, false)],
    wsReconnectDelay := min (s2.wsReconnectDelay * 2) WS_MAX_RECONNECT_DELAY }

/-- One event of the event loop. -/
def step (s : St) (e : Ev) : St :=
  match e with
  | .connect => (wsConnect s).1
  | .send a tmo => wsSend s a tmo
  | .sendDefault a => wsSend s a 30000
  | .sockOpen sid =>
    match s.socks sid with
    | some k =>
      if k.readyState = .CONNECTING then
        { s with
          socks := fun i =>
            if i = sid then some { k with readyState := .OPEN } else s.socks i,
          wsReconnectDelay := 500 }
      else s
    | none => s
  | .sockMsg sid m =>
    match s.socks sid with
    | some k => if k.readyState = .OPEN then handleMessage s k.connPid m else s
    | none => s
  | .sockClose sid =>
    match s.socks sid with
    | some k =>
      if k.readyState = .CLOSED then s
      else
        closeHandler
          { s with socks := fun i =>
              if i = sid then some { k with readyState := .CLOSED } else s.socks i }
    | none => s
  | .timerFire tid =>
    match s.timers tid with
    | some t =>
      if t.active then
        let s1 := clearTimer s tid
        let s2 : St := { s1 with wsPending := pendDel s1.wsPending t.reqIdOf }
        settleSend s2 t.sendPid (.failed (timeoutErr t.timeoutMs)) .timedOut
      else s
    | none => s
  | .reconFire k =>
    match s.recon.get? k with
    | some rc =>
      if rc.2 then s
      else (wsConnect { s with recon := s.recon.set k (rc.1, true) }).1
    | none => s

/-- Run a list of events. -/
def run (s : St) (evs : List Ev) : St := evs.foldl step s

/-- The state at page load: no socket, no pushed token, empty pending table,
counter `0`, backoff floor `500`; the environment supplies the meta-tag token
and the `sessionStorage` value. -/
def initSt (metaTok sessionTok : Option String) : St :=
  { ws := none, wsToken := none, sessionTok := sessionTok, metaTok := metaTok,
    wsPending := [], wsReqId := 0, wsReconnectDelay := 500,
    proms := fun _ => none, nProms := 0,
    socks := fun _ => none, nSocks := 0,
    timers := fun _ => none, nTimers := 0,
    recon := [], settleLog := [], issued := [] }

/-- The settlement state of promise `p` (`none` when unsettled or nonexistent). -/
def promState (s : St) (p : Nat) : Option Settlement :=
  match s.proms p with
  | some pr => pr.state
  | none => none

/-- Number of settlement attempts recorded for promise `p`. -/
def logCount (s : St) (p : Nat) : Nat :=
  (s.settleLog.filter (fun x => x.1 = p)).length

/-- Number of constructed transports not yet closed. -/
def liveTransportCount (s : St) : Nat :=
  ((List.range s.nSocks).filter (fun i =>
    match s.socks i with
    | some k => k.readyState ≠ .CLOSED
    | none => False)).length

/-- Promise `p` stays unsettled under every possible continuation of the run. -/
def staysUnsettled (s : St) (p : Nat) : Prop :=
  ∀ evs : List Ev, promState (run s evs) p = none

/-- The settlement reasons available to a `wsSend` promise. -/
def sendReasons : List Reason :=
  [.success, .remoteFailure, .timedOut, .channelClosed, .notConnected]

/-- A run of `k` consecutive connection attempts each ending in a close event with
no intervening successful open: attempt `i` creates socket `n0 + i` and it closes. -/
def closeBlocks : Nat → Nat → List Ev
  | _, 0 => []
  | n0, k + 1 => .connect :: .sockClose n0 :: closeBlocks (n0 + 1) k

/-- Modelled from the claim's reference description of the failure rejection: the
message is the frame's error field if non-empty and otherwise `Request failed`; the
code is the frame's code field if truthy and otherwise 500; and the limit, current
and attempted fields are copied onto the error exactly when the frame's limit field
is not undefined. -/
def refFailureError (er : Option String) (c : Option Int)
    (lim cur att : Option Int) : WsError :=
  { message := match er with
      | some m => if m ≠ "" then m else "Request failed"
      | none => "Request failed",
    code := some (match c with
      | some x => if x ≠ 0 then x else 500
      | none => 500),
    limit := if lim.isSome then lim else none,
    current := if lim.isSome then cur else none,
    attempted := if lim.isSome then att else none }

/-- The consistency invariant of every reachable state.  It ties together the
pending table, the timers, the stored continuations and the promise table, and
records the bookkeeping facts the claims rest on: every `wsSend` promise has at
most one live settlement path, correlation ids are fresh, and connect promises are
never rejected. -/
structure Invariant (s : St) : Prop where
  promBound : ∀ p, s.nProms ≤ p → s.proms p = none
  sockBound : ∀ i, s.nSocks ≤ i → s.socks i = none
  timerBound : ∀ t, s.nTimers ≤ t → s.timers t = none
  logBound : ∀ x ∈ s.settleLog, x.1 < s.nProms
  connState : ∀ p pr, s.proms p = some pr → pr.kind = .connect →
      pr.state = none ∨ pr.state = some .ready
  sendNoConts : ∀ p pr, s.proms p = some pr → pr.kind = .send → pr.conts = []
  settledNoConts : ∀ p pr, s.proms p = some pr → pr.state ≠ none → pr.conts = []
  contsLen : ∀ p pr, s.proms p = some pr → pr.conts.length ≤ 1
  contValid : ∀ p pr c, s.proms p = some pr → c ∈ pr.conts →
      ∃ q, s.proms c.sendPid = some q ∧ q.kind = .send ∧ q.state = none
  contContDistinct : ∀ p1 pr1 c1 p2 pr2 c2, s.proms p1 = some pr1 →
      s.proms p2 = some pr2 → c1 ∈ pr1.conts → c2 ∈ pr2.conts →
      c1.sendPid = c2.sendPid → p1 = p2
  contPendDisjoint : ∀ p pr c x, s.proms p = some pr → c ∈ pr.conts →
      x ∈ s.wsPending → c.sendPid ≠ x.2.sendPid
  sockProm : ∀ i k, s.socks i = some k →
      ∃ pr, s.proms k.connPid = some pr ∧ pr.kind = .connect ∧ pr.sock = some i
  promSock : ∀ p pr i, s.proms p = some pr → pr.sock = some i →
      ∃ k, s.socks i = some k ∧ k.connPid = p
  pendKeyLe : ∀ x ∈ s.wsPending, x.1 ≤ s.wsReqId
  pendKeyNodup : (s.wsPending.map Prod.fst).Nodup
  pendPidNodup : (s.wsPending.map (fun x => x.2.sendPid)).Nodup
  pendProm : ∀ x ∈ s.wsPending, ∃ q, s.proms x.2.sendPid = some q ∧
      q.kind = .send ∧ q.state = none
  pendTimer : ∀ x ∈ s.wsPending, ∃ t, s.timers x.2.timer = some t ∧
      t.active = true ∧ t.reqIdOf = x.1 ∧ t.sendPid = x.2.sendPid
  timerPend : ∀ tid t, s.timers tid = some t → t.active = true →
      ∃ e, (t.reqIdOf, e) ∈ s.wsPending ∧ e.timer = tid ∧ e.sendPid = t.sendPid
  sendOnce : ∀ p pr, s.proms p = some pr → pr.kind = .send →
      (pr.state = none ∧ logCount s p = 0) ∨ (pr.state ≠ none ∧ logCount s p = 1)
  logReason : ∀ x ∈ s.settleLog, ∀ q, s.proms x.1 = some q →
      (q.kind = .send → x.2 ∈ sendReasons) ∧
      (q.kind = .connect → x.2 = .connectImmediate ∨ x.2 = .connectAuth)
  issuedChain : s.issued.Pairwise (· < ·)
  issuedLe : ∀ i ∈ s.issued, i ≤ s.wsReqId

/-- The stuck configuration behind the never-settling connect promise: promise `p`
was created by a `wsConnect` invocation that opened socket `sid`, that socket is now
closed, `p` is still unsettled and still holds the `ready` continuation of the
`wsSend` promise `q`, which is also unsettled. -/
def Frozen (s : St) (sid p q : Nat) : Prop :=
  ∃ k pr c, s.socks sid = some k ∧ k.readyState = .CLOSED ∧ k.connPid = p ∧
    s.proms p = some pr ∧ pr.kind = .connect ∧ pr.state = none ∧
    pr.sock = some sid ∧ c ∈ pr.conts ∧ c.sendPid = q ∧ promState s q = none

/-! ### Elementary laws of the operations -/

theorem settleSend_log (s : St) (p : Nat) (o : Settlement) (r : Reason) :
    (settleSend s p o r).settleLog = s.settleLog ++ [(p, r)] := rfl

theorem settleSend_proms_ne (s : St) (p : Nat) (o : Settlement) (r : Reason)
    (x : Nat) (h : x ≠ p) : (settleSend s p o r).proms x = s.proms x := by
  simp [settleSend, h]

theorem settleSend_proms_eq (s : St) (p : Nat) (o : Settlement) (r : Reason)
    (pr : Prom) (hpr : s.proms p = some pr) (hn : pr.state = none) :
    (settleSend s p o r).proms p = some { pr with state := some o } := by
  simp [settleSend, hpr, hn]

theorem settleSend_proms_settled (s : St) (p : Nat) (o : Settlement) (r : Reason)
    (pr : Prom) (hpr : s.proms p = some pr) (hn : pr.state ≠ none) :
    (settleSend s p o r).proms p = some pr := by
  simp [settleSend, hpr, hn]

theorem logCount_of_append (s s2 : St) (l : List (Nat × Reason))
    (h : s2.settleLog = s.settleLog ++ l) (x : Nat) :
    logCount s2 x = logCount s x + (l.filter (fun y => y.1 = x)).length := by
  simp [logCount, h, List.filter_append]

theorem clearTimer_timers_ne (s : St) (tid t : Nat) (h : t ≠ tid) :
    (clearTimer s tid).timers t = s.timers t := by
  simp [clearTimer, h]

theorem clearTimer_timers_eq_some (s : St) (tid : Nat) (x : Timer)
    (h : s.timers tid = some x) :
    (clearTimer s tid).timers tid = some { x with active := false } := by
  simp [clearTimer, h]

theorem clearTimer_timers_eq_none (s : St) (tid : Nat)
    (h : s.timers tid = none) : (clearTimer s tid).timers tid = none := by
  simp [clearTimer, h]

theorem allocProm_proms_ne (s : St) (pr : Prom) (x : Nat) (h : x ≠ s.nProms) :
    (allocProm s pr).proms x = s.proms x := by
  simp [allocProm, h]

theorem allocProm_proms_eq (s : St) (pr : Prom) :
    (allocProm s pr).proms s.nProms = some pr := by
  simp [allocProm]

theorem wsOpenB_allocProm (s : St) (pr : Prom) :
    wsOpenB (allocProm s pr) = wsOpenB s := rfl

theorem readyBody_open (s : St) (c : ThenCont) (h : wsOpenB s = true) :
    readyBody s c =
      { s with
        wsReqId := s.wsReqId + 1,
        timers := fun t =>
          if t = s.nTimers then some ⟨true, s.wsReqId + 1, c.sendPid, c.timeoutMs⟩
          else s.timers t,
        nTimers := s.nTimers + 1,
        wsPending := pendSet s.wsPending (s.wsReqId + 1) ⟨c.sendPid, s.nTimers⟩,
        issued := s.issued ++ [s.wsReqId + 1] } := by
  simp [readyBody, h]

theorem readyBody_notOpen (s : St) (c : ThenCont) (h : wsOpenB s = false) :
    readyBody s c = settleSend s c.sendPid (.failed notConnectedErr) .notConnected := by
  simp [readyBody, h]

theorem resolveConnect_none (s : St) (p : Nat) (r : Reason) (h : s.proms p = none) :
    resolveConnect s p r = { s with settleLog := s.settleLog ++ [(p, r)] } := by
  simp [resolveConnect, h]

theorem resolveConnect_settled (s : St) (p : Nat) (r : Reason) (pr : Prom)
    (hpr : s.proms p = some pr) (hs : pr.state ≠ none) :
    resolveConnect s p r = { s with settleLog := s.settleLog ++ [(p, r)] } := by
  simp [resolveConnect, hpr, hs]

theorem resolveConnect_unsettled (s : St) (p : Nat) (r : Reason) (pr : Prom)
    (hpr : s.proms p = some pr) (hs : pr.state = none) :
    resolveConnect s p r =
      pr.conts.foldl readyBody
        { s with
          settleLog := s.settleLog ++ [(p, r)],
          proms := fun x =>
            if x = p then some { pr with state := some .ready, conts := [] }
            else s.proms x } := by
  simp [resolveConnect, hpr, hs]

theorem attachCont_pending (s : St) (p : Nat) (c : ThenCont) (pr : Prom)
    (hpr : s.proms p = some pr) (hs : pr.state = none) :
    attachCont s p c =
      { s with proms := fun x =>
          if x = p then some { pr with conts := pr.conts ++ [c] }
          else s.proms x } := by
  simp [attachCont, hpr, hs]

theorem attachCont_ready (s : St) (p : Nat) (c : ThenCont) (pr : Prom)
    (hpr : s.proms p = some pr) (hs : pr.state = some .ready) :
    attachCont s p c = readyBody s c := by
  simp [attachCont, hpr, hs]

theorem wsConnect_open (s : St) (h : wsOpenB s = true) :
    wsConnect s =
      (resolveConnect (allocProm s ⟨.connect, none, [], none⟩) s.nProms
        .connectImmediate, s.nProms) := by
  simp [wsConnect, wsOpenB_allocProm, h]

theorem wsConnect_notOpen (s : St) (h : wsOpenB s = false) :
    wsConnect s =
      ({ allocProm s ⟨.connect, none, [], none⟩ with
          socks := fun i =>
            if i = s.nSocks then
              some ⟨.CONNECTING, s.nProms, urlTokenOf s⟩
            else s.socks i,
          nSocks := s.nSocks + 1,
          proms := fun x =>
            if x = s.nProms then some ⟨.connect, none, [], some s.nSocks⟩
            else (allocProm s ⟨.connect, none, [], none⟩).proms x,
          ws := some s.nSocks }, s.nProms) := by
  have h2 : wsOpenB (allocProm s ⟨.connect, none, [], none⟩) = false := h
  simp only [wsConnect, h2, Bool.false_eq_true, if_false]
  rfl

theorem wsSend_open (s : St) (a : String) (tmo : Nat) (h : wsOpenB s = true) :
    wsSend s a tmo =
      readyBody (allocProm s ⟨.send, none, [], none⟩) ⟨s.nProms, a, tmo⟩ := by
  simp [wsSend, wsOpenB_allocProm, h]

theorem wsSend_notOpen (s : St) (a : String) (tmo : Nat) (h : wsOpenB s = false) :
    wsSend s a tmo =
      attachCont (wsConnect (allocProm s ⟨.send, none, [], none⟩)).1
        (wsConnect (allocProm s ⟨.send, none, [], none⟩)).2
        ⟨s.nProms, a, tmo⟩ := by
  simp [wsSend, wsOpenB_allocProm, h]

theorem pendGet_eq_none (l : List (Nat × Pend)) (k : Nat)
    (h : ∀ x ∈ l, x.1 ≠ k) : pendGet l k = none := by
  unfold pendGet
  rw [List.find?_eq_none.mpr]
  · rfl
  · intro x hx
    simpa using h x hx

theorem pendGet_mem (l : List (Nat × Pend)) (k : Nat) (v : Pend)
    (h : pendGet l k = some v) : (k, v) ∈ l := by
  unfold pendGet at h
  cases hf : l.find? (fun e => e.1 = k) with
  | none => rw [hf] at h; simp at h
  | some x =>
    rw [hf] at h
    simp at h
    have hmem := List.mem_of_find?_eq_some hf
    have hk := List.find?_some hf
    simp only [decide_eq_true_eq] at hk
    cases x with
    | mk a b =>
      simp only at hk h
      subst hk
      subst h
      exact hmem

theorem pendSet_fresh (l : List (Nat × Pend)) (k : Nat) (v : Pend)
    (h : ∀ x ∈ l, x.1 ≠ k) : pendSet l k v = l ++ [(k, v)] := by
  simp [pendSet, pendGet_eq_none l k h]

theorem mem_pendDel (l : List (Nat × Pend)) (k : Nat) (x : Nat × Pend) :
    x ∈ pendDel l k ↔ x ∈ l ∧ x.1 ≠ k := by
  simp [pendDel, List.mem_filter]

theorem pendDel_sublist (l : List (Nat × Pend)) (k : Nat) :
    (pendDel l k).Sublist l := List.filter_sublist l

theorem closeRejectOne_frame (s : St) (e : Nat × Pend) :
    (closeRejectOne s e).ws = s.ws ∧
    (closeRejectOne s e).wsPending = s.wsPending ∧
    (closeRejectOne s e).recon = s.recon ∧
    (closeRejectOne s e).wsReconnectDelay = s.wsReconnectDelay ∧
    (closeRejectOne s e).nProms = s.nProms ∧
    (closeRejectOne s e).socks = s.socks ∧
    (closeRejectOne s e).nSocks = s.nSocks ∧
    (closeRejectOne s e).nTimers = s.nTimers ∧
    (closeRejectOne s e).wsReqId = s.wsReqId ∧
    (closeRejectOne s e).issued = s.issued ∧
    (closeRejectOne s e).wsToken = s.wsToken ∧
    (closeRejectOne s e).sessionTok = s.sessionTok ∧
    (closeRejectOne s e).metaTok = s.metaTok := by
  refine ⟨rfl, rfl, rfl, rfl, rfl, rfl, rfl, rfl, rfl, rfl, rfl, rfl, rfl⟩

theorem closeFold_ws (l : List (Nat × Pend)) (s : St) :
    (l.foldl closeRejectOne s).ws = s.ws := by
  induction l generalizing s with
  | nil => rfl
  | cons e t ih => simpa using ih (closeRejectOne s e)

theorem closeFold_wsPending (l : List (Nat × Pend)) (s : St) :
    (l.foldl closeRejectOne s).wsPending = s.wsPending := by
  induction l generalizing s with
  | nil => rfl
  | cons e t ih => simpa using ih (closeRejectOne s e)

theorem closeFold_recon (l : List (Nat × Pend)) (s : St) :
    (l.foldl closeRejectOne s).recon = s.recon := by
  induction l generalizing s with
  | nil => rfl
  | cons e t ih => simpa using ih (closeRejectOne s e)

theorem closeFold_delay (l : List (Nat × Pend)) (s : St) :
    (l.foldl closeRejectOne s).wsReconnectDelay = s.wsReconnectDelay := by
  induction l generalizing s with
  | nil => rfl
  | cons e t ih => simpa using ih (closeRejectOne s e)

theorem closeFold_nProms (l : List (Nat × Pend)) (s : St) :
    (l.foldl closeRejectOne s).nProms = s.nProms := by
  induction l generalizing s with
  | nil => rfl
  | cons e t ih => simpa using ih (closeRejectOne s e)

theorem closeFold_socks (l : List (Nat × Pend)) (s : St) :
    (l.foldl closeRejectOne s).socks = s.socks := by
  induction l generalizing s with
  | nil => rfl
  | cons e t ih => simpa using ih (closeRejectOne s e)

theorem closeFold_nSocks (l : List (Nat × Pend)) (s : St) :
    (l.foldl closeRejectOne s).nSocks = s.nSocks := by
  induction l generalizing s with
  | nil => rfl
  | cons e t ih => simpa using ih (closeRejectOne s e)

theorem closeFold_nTimers (l : List (Nat × Pend)) (s : St) :
    (l.foldl closeRejectOne s).nTimers = s.nTimers := by
  induction l generalizing s with
  | nil => rfl
  | cons e t ih => simpa using ih (closeRejectOne s e)

theorem closeFold_wsReqId (l : List (Nat × Pend)) (s : St) :
    (l.foldl closeRejectOne s).wsReqId = s.wsReqId := by
  induction l generalizing s with
  | nil => rfl
  | cons e t ih => simpa using ih (closeRejectOne s e)

theorem closeFold_issued (l : List (Nat × Pend)) (s : St) :
    (l.foldl closeRejectOne s).issued = s.issued := by
  induction l generalizing s with
  | nil => rfl
  | cons e t ih => simpa using ih (closeRejectOne s e)

theorem closeFold_wsToken (l : List (Nat × Pend)) (s : St) :
    (l.foldl closeRejectOne s).wsToken = s.wsToken := by
  induction l generalizing s with
  | nil => rfl
  | cons e t ih => simpa using ih (closeRejectOne s e)

theorem closeFold_log (l : List (Nat × Pend)) (s : St) :
    (l.foldl closeRejectOne s).settleLog =
      s.settleLog ++ l.map (fun x => (x.2.sendPid, Reason.channelClosed)) := by
  induction l generalizing s with
  | nil => simp
  | cons e t ih =>
    simp only [List.foldl_cons, List.map_cons]
    rw [ih (closeRejectOne s e)]
    have hlog : (closeRejectOne s e).settleLog
        = s.settleLog ++ [(e.2.sendPid, Reason.channelClosed)] := rfl
    rw [hlog, List.append_assoc]
    rfl

theorem closeFold_proms_ne (l : List (Nat × Pend)) (s : St) (y : Nat)
    (h : ∀ x ∈ l, x.2.sendPid ≠ y) :
    (l.foldl closeRejectOne s).proms y = s.proms y := by
  induction l generalizing s with
  | nil => rfl
  | cons e t ih =>
    simp only [List.foldl_cons]
    rw [ih (closeRejectOne s e) (fun x hx => h x (List.mem_cons_of_mem e hx))]
    show (settleSend _ _ _ _).proms y = s.proms y
    rw [settleSend_proms_ne]
    · rfl
    · exact fun hy => h e (List.mem_cons_self e t) (hy ▸ rfl)

theorem closeFold_timers_ne (l : List (Nat × Pend)) (s : St) (y : Nat)
    (h : ∀ x ∈ l, x.2.timer ≠ y) :
    (l.foldl closeRejectOne s).timers y = s.timers y := by
  induction l generalizing s with
  | nil => rfl
  | cons e t ih =>
    simp only [List.foldl_cons]
    rw [ih (closeRejectOne s e) (fun x hx => h x (List.mem_cons_of_mem e hx))]
    show (settleSend (clearTimer s e.2.timer) _ _ _).timers y = s.timers y
    show (clearTimer s e.2.timer).timers y = s.timers y
    rw [clearTimer_timers_ne]
    exact fun hy => h e (List.mem_cons_self e t) (hy ▸ rfl)

theorem closeFold_proms_mem (l : List (Nat × Pend)) (s : St)
    (hnd : (l.map (fun x => x.2.sendPid)).Nodup)
    (hok : ∀ x ∈ l, ∃ q, s.proms x.2.sendPid = some q ∧ q.state = none) :
    ∀ x ∈ l, ∀ q, s.proms x.2.sendPid = some q →
      (l.foldl closeRejectOne s).proms x.2.sendPid =
        some { q with state := some (.failed closedErr) } := by
  induction l generalizing s with
  | nil => intro x hx; cases hx
  | cons e t ih =>
    intro x hx q hq
    simp only [List.map_cons, List.nodup_cons] at hnd
    obtain ⟨hnotin, hndt⟩ := hnd
    rcases List.mem_cons.mp hx with hxe | hxt
    · subst hxe
      simp only [List.foldl_cons]
      rw [closeFold_proms_ne t (closeRejectOne s x) x.2.sendPid
        (fun y hy hcy => hnotin (hcy ▸ List.mem_map_of_mem (fun z => z.2.sendPid) hy))]
      obtain ⟨q0, hq0, hq0n⟩ := hok x (List.mem_cons_self x t)
      rw [hq0] at hq
      cases hq
      show (settleSend (clearTimer s x.2.timer) _ _ _).proms _ = _
      have hq1 : (clearTimer s x.2.timer).proms x.2.sendPid = some q := hq0
      rw [settleSend_proms_eq _ _ _ _ q hq1 hq0n]
    · simp only [List.foldl_cons]
      have hne : x.2.sendPid ≠ e.2.sendPid := by
        intro hEq
        exact hnotin (hEq ▸ List.mem_map_of_mem (fun z => z.2.sendPid) hxt)
      have hq2 : (closeRejectOne s e).proms x.2.sendPid = some q := by
        show (settleSend (clearTimer s e.2.timer) _ _ _).proms _ = _
        rw [settleSend_proms_ne _ _ _ _ _ hne]
        exact hq
      refine ih (closeRejectOne s e) hndt ?_ x hxt q hq2
      intro y hy
      obtain ⟨qy, hqy, hqyn⟩ := hok y (List.mem_cons_of_mem e hy)
      by_cases hcase : y.2.sendPid = e.2.sendPid
      · refine ⟨qy, ?_, hqyn⟩
        exfalso
        exact hnotin (hcase ▸ List.mem_map_of_mem (fun z => z.2.sendPid) hy)
      · refine ⟨qy, ?_, hqyn⟩
        show (settleSend (clearTimer s e.2.timer) _ _ _).proms _ = some qy
        rw [settleSend_proms_ne _ _ _ _ _ hcase]
        exact hqy

theorem closeFold_timers_mem (l : List (Nat × Pend)) (s : St)
    (hnd : (l.map (fun x => x.2.timer)).Nodup) :
    ∀ x ∈ l, ∀ t0, s.timers x.2.timer = some t0 →
      (l.foldl closeRejectOne s).timers x.2.timer = some { t0 with active := false } := by
  induction l generalizing s with
  | nil => intro x hx; cases hx
  | cons e t ih =>
    intro x hx t0 ht0
    simp only [List.map_cons, List.nodup_cons] at hnd
    obtain ⟨hnotin, hndt⟩ := hnd
    rcases List.mem_cons.mp hx with hxe | hxt
    · subst hxe
      simp only [List.foldl_cons]
      rw [closeFold_timers_ne t (closeRejectOne s x) x.2.timer
        (fun y hy hcy => hnotin (hcy ▸ List.mem_map_of_mem (fun z => z.2.timer) hy))]
      show (settleSend (clearTimer s x.2.timer) _ _ _).timers _ = _
      show (clearTimer s x.2.timer).timers x.2.timer = _
      rw [clearTimer_timers_eq_some s x.2.timer t0 ht0]
    · simp only [List.foldl_cons]
      have hne : x.2.timer ≠ e.2.timer := by
        intro hEq
        exact hnotin (hEq ▸ List.mem_map_of_mem (fun z => z.2.timer) hxt)
      have ht2 : (closeRejectOne s e).timers x.2.timer = some t0 := by
        show (settleSend (clearTimer s e.2.timer) _ _ _).timers _ = _
        show (clearTimer s e.2.timer).timers x.2.timer = _
        rw [clearTimer_timers_ne _ _ _ hne]
        exact ht0
      exact ih (closeRejectOne s e) hndt x hxt t0 ht2

theorem wsOpenB_true_iff (s : St) : wsOpenB s = true ↔
    ∃ i k, s.ws = some i ∧ s.socks i = some k ∧ k.readyState = .OPEN := by
  unfold wsOpenB
  cases hw : s.ws with
  | none => simp
  | some i =>
    cases hk : s.socks i with
    | none => simp [hk]
    | some k =>
      simp only [hk, decide_eq_true_eq]
      constructor
      · intro h
        exact ⟨i, k, rfl, hk, h⟩
      · rintro ⟨i2, k2, hi2, hk2, ho2⟩
        cases hi2
        rw [hk] at hk2
        cases hk2
        exact ho2

theorem step_connect (s : St) : step s .connect = (wsConnect s).1 := rfl

theorem step_send (s : St) (a : String) (tmo : Nat) :
    step s (.send a tmo) = wsSend s a tmo := rfl

theorem step_sendDefault (s : St) (a : String) :
    step s (.sendDefault a) = wsSend s a 30000 := rfl

theorem step_sockOpen_conn (s : St) (sid : Nat) (k : Sock)
    (h : s.socks sid = some k) (hc : k.readyState = .CONNECTING) :
    step s (.sockOpen sid) =
      { s with
        socks := fun i =>
          if i = sid then some { k with readyState := .OPEN } else s.socks i,
        wsReconnectDelay := 500 } := by
  simp [step, h, hc]

theorem step_sockOpen_other (s : St) (sid : Nat) (k : Sock)
    (h : s.socks sid = some k) (hc : k.readyState ≠ .CONNECTING) :
    step s (.sockOpen sid) = s := by
  simp [step, h, hc]

theorem step_sockOpen_none (s : St) (sid : Nat) (h : s.socks sid = none) :
    step s (.sockOpen sid) = s := by
  simp [step, h]

theorem step_sockMsg_open (s : St) (sid : Nat) (m : ServerMsg) (k : Sock)
    (h : s.socks sid = some k) (hO : k.readyState = .OPEN) :
    step s (.sockMsg sid m) = handleMessage s k.connPid m := by
  simp [step, h, hO]

theorem step_sockMsg_notOpen (s : St) (sid : Nat) (m : ServerMsg) (k : Sock)
    (h : s.socks sid = some k) (hO : k.readyState ≠ .OPEN) :
    step s (.sockMsg sid m) = s := by
  simp [step, h, hO]

theorem step_sockMsg_none (s : St) (sid : Nat) (m : ServerMsg)
    (h : s.socks sid = none) : step s (.sockMsg sid m) = s := by
  simp [step, h]

theorem step_sockClose_live (s : St) (sid : Nat) (k : Sock)
    (h : s.socks sid = some k) (hne : k.readyState ≠ .CLOSED) :
    step s (.sockClose sid) =
      closeHandler
        { s with socks := fun i =>
            if i = sid then some { k with readyState := .CLOSED } else s.socks i } := by
  simp [step, h, hne]

theorem step_sockClose_closed (s : St) (sid : Nat) (k : Sock)
    (h : s.socks sid = some k) (hc : k.readyState = .CLOSED) :
    step s (.sockClose sid) = s := by
  simp [step, h, hc]

theorem step_sockClose_none (s : St) (sid : Nat) (h : s.socks sid = none) :
    step s (.sockClose sid) = s := by
  simp [step, h]

theorem step_timerFire_active (s : St) (tid : Nat) (t : Timer)
    (h : s.timers tid = some t) (ha : t.active = true) :
    step s (.timerFire tid) =
      settleSend
        { clearTimer s tid with
            wsPending := pendDel (clearTimer s tid).wsPending t.reqIdOf }
        t.sendPid (.failed (timeoutErr t.timeoutMs)) .timedOut := by
  simp [step, h, ha]

theorem step_timerFire_inactive (s : St) (tid : Nat) (t : Timer)
    (h : s.timers tid = some t) (ha : t.active = false) :
    step s (.timerFire tid) = s := by
  simp [step, h, ha]

theorem step_timerFire_none (s : St) (tid : Nat) (h : s.timers tid = none) :
    step s (.timerFire tid) = s := by
  simp [step, h]

theorem step_reconFire_unfired (s : St) (k : Nat) (d : Nat)
    (h : s.recon.get? k = some (d, false)) :
    step s (.reconFire k) = (wsConnect { s with recon := s.recon.set k (d, true) }).1 := by
  simp only [step]
  rw [h]
  simp

theorem step_reconFire_fired (s : St) (k : Nat) (d : Nat)
    (h : s.recon.get? k = some (d, true)) : step s (.reconFire k) = s := by
  have hstep : step s (.reconFire k) =
      match s.recon.get? k with
      | some rc =>
        if rc.2 then s
        else (wsConnect { s with recon := s.recon.set k (rc.1, true) }).1
      | none => s := rfl
  rw [hstep, h]
  rfl

theorem step_reconFire_none (s : St) (k : Nat) (h : s.recon.get? k = none) :
    step s (.reconFire k) = s := by
  have hstep : step s (.reconFire k) =
      match s.recon.get? k with
      | some rc =>
        if rc.2 then s
        else (wsConnect { s with recon := s.recon.set k (rc.1, true) }).1
      | none => s := rfl
  rw [hstep, h]

theorem handleMessage_auth (s : St) (cp : Nat) (tok : String) :
    handleMessage s cp (.auth tok) =
      resolveConnect { s with wsToken := some tok, sessionTok := some tok }
        cp .connectAuth := rfl

theorem handleMessage_reply_miss (s : St) (cp : Nat) (id : Nat) (ok : Bool)
    (res : Nat) (er : Option String) (c lim cur att : Option Int)
    (h : pendGet s.wsPending id = none) :
    handleMessage s cp (.reply id ok res er c lim cur att) = s := by
  simp [handleMessage, h]

theorem handleMessage_reply_ok (s : St) (cp : Nat) (id : Nat)
    (res : Nat) (er : Option String) (c lim cur att : Option Int) (e : Pend)
    (h : pendGet s.wsPending id = some e) :
    handleMessage s cp (.reply id true res er c lim cur att) =
      settleSend (clearTimer { s with wsPending := pendDel s.wsPending id } e.timer)
        e.sendPid (.value res) .success := by
  simp [handleMessage, h]

theorem handleMessage_reply_fail (s : St) (cp : Nat) (id : Nat)
    (res : Nat) (er : Option String) (c lim cur att : Option Int) (e : Pend)
    (h : pendGet s.wsPending id = some e) :
    handleMessage s cp (.reply id false res er c lim cur att) =
      settleSend (clearTimer { s with wsPending := pendDel s.wsPending id } e.timer)
        e.sendPid (.failed (mkWsError er c lim cur att)) .remoteFailure := by
  simp [handleMessage, h]

/-! ### Preservation of the invariant -/

theorem logCount_fresh (s : St) (hI : Invariant s) (p : Nat) (hp : s.nProms ≤ p) :
    logCount s p = 0 := by
  unfold logCount
  rw [List.length_eq_zero, List.filter_eq_nil_iff]
  intro a ha
  have := hI.logBound a ha
  simp only [decide_eq_true_eq]
  omega

theorem logCount_single (s s2 : St) (p : Nat) (r : Reason)
    (h : s2.settleLog = s.settleLog ++ [(p, r)]) (x : Nat) :
    logCount s2 x = logCount s x + (if p = x then 1 else 0) := by
  rw [logCount_of_append s s2 [(p, r)] h x]
  by_cases hx : p = x <;> simp [hx]

theorem allocProm_lookup (s : St) (pr : Prom) (x : Nat) (q : Prom)
    (hq : (allocProm s pr).proms x = some q) :
    (x = s.nProms ∧ q = pr) ∨ (x ≠ s.nProms ∧ s.proms x = some q) := by
  by_cases hx : x = s.nProms
  · subst hx
    rw [allocProm_proms_eq] at hq
    exact Or.inl ⟨rfl, (Option.some.inj hq).symm⟩
  · rw [allocProm_proms_ne s pr x hx] at hq
    exact Or.inr ⟨hx, hq⟩

theorem inv_allocProm (s : St) (pr : Prom) (hI : Invariant s)
    (hst : pr.state = none) (hco : pr.conts = []) (hsk : pr.sock = none) :
    Invariant (allocProm s pr) := by
  have hne : ∀ x q, s.proms x = some q → x ≠ s.nProms := by
    intro x q hq hx
    rw [hI.promBound x (le_of_eq hx.symm)] at hq
    cases hq
  constructor
  case promBound =>
    intro p hp
    have h1 : p ≠ s.nProms := by
      intro h; rw [h] at hp; simp [allocProm] at hp
    rw [allocProm_proms_ne s pr p h1]
    exact hI.promBound p (by simpa [allocProm] using Nat.le_of_succ_le hp)
  case sockBound => exact hI.sockBound
  case timerBound => exact hI.timerBound
  case logBound =>
    intro x hx
    exact Nat.lt_succ_of_lt (hI.logBound x hx)
  case connState =>
    intro p q hq hk
    rcases allocProm_lookup s pr p q hq with ⟨_, rfl⟩ | ⟨_, hold⟩
    · exact Or.inl hst
    · exact hI.connState p q hold hk
  case sendNoConts =>
    intro p q hq hk
    rcases allocProm_lookup s pr p q hq with ⟨_, rfl⟩ | ⟨_, hold⟩
    · exact hco
    · exact hI.sendNoConts p q hold hk
  case settledNoConts =>
    intro p q hq hk
    rcases allocProm_lookup s pr p q hq with ⟨_, rfl⟩ | ⟨_, hold⟩
    · exact absurd hst hk
    · exact hI.settledNoConts p q hold hk
  case contsLen =>
    intro p q hq
    rcases allocProm_lookup s pr p q hq with ⟨_, rfl⟩ | ⟨_, hold⟩
    · simp [hco]
    · exact hI.contsLen p q hold
  case contValid =>
    intro p q c hq hc
    rcases allocProm_lookup s pr p q hq with ⟨_, rfl⟩ | ⟨_, hold⟩
    · rw [hco] at hc; cases hc
    · obtain ⟨qt, hqt, hqk, hqs⟩ := hI.contValid p q c hold hc
      refine ⟨qt, ?_, hqk, hqs⟩
      rw [allocProm_proms_ne s pr c.sendPid (hne _ _ hqt)]
      exact hqt
  case contContDistinct =>
    intro p1 pr1 c1 p2 pr2 c2 h1 h2 hc1 hc2 heq
    rcases allocProm_lookup s pr p1 pr1 h1 with ⟨_, rfl⟩ | ⟨_, ho1⟩
    · rw [hco] at hc1; cases hc1
    · rcases allocProm_lookup s pr p2 pr2 h2 with ⟨_, rfl⟩ | ⟨_, ho2⟩
      · rw [hco] at hc2; cases hc2
      · exact hI.contContDistinct p1 pr1 c1 p2 pr2 c2 ho1 ho2 hc1 hc2 heq
  case contPendDisjoint =>
    intro p q c x hq hc hx
    rcases allocProm_lookup s pr p q hq with ⟨_, rfl⟩ | ⟨_, hold⟩
    · rw [hco] at hc; cases hc
    · exact hI.contPendDisjoint p q c x hold hc hx
  case sockProm =>
    intro i k hk
    obtain ⟨q, hq, hqk, hqs⟩ := hI.sockProm i k hk
    refine ⟨q, ?_, hqk, hqs⟩
    rw [allocProm_proms_ne s pr k.connPid (hne _ _ hq)]
    exact hq
  case promSock =>
    intro p q i hq hs2
    rcases allocProm_lookup s pr p q hq with ⟨_, rfl⟩ | ⟨_, hold⟩
    · rw [hsk] at hs2; cases hs2
    · exact hI.promSock p q i hold hs2
  case pendKeyLe => exact hI.pendKeyLe
  case pendKeyNodup => exact hI.pendKeyNodup
  case pendPidNodup => exact hI.pendPidNodup
  case pendProm =>
    intro x hx
    obtain ⟨q, hq, hqk, hqs⟩ := hI.pendProm x hx
    refine ⟨q, ?_, hqk, hqs⟩
    rw [allocProm_proms_ne s pr x.2.sendPid (hne _ _ hq)]
    exact hq
  case pendTimer => exact hI.pendTimer
  case timerPend => exact hI.timerPend
  case sendOnce =>
    intro p q hq hk
    have hlc : logCount (allocProm s pr) p = logCount s p := rfl
    rcases allocProm_lookup s pr p q hq with ⟨hp, rfl⟩ | ⟨_, hold⟩
    · subst hp
      left
      exact ⟨hst, by rw [hlc]; exact logCount_fresh s hI s.nProms le_rfl⟩
    · rw [hlc]
      exact hI.sendOnce p q hold hk
  case logReason =>
    intro x hx q hq
    have hlt := hI.logBound x hx
    have h1 : x.1 ≠ s.nProms := Nat.ne_of_lt hlt
    rw [allocProm_proms_ne s pr x.1 h1] at hq
    exact hI.logReason x hx q hq
  case issuedChain => exact hI.issuedChain
  case issuedLe => exact hI.issuedLe

theorem inv_settleSendFinal (s : St) (p : Nat) (out : Settlement) (r : Reason)
    (hI : Invariant s) (q : Prom) (hqp : s.proms p = some q) (hqk : q.kind = .send)
    (hqs : q.state = none)
    (hnp : ∀ x ∈ s.wsPending, x.2.sendPid ≠ p)
    (hnc : ∀ p2 q2 c2, s.proms p2 = some q2 → c2 ∈ q2.conts → c2.sendPid ≠ p)
    (hr : r ∈ sendReasons) :
    Invariant (settleSend s p out r) := by
  have hplt : p < s.nProms := by
    by_contra hge
    rw [hI.promBound p (Nat.le_of_not_lt hge)] at hqp
    cases hqp
  have hlook : ∀ x, (settleSend s p out r).proms x =
      if x = p then some { q with state := some out } else s.proms x := by
    intro x
    by_cases hx : x = p
    · subst hx
      rw [settleSend_proms_eq _ _ _ _ q hqp hqs]
      simp
    · rw [settleSend_proms_ne _ _ _ _ _ hx]
      simp [hx]
  have hlog := settleSend_log s p out r
  have hqco : q.conts = [] := hI.sendNoConts p q hqp hqk
  have hlc0 : logCount s p = 0 := by
    rcases hI.sendOnce p q hqp hqk with ⟨_, h0⟩ | ⟨hne2, _⟩
    · exact h0
    · exact absurd hqs hne2
  constructor
  case promBound =>
    intro x hx
    have hx2 : s.nProms ≤ x := hx
    rw [hlook]
    have hxp : x ≠ p := by omega
    simp [hxp]
    exact hI.promBound x hx2
  case sockBound => exact hI.sockBound
  case timerBound => exact hI.timerBound
  case logBound =>
    intro x hx
    rw [hlog] at hx
    rcases List.mem_append.mp hx with h1 | h2
    · exact hI.logBound x h1
    · simp only [List.mem_singleton] at h2
      subst h2
      exact hplt
  case connState =>
    intro x q2 hq2 hk2
    rw [hlook] at hq2
    by_cases hx : x = p
    · subst hx
      simp at hq2
      rw [← hq2] at hk2
      simp [hqk] at hk2
    · simp [hx] at hq2
      exact hI.connState x q2 hq2 hk2
  case sendNoConts =>
    intro x q2 hq2 hk2
    rw [hlook] at hq2
    by_cases hx : x = p
    · subst hx; simp at hq2; rw [← hq2]; exact hqco
    · simp [hx] at hq2
      exact hI.sendNoConts x q2 hq2 hk2
  case settledNoConts =>
    intro x q2 hq2 hk2
    rw [hlook] at hq2
    by_cases hx : x = p
    · subst hx; simp at hq2; rw [← hq2]; exact hqco
    · simp [hx] at hq2
      exact hI.settledNoConts x q2 hq2 hk2
  case contsLen =>
    intro x q2 hq2
    rw [hlook] at hq2
    by_cases hx : x = p
    · subst hx; simp at hq2; rw [← hq2]; simp [hqco]
    · simp [hx] at hq2
      exact hI.contsLen x q2 hq2
  case contValid =>
    intro x q2 c2 hq2 hc2
    rw [hlook] at hq2
    by_cases hx : x = p
    · subst hx; simp at hq2; rw [← hq2] at hc2; simp [hqco] at hc2
    · simp [hx] at hq2
      obtain ⟨qt, hqt, hk, hs2⟩ := hI.contValid x q2 c2 hq2 hc2
      refine ⟨qt, ?_, hk, hs2⟩
      rw [hlook]
      have : c2.sendPid ≠ p := hnc x q2 c2 hq2 hc2
      simp [this]
      exact hqt
  case contContDistinct =>
    intro p1 pr1 c1 p2 pr2 c2 h1 h2 hc1 hc2 heq
    rw [hlook] at h1 h2
    by_cases hx1 : p1 = p
    · subst hx1; simp at h1; rw [← h1] at hc1; simp [hqco] at hc1
    · by_cases hx2 : p2 = p
      · subst hx2; simp at h2; rw [← h2] at hc2; simp [hqco] at hc2
      · simp [hx1] at h1
        simp [hx2] at h2
        exact hI.contContDistinct p1 pr1 c1 p2 pr2 c2 h1 h2 hc1 hc2 heq
  case contPendDisjoint =>
    intro x q2 c2 y hq2 hc2 hy
    rw [hlook] at hq2
    by_cases hx : x = p
    · subst hx; simp at hq2; rw [← hq2] at hc2; simp [hqco] at hc2
    · simp [hx] at hq2
      exact hI.contPendDisjoint x q2 c2 y hq2 hc2 hy
  case sockProm =>
    intro i k hk
    obtain ⟨q2, hq2, hk2, hs2⟩ := hI.sockProm i k hk
    have hne2 : k.connPid ≠ p := by
      intro h
      rw [h, hqp] at hq2
      cases hq2
      rw [hqk] at hk2
      cases hk2
    refine ⟨q2, ?_, hk2, hs2⟩
    rw [hlook]
    simp [hne2]
    exact hq2
  case promSock =>
    intro x q2 i hq2 hs2
    rw [hlook] at hq2
    by_cases hx : x = p
    · subst hx
      simp at hq2
      rw [← hq2] at hs2
      simp at hs2
      exact hI.promSock _ q i hqp hs2
    · simp [hx] at hq2
      exact hI.promSock x q2 i hq2 hs2
  case pendKeyLe => exact hI.pendKeyLe
  case pendKeyNodup => exact hI.pendKeyNodup
  case pendPidNodup => exact hI.pendPidNodup
  case pendProm =>
    intro x hx
    obtain ⟨q2, hq2, hk2, hs2⟩ := hI.pendProm x hx
    refine ⟨q2, ?_, hk2, hs2⟩
    rw [hlook]
    simp [hnp x hx]
    exact hq2
  case pendTimer => exact hI.pendTimer
  case timerPend => exact hI.timerPend
  case sendOnce =>
    intro x q2 hq2 hk2
    have hlcx := logCount_single s (settleSend s p out r) p r hlog x
    rw [hlook] at hq2
    by_cases hx : x = p
    · subst hx
      simp at hq2
      right
      rw [← hq2]
      refine ⟨by simp, ?_⟩
      rw [hlcx, hlc0]
      simp
    · simp [hx] at hq2
      rw [hlcx]
      have : ¬(p = x) := fun h => hx h.symm
      simp [this]
      exact hI.sendOnce x q2 hq2 hk2
  case logReason =>
    intro x hx q2 hq2
    rw [hlog] at hx
    rw [hlook] at hq2
    rcases List.mem_append.mp hx with h1 | h2
    · by_cases hxp : x.1 = p
      · rw [hxp] at hq2
        simp at hq2
        constructor
        · intro _
          exact (hI.logReason x h1 q (by rw [hxp]; exact hqp)).1 hqk
        · intro hcon
          rw [← hq2] at hcon
          simp [hqk] at hcon
      · simp [hxp] at hq2
        exact hI.logReason x h1 q2 hq2
    · simp only [List.mem_singleton] at h2
      subst h2
      simp at hq2
      constructor
      · intro _
        exact hr
      · intro hcon
        rw [← hq2] at hcon
        simp [hqk] at hcon
  case issuedChain => exact hI.issuedChain
  case issuedLe => exact hI.issuedLe

theorem inv_readyBody (s : St) (c : ThenCont) (hI : Invariant s)
    (q : Prom) (hqp : s.proms c.sendPid = some q) (hqk : q.kind = .send)
    (hqs : q.state = none)
    (hnp : ∀ x ∈ s.wsPending, x.2.sendPid ≠ c.sendPid)
    (hnc : ∀ p2 q2 c2, s.proms p2 = some q2 → c2 ∈ q2.conts → c2.sendPid ≠ c.sendPid) :
    Invariant (readyBody s c) := by
  cases hw : wsOpenB s
  case false =>
    rw [readyBody_notOpen s c hw]
    exact inv_settleSendFinal s c.sendPid _ _ hI q hqp hqk hqs hnp hnc
      (by simp [sendReasons])
  case true =>
    rw [readyBody_open s c hw]
    have hfresh : ∀ x ∈ s.wsPending, x.1 ≠ s.wsReqId + 1 := by
      intro x hx h
      have := hI.pendKeyLe x hx
      omega
    rw [pendSet_fresh s.wsPending (s.wsReqId + 1) ⟨c.sendPid, s.nTimers⟩ hfresh]
    constructor
    case promBound => exact hI.promBound
    case sockBound => exact hI.sockBound
    case timerBound =>
      intro t ht
      have ht2 : s.nTimers + 1 ≤ t := ht
      have hne : t ≠ s.nTimers := by omega
      show (if t = s.nTimers then _ else s.timers t) = none
      simp [hne]
      exact hI.timerBound t (by omega)
    case logBound => exact hI.logBound
    case connState => exact hI.connState
    case sendNoConts => exact hI.sendNoConts
    case settledNoConts => exact hI.settledNoConts
    case contsLen => exact hI.contsLen
    case contValid => exact hI.contValid
    case contContDistinct => exact hI.contContDistinct
    case contPendDisjoint =>
      intro p2 q2 c2 x hq2 hc2 hx
      rcases List.mem_append.mp hx with h1 | h2
      · exact hI.contPendDisjoint p2 q2 c2 x hq2 hc2 h1
      · simp only [List.mem_singleton] at h2
        subst h2
        exact hnc p2 q2 c2 hq2 hc2
    case sockProm => exact hI.sockProm
    case promSock => exact hI.promSock
    case pendKeyLe =>
      intro x hx
      rcases List.mem_append.mp hx with h1 | h2
      · have := hI.pendKeyLe x h1
        show x.1 ≤ s.wsReqId + 1
        omega
      · simp only [List.mem_singleton] at h2
        subst h2
        exact le_rfl
    case pendKeyNodup =>
      show ((s.wsPending ++ [(s.wsReqId + 1, (⟨c.sendPid, s.nTimers⟩ : Pend))]).map
        Prod.fst).Nodup
      rw [List.map_append, List.nodup_append]
      refine ⟨hI.pendKeyNodup, List.nodup_singleton _, ?_⟩
      intro a ha hb
      simp only [List.map_cons, List.map_nil, List.mem_singleton] at hb
      subst hb
      obtain ⟨x, hx, hxa⟩ := List.mem_map.mp ha
      exact hfresh x hx hxa
    case pendPidNodup =>
      show ((s.wsPending ++ [(s.wsReqId + 1, (⟨c.sendPid, s.nTimers⟩ : Pend))]).map
        (fun x => x.2.sendPid)).Nodup
      rw [List.map_append, List.nodup_append]
      refine ⟨hI.pendPidNodup, List.nodup_singleton _, ?_⟩
      intro a ha hb
      simp only [List.map_cons, List.map_nil, List.mem_singleton] at hb
      subst hb
      obtain ⟨x, hx, hxa⟩ := List.mem_map.mp ha
      exact hnp x hx hxa
    case pendProm =>
      intro x hx
      rcases List.mem_append.mp hx with h1 | h2
      · exact hI.pendProm x h1
      · simp only [List.mem_singleton] at h2
        subst h2
        exact ⟨q, hqp, hqk, hqs⟩
    case pendTimer =>
      intro x hx
      rcases List.mem_append.mp hx with h1 | h2
      · obtain ⟨t0, ht0, hact, hrid, hpid⟩ := hI.pendTimer x h1
        have hne : x.2.timer ≠ s.nTimers := by
          intro h
          rw [h, hI.timerBound s.nTimers le_rfl] at ht0
          cases ht0
        refine ⟨t0, ?_, hact, hrid, hpid⟩
        show (if x.2.timer = s.nTimers then _ else s.timers x.2.timer) = some t0
        simp [hne]
        exact ht0
      · simp only [List.mem_singleton] at h2
        subst h2
        refine ⟨⟨true, s.wsReqId + 1, c.sendPid, c.timeoutMs⟩, ?_, rfl, rfl, rfl⟩
        show (if s.nTimers = s.nTimers then _ else s.timers s.nTimers) = _
        simp
    case timerPend =>
      intro tid t ht hact
      by_cases htid : tid = s.nTimers
      · subst htid
        have ht2 : (if s.nTimers = s.nTimers then
            some (⟨true, s.wsReqId + 1, c.sendPid, c.timeoutMs⟩ : Timer)
          else s.timers s.nTimers) = some t := ht
        simp only [if_pos rfl] at ht2
        cases ht2
        refine ⟨⟨c.sendPid, s.nTimers⟩, ?_, rfl, rfl⟩
        exact List.mem_append_right _ (by simp)
      · have ht2 : s.timers tid = some t := by
          have ht3 : (if tid = s.nTimers then
              some (⟨true, s.wsReqId + 1, c.sendPid, c.timeoutMs⟩ : Timer)
            else s.timers tid) = some t := ht
          simpa [htid] using ht3
        obtain ⟨e, he, het, hep⟩ := hI.timerPend tid t ht2 hact
        exact ⟨e, List.mem_append_left _ he, het, hep⟩
    case sendOnce => exact hI.sendOnce
    case logReason => exact hI.logReason
    case issuedChain =>
      show (s.issued ++ [s.wsReqId + 1]).Pairwise (· < ·)
      rw [List.pairwise_append]
      refine ⟨hI.issuedChain, List.pairwise_singleton _ _, ?_⟩
      intro a ha b hb
      simp only [List.mem_singleton] at hb
      subst hb
      have := hI.issuedLe a ha
      omega
    case issuedLe =>
      intro i hi
      rcases List.mem_append.mp hi with h1 | h2
      · have := hI.issuedLe i h1
        show i ≤ s.wsReqId + 1
        omega
      · simp only [List.mem_singleton] at h2
        subst h2
        exact le_rfl

theorem inv_logConnect (s : St) (cp : Nat) (r : Reason) (hI : Invariant s)
    (cpr : Prom) (hcp : s.proms cp = some cpr) (hk : cpr.kind = .connect)
    (hr : r = .connectImmediate ∨ r = .connectAuth) :
    Invariant { s with settleLog := s.settleLog ++ [(cp, r)] } := by
  have hplt : cp < s.nProms := by
    by_contra hge
    rw [hI.promBound cp (Nat.le_of_not_lt hge)] at hcp
    cases hcp
  constructor
  case promBound => exact hI.promBound
  case sockBound => exact hI.sockBound
  case timerBound => exact hI.timerBound
  case logBound =>
    intro x hx
    rcases List.mem_append.mp hx with h1 | h2
    · exact hI.logBound x h1
    · simp only [List.mem_singleton] at h2
      subst h2
      exact hplt
  case connState => exact hI.connState
  case sendNoConts => exact hI.sendNoConts
  case settledNoConts => exact hI.settledNoConts
  case contsLen => exact hI.contsLen
  case contValid => exact hI.contValid
  case contContDistinct => exact hI.contContDistinct
  case contPendDisjoint => exact hI.contPendDisjoint
  case sockProm => exact hI.sockProm
  case promSock => exact hI.promSock
  case pendKeyLe => exact hI.pendKeyLe
  case pendKeyNodup => exact hI.pendKeyNodup
  case pendPidNodup => exact hI.pendPidNodup
  case pendProm => exact hI.pendProm
  case pendTimer => exact hI.pendTimer
  case timerPend => exact hI.timerPend
  case sendOnce =>
    intro p2 q2 hq2 hk2
    have hne : cp ≠ p2 := by
      intro h
      subst h
      rw [hcp] at hq2
      cases hq2
      rw [hk] at hk2
      cases hk2
    have hlc := logCount_single s { s with settleLog := s.settleLog ++ [(cp, r)] }
      cp r rfl p2
    rw [hlc]
    simp [hne]
    exact hI.sendOnce p2 q2 hq2 hk2
  case logReason =>
    intro x hx q2 hq2
    rcases List.mem_append.mp hx with h1 | h2
    · exact hI.logReason x h1 q2 hq2
    · simp only [List.mem_singleton] at h2
      subst h2
      constructor
      · intro hk2
        rw [hcp] at hq2
        cases hq2
        rw [hk] at hk2
        cases hk2
      · intro _
        exact hr
  case issuedChain => exact hI.issuedChain
  case issuedLe => exact hI.issuedLe

theorem inv_resolveConnect (s : St) (cp : Nat) (r : Reason) (hI : Invariant s)
    (cpr : Prom) (hcp : s.proms cp = some cpr) (hk : cpr.kind = .connect)
    (hr : r = .connectImmediate ∨ r = .connectAuth) :
    Invariant (resolveConnect s cp r) := by
  have hplt : cp < s.nProms := by
    by_contra hge
    rw [hI.promBound cp (Nat.le_of_not_lt hge)] at hcp
    cases hcp
  by_cases hst : cpr.state = none
  case neg =>
    rw [resolveConnect_settled s cp r cpr hcp hst]
    exact inv_logConnect s cp r hI cpr hcp hk hr
  case pos =>
    rw [resolveConnect_unsettled s cp r cpr hcp hst]
    set s3 : St :=
      { s with
        settleLog := s.settleLog ++ [(cp, r)],
        proms := fun x =>
          if x = cp then some { cpr with state := some .ready, conts := [] }
          else s.proms x } with hs3
    have hlook3 : ∀ x, s3.proms x =
        if x = cp then some { cpr with state := some .ready, conts := [] }
        else s.proms x := fun x => rfl
    have hI3 : Invariant s3 := by
      have hbase := inv_logConnect s cp r hI cpr hcp hk hr
      constructor
      case promBound =>
        intro x hx
        have hx2 : s.nProms ≤ x := hx
        rw [hlook3]
        have hne : x ≠ cp := by omega
        simp [hne]
        exact hI.promBound x hx2
      case sockBound => exact hI.sockBound
      case timerBound => exact hI.timerBound
      case logBound => exact hbase.logBound
      case connState =>
        intro x q2 hq2 hk2
        rw [hlook3] at hq2
        by_cases hx : x = cp
        · subst hx
          simp at hq2
          rw [← hq2]
          exact Or.inr rfl
        · simp [hx] at hq2
          exact hI.connState x q2 hq2 hk2
      case sendNoConts =>
        intro x q2 hq2 hk2
        rw [hlook3] at hq2
        by_cases hx : x = cp
        · subst hx; simp at hq2; rw [← hq2]
        · simp [hx] at hq2
          exact hI.sendNoConts x q2 hq2 hk2
      case settledNoConts =>
        intro x q2 hq2 hk2
        rw [hlook3] at hq2
        by_cases hx : x = cp
        · subst hx; simp at hq2; rw [← hq2]
        · simp [hx] at hq2
          exact hI.settledNoConts x q2 hq2 hk2
      case contsLen =>
        intro x q2 hq2
        rw [hlook3] at hq2
        by_cases hx : x = cp
        · subst hx; simp at hq2; rw [← hq2]; simp
        · simp [hx] at hq2
          exact hI.contsLen x q2 hq2
      case contValid =>
        intro x q2 c2 hq2 hc2
        rw [hlook3] at hq2
        by_cases hx : x = cp
        · subst hx; simp at hq2; rw [← hq2] at hc2; simp at hc2
        · simp [hx] at hq2
          obtain ⟨qt, hqt, hk2, hs2⟩ := hI.contValid x q2 c2 hq2 hc2
          refine ⟨qt, ?_, hk2, hs2⟩
          rw [hlook3]
          have hnecp : c2.sendPid ≠ cp := by
            intro h
            rw [h, hcp] at hqt
            cases hqt
            rw [hk] at hk2
            cases hk2
          simp [hnecp]
          exact hqt
      case contContDistinct =>
        intro p1 pr1 c1 p2 pr2 c2 h1 h2 hc1 hc2 heq
        rw [hlook3] at h1 h2
        by_cases hx1 : p1 = cp
        · subst hx1; simp at h1; rw [← h1] at hc1; simp at hc1
        · by_cases hx2 : p2 = cp
          · subst hx2; simp at h2; rw [← h2] at hc2; simp at hc2
          · simp [hx1] at h1
            simp [hx2] at h2
            exact hI.contContDistinct p1 pr1 c1 p2 pr2 c2 h1 h2 hc1 hc2 heq
      case contPendDisjoint =>
        intro x q2 c2 y hq2 hc2 hy
        rw [hlook3] at hq2
        by_cases hx : x = cp
        · subst hx; simp at hq2; rw [← hq2] at hc2; simp at hc2
        · simp [hx] at hq2
          exact hI.contPendDisjoint x q2 c2 y hq2 hc2 hy
      case sockProm =>
        intro i k2 hk2
        obtain ⟨q2, hq2, hqk2, hqs2⟩ := hI.sockProm i k2 hk2
        rw [hlook3]
        by_cases hx : k2.connPid = cp
        · rw [hx, hcp] at hq2
          cases hq2
          refine ⟨{ cpr with state := some .ready, conts := [] }, ?_, hqk2, hqs2⟩
          simp [hx]
        · refine ⟨q2, ?_, hqk2, hqs2⟩
          simp [hx]
          exact hq2
      case promSock =>
        intro x q2 i hq2 hs2
        rw [hlook3] at hq2
        by_cases hx : x = cp
        · subst hx
          simp at hq2
          rw [← hq2] at hs2
          simp at hs2
          exact hI.promSock _ cpr i hcp hs2
        · simp [hx] at hq2
          exact hI.promSock x q2 i hq2 hs2
      case pendKeyLe => exact hI.pendKeyLe
      case pendKeyNodup => exact hI.pendKeyNodup
      case pendPidNodup => exact hI.pendPidNodup
      case pendProm =>
        intro x hx
        obtain ⟨q2, hq2, hk2, hs2⟩ := hI.pendProm x hx
        refine ⟨q2, ?_, hk2, hs2⟩
        rw [hlook3]
        have hnecp : x.2.sendPid ≠ cp := by
          intro h
          rw [h, hcp] at hq2
          cases hq2
          rw [hk] at hk2
          cases hk2
        simp [hnecp]
        exact hq2
      case pendTimer => exact hI.pendTimer
      case timerPend => exact hI.timerPend
      case sendOnce =>
        intro x q2 hq2 hk2
        rw [hlook3] at hq2
        by_cases hx : x = cp
        · subst hx
          simp at hq2
          rw [← hq2] at hk2
          simp [hk] at hk2
        · simp [hx] at hq2
          have hlc := logCount_single s s3 cp r rfl x
          rw [hlc]
          have hxne : ¬(cp = x) := fun h => hx h.symm
          simp [hxne]
          exact hI.sendOnce x q2 hq2 hk2
      case logReason =>
        intro x hx q2 hq2
        rw [hlook3] at hq2
        by_cases hxp : x.1 = cp
        · rw [hxp] at hq2
          simp at hq2
          have hbr := hbase.logReason x hx cpr (by rw [hxp]; exact hcp)
          constructor
          · intro hk2
            rw [← hq2] at hk2
            simp [hk] at hk2
          · intro _
            exact hbr.2 hk
        · simp [hxp] at hq2
          exact hbase.logReason x hx q2 hq2
      case issuedChain => exact hI.issuedChain
      case issuedLe => exact hI.issuedLe
    cases hcon : cpr.conts with
    | nil => simpa [hcon] using hI3
    | cons c tail =>
      have hlen := hI.contsLen cp cpr hcp
      rw [hcon] at hlen
      simp at hlen
      subst hlen
      simp only [hcon, List.foldl_cons, List.foldl_nil]
      have hc : c ∈ cpr.conts := by rw [hcon]; simp
      obtain ⟨qt, hqt, hqtk, hqts⟩ := hI.contValid cp cpr c hcp hc
      have hnecp : c.sendPid ≠ cp := by
        intro h
        rw [h, hcp] at hqt
        cases hqt
        rw [hk] at hqtk
        cases hqtk
      refine inv_readyBody s3 c hI3 qt ?_ hqtk hqts ?_ ?_
      · rw [hlook3]
        simp [hnecp]
        exact hqt
      · intro x hx
        exact (hI.contPendDisjoint cp cpr c x hcp hc hx).symm
      · intro p2 q2 c2 hq2 hc2
        rw [hlook3] at hq2
        by_cases hx : p2 = cp
        · subst hx; simp at hq2; rw [← hq2] at hc2; simp at hc2
        · simp [hx] at hq2
          intro heq
          exact hx (hI.contContDistinct p2 q2 c2 cp cpr c hq2 hcp hc2 hc heq)

theorem inv_attachCont (s : St) (cp : Nat) (c : ThenCont) (hI : Invariant s)
    (cpr : Prom) (hcp : s.proms cp = some cpr) (hk : cpr.kind = .connect)
    (hst : cpr.state = none ∨ cpr.state = some .ready)
    (hconts : cpr.conts = [])
    (q : Prom) (hqp : s.proms c.sendPid = some q) (hqk : q.kind = .send)
    (hqs : q.state = none)
    (hnp : ∀ x ∈ s.wsPending, x.2.sendPid ≠ c.sendPid)
    (hnc : ∀ p2 q2 c2, s.proms p2 = some q2 → c2 ∈ q2.conts → c2.sendPid ≠ c.sendPid) :
    Invariant (attachCont s cp c) := by
  have hplt : cp < s.nProms := by
    by_contra hge
    rw [hI.promBound cp (Nat.le_of_not_lt hge)] at hcp
    cases hcp
  have hnecp : c.sendPid ≠ cp := by
    intro h
    rw [h, hcp] at hqp
    cases hqp
    rw [hk] at hqk
    cases hqk
  rcases hst with hst | hst
  · rw [attachCont_pending s cp c cpr hcp hst]
    set s2 : St :=
      { s with proms := fun x =>
          if x = cp then some { cpr with conts := cpr.conts ++ [c] }
          else s.proms x } with hs2
    have hlook : ∀ x, s2.proms x =
        if x = cp then some { cpr with conts := cpr.conts ++ [c] }
        else s.proms x := fun x => rfl
    have hnewconts : cpr.conts ++ [c] = [c] := by rw [hconts]; rfl
    constructor
    case promBound =>
      intro x hx
      have hx2 : s.nProms ≤ x := hx
      rw [hlook]
      have hne : x ≠ cp := by omega
      simp [hne]
      exact hI.promBound x hx2
    case sockBound => exact hI.sockBound
    case timerBound => exact hI.timerBound
    case logBound => exact hI.logBound
    case connState =>
      intro x q2 hq2 hk2
      rw [hlook] at hq2
      by_cases hx : x = cp
      · subst hx
        simp at hq2
        rw [← hq2]
        exact Or.inl hst
      · simp [hx] at hq2
        exact hI.connState x q2 hq2 hk2
    case sendNoConts =>
      intro x q2 hq2 hk2
      rw [hlook] at hq2
      by_cases hx : x = cp
      · subst hx
        simp at hq2
        rw [← hq2] at hk2
        simp [hk] at hk2
      · simp [hx] at hq2
        exact hI.sendNoConts x q2 hq2 hk2
    case settledNoConts =>
      intro x q2 hq2 hk2
      rw [hlook] at hq2
      by_cases hx : x = cp
      · subst hx
        simp at hq2
        rw [← hq2] at hk2
        simp [hst] at hk2
      · simp [hx] at hq2
        exact hI.settledNoConts x q2 hq2 hk2
    case contsLen =>
      intro x q2 hq2
      rw [hlook] at hq2
      by_cases hx : x = cp
      · subst hx
        simp at hq2
        rw [← hq2]
        simp [hnewconts]
      · simp [hx] at hq2
        exact hI.contsLen x q2 hq2
    case contValid =>
      intro x q2 c2 hq2 hc2
      rw [hlook] at hq2
      by_cases hx : x = cp
      · subst hx
        simp at hq2
        rw [← hq2] at hc2
        simp only [hnewconts] at hc2
        simp only [List.mem_singleton] at hc2
        subst hc2
        refine ⟨q, ?_, hqk, hqs⟩
        rw [hlook]
        simp [hnecp]
        exact hqp
      · simp [hx] at hq2
        obtain ⟨qt, hqt, hk2, hs3⟩ := hI.contValid x q2 c2 hq2 hc2
        refine ⟨qt, ?_, hk2, hs3⟩
        rw [hlook]
        have hne2 : c2.sendPid ≠ cp := by
          intro h
          rw [h, hcp] at hqt
          cases hqt
          rw [hk] at hk2
          cases hk2
        simp [hne2]
        exact hqt
    case contContDistinct =>
      intro p1 pr1 c1 p2 pr2 c2 h1 h2 hc1 hc2 heq
      rw [hlook] at h1 h2
      by_cases hx1 : p1 = cp
      · by_cases hx2 : p2 = cp
        · rw [hx1, hx2]
        · subst hx1
          simp at h1
          rw [← h1] at hc1
          simp only [hnewconts, List.mem_singleton] at hc1
          subst hc1
          simp [hx2] at h2
          exact absurd heq.symm (hnc p2 pr2 c2 h2 hc2)
      · by_cases hx2 : p2 = cp
        · subst hx2
          simp at h2
          rw [← h2] at hc2
          simp only [hnewconts, List.mem_singleton] at hc2
          subst hc2
          simp [hx1] at h1
          exact absurd heq (hnc p1 pr1 c1 h1 hc1)
        · simp [hx1] at h1
          simp [hx2] at h2
          exact hI.contContDistinct p1 pr1 c1 p2 pr2 c2 h1 h2 hc1 hc2 heq
    case contPendDisjoint =>
      intro x q2 c2 y hq2 hc2 hy
      rw [hlook] at hq2
      by_cases hx : x = cp
      · subst hx
        simp at hq2
        rw [← hq2] at hc2
        simp only [hnewconts, List.mem_singleton] at hc2
        subst hc2
        exact (hnp y hy).symm
      · simp [hx] at hq2
        exact hI.contPendDisjoint x q2 c2 y hq2 hc2 hy
    case sockProm =>
      intro i k2 hk2
      obtain ⟨q2, hq2, hqk2, hqs2⟩ := hI.sockProm i k2 hk2
      rw [hlook]
      by_cases hx : k2.connPid = cp
      · rw [hx, hcp] at hq2
        cases hq2
        refine ⟨{ cpr with conts := cpr.conts ++ [c] }, ?_, hqk2, hqs2⟩
        simp [hx]
      · refine ⟨q2, ?_, hqk2, hqs2⟩
        simp [hx]
        exact hq2
    case promSock =>
      intro x q2 i hq2 hs3
      rw [hlook] at hq2
      by_cases hx : x = cp
      · subst hx
        simp at hq2
        rw [← hq2] at hs3
        simp at hs3
        exact hI.promSock _ cpr i hcp hs3
      · simp [hx] at hq2
        exact hI.promSock x q2 i hq2 hs3
    case pendKeyLe => exact hI.pendKeyLe
    case pendKeyNodup => exact hI.pendKeyNodup
    case pendPidNodup => exact hI.pendPidNodup
    case pendProm =>
      intro x hx
      obtain ⟨q2, hq2, hk2, hs3⟩ := hI.pendProm x hx
      refine ⟨q2, ?_, hk2, hs3⟩
      rw [hlook]
      have hne2 : x.2.sendPid ≠ cp := by
        intro h
        rw [h, hcp] at hq2
        cases hq2
        rw [hk] at hk2
        cases hk2
      simp [hne2]
      exact hq2
    case pendTimer => exact hI.pendTimer
    case timerPend => exact hI.timerPend
    case sendOnce =>
      intro x q2 hq2 hk2
      rw [hlook] at hq2
      by_cases hx : x = cp
      · subst hx
        simp at hq2
        rw [← hq2] at hk2
        simp [hk] at hk2
      · simp [hx] at hq2
        exact hI.sendOnce x q2 hq2 hk2
    case logReason =>
      intro x hx q2 hq2
      rw [hlook] at hq2
      by_cases hxp : x.1 = cp
      · rw [hxp] at hq2
        simp at hq2
        have hbr := hI.logReason x hx cpr (by rw [hxp]; exact hcp)
        constructor
        · intro hk2
          rw [← hq2] at hk2
          simp [hk] at hk2
        · intro _
          exact hbr.2 hk
      · simp [hxp] at hq2
        exact hI.logReason x hx q2 hq2
    case issuedChain => exact hI.issuedChain
    case issuedLe => exact hI.issuedLe
  · rw [attachCont_ready s cp c cpr hcp hst]
    exact inv_readyBody s c hI q hqp hqk hqs hnp hnc

theorem wsConnect_facts (s : St) :
    (wsConnect s).2 = s.nProms ∧
    (wsConnect s).1.wsPending = s.wsPending ∧
    (∀ x, x ≠ s.nProms → (wsConnect s).1.proms x = s.proms x) ∧
    (∃ cpr, (wsConnect s).1.proms s.nProms = some cpr ∧ cpr.kind = .connect ∧
      (cpr.state = none ∨ cpr.state = some .ready) ∧ cpr.conts = []) ∧
    (∀ p2 q2 c2, (wsConnect s).1.proms p2 = some q2 → c2 ∈ q2.conts →
      ∃ q3, s.proms p2 = some q3 ∧ c2 ∈ q3.conts) := by
  cases hw : wsOpenB s
  case true =>
    rw [wsConnect_open s hw]
    have hre := resolveConnect_unsettled (allocProm s ⟨.connect, none, [], none⟩)
      s.nProms .connectImmediate ⟨.connect, none, [], none⟩
      (allocProm_proms_eq s ⟨.connect, none, [], none⟩) rfl
    simp only [List.foldl_nil] at hre
    rw [hre]
    refine ⟨rfl, rfl, ?_, ?_, ?_⟩
    · intro x hx
      show (if x = s.nProms then _ else (allocProm s _).proms x) = s.proms x
      simp [hx]
      exact allocProm_proms_ne s _ x hx
    · refine ⟨⟨.connect, some .ready, [], none⟩, ?_, rfl, Or.inr rfl, rfl⟩
      show (if s.nProms = s.nProms then _ else _) = _
      simp
    · intro p2 q2 c2 hq2 hc2
      by_cases hx : p2 = s.nProms
      · subst hx
        have : (if s.nProms = s.nProms then
            some (⟨.connect, some .ready, ([] : List ThenCont), none⟩ : Prom)
          else (allocProm s ⟨.connect, none, [], none⟩).proms s.nProms) = some q2 := hq2
        simp at this
        rw [← this] at hc2
        simp at hc2
      · have : (if p2 = s.nProms then
            some (⟨.connect, some .ready, ([] : List ThenCont), none⟩ : Prom)
          else (allocProm s ⟨.connect, none, [], none⟩).proms p2) = some q2 := hq2
        simp [hx] at this
        rw [allocProm_proms_ne s _ p2 hx] at this
        exact ⟨q2, this, hc2⟩
  case false =>
    rw [wsConnect_notOpen s hw]
    refine ⟨rfl, rfl, ?_, ?_, ?_⟩
    · intro x hx
      show (if x = s.nProms then _ else (allocProm s _).proms x) = s.proms x
      simp [hx]
      exact allocProm_proms_ne s _ x hx
    · refine ⟨⟨.connect, none, [], some s.nSocks⟩, ?_, rfl, Or.inl rfl, rfl⟩
      show (if s.nProms = s.nProms then _ else _) = _
      simp
    · intro p2 q2 c2 hq2 hc2
      by_cases hx : p2 = s.nProms
      · subst hx
        have : (if s.nProms = s.nProms then
            some (⟨.connect, none, ([] : List ThenCont), some s.nSocks⟩ : Prom)
          else (allocProm s ⟨.connect, none, [], none⟩).proms s.nProms) = some q2 := hq2
        simp at this
        rw [← this] at hc2
        simp at hc2
      · have : (if p2 = s.nProms then
            some (⟨.connect, none, ([] : List ThenCont), some s.nSocks⟩ : Prom)
          else (allocProm s ⟨.connect, none, [], none⟩).proms p2) = some q2 := hq2
        simp [hx] at this
        rw [allocProm_proms_ne s _ p2 hx] at this
        exact ⟨q2, this, hc2⟩

theorem inv_wsConnect (s : St) (hI : Invariant s) : Invariant (wsConnect s).1 := by
  cases hw : wsOpenB s
  case true =>
    rw [wsConnect_open s hw]
    have hA := inv_allocProm s ⟨.connect, none, [], none⟩ hI rfl rfl rfl
    exact inv_resolveConnect _ s.nProms .connectImmediate hA
      ⟨.connect, none, [], none⟩ (allocProm_proms_eq s _) rfl (Or.inl rfl)
  case false =>
    rw [wsConnect_notOpen s hw]
    set newProm : Prom := ⟨.connect, none, [], some s.nSocks⟩ with hnewProm
    set newSock : Sock := ⟨.CONNECTING, s.nProms, urlTokenOf s⟩ with hnewSock
    set s2 : St :=
      { allocProm s ⟨.connect, none, [], none⟩ with
          socks := fun i => if i = s.nSocks then some newSock else s.socks i,
          nSocks := s.nSocks + 1,
          proms := fun x =>
            if x = s.nProms then some newProm
            else (allocProm s ⟨.connect, none, [], none⟩).proms x,
          ws := some s.nSocks } with hs2
    have hlook : ∀ x, s2.proms x =
        if x = s.nProms then some newProm else s.proms x := by
      intro x
      by_cases hx : x = s.nProms
      · simp [hs2, hx]
      · show (if x = s.nProms then _ else (allocProm s _).proms x) = _
        simp [hx]
        exact allocProm_proms_ne s _ x hx
    have hlooks : ∀ i, s2.socks i =
        if i = s.nSocks then some newSock else s.socks i := fun i => rfl
    constructor
    case promBound =>
      intro x hx
      have hx2 : s.nProms + 1 ≤ x := hx
      rw [hlook]
      have hne : x ≠ s.nProms := by omega
      simp [hne]
      exact hI.promBound x (by omega)
    case sockBound =>
      intro i hi
      have hi2 : s.nSocks + 1 ≤ i := hi
      rw [hlooks]
      have hne : i ≠ s.nSocks := by omega
      simp [hne]
      exact hI.sockBound i (by omega)
    case timerBound => exact hI.timerBound
    case logBound =>
      intro x hx
      exact Nat.lt_succ_of_lt (hI.logBound x hx)
    case connState =>
      intro x q2 hq2 hk2
      rw [hlook] at hq2
      by_cases hx : x = s.nProms
      · subst hx
        simp at hq2
        rw [← hq2]
        exact Or.inl rfl
      · simp [hx] at hq2
        exact hI.connState x q2 hq2 hk2
    case sendNoConts =>
      intro x q2 hq2 hk2
      rw [hlook] at hq2
      by_cases hx : x = s.nProms
      · subst hx
        simp at hq2
        rw [← hq2] at hk2
        simp [hnewProm] at hk2
      · simp [hx] at hq2
        exact hI.sendNoConts x q2 hq2 hk2
    case settledNoConts =>
      intro x q2 hq2 hk2
      rw [hlook] at hq2
      by_cases hx : x = s.nProms
      · subst hx
        simp at hq2
        rw [← hq2] at hk2
        simp [hnewProm] at hk2
      · simp [hx] at hq2
        exact hI.settledNoConts x q2 hq2 hk2
    case contsLen =>
      intro x q2 hq2
      rw [hlook] at hq2
      by_cases hx : x = s.nProms
      · subst hx
        simp at hq2
        rw [← hq2]
        simp [hnewProm]
      · simp [hx] at hq2
        exact hI.contsLen x q2 hq2
    case contValid =>
      intro x q2 c2 hq2 hc2
      rw [hlook] at hq2
      by_cases hx : x = s.nProms
      · subst hx
        simp at hq2
        rw [← hq2] at hc2
        simp [hnewProm] at hc2
      · simp [hx] at hq2
        obtain ⟨qt, hqt, hk2, hs3⟩ := hI.contValid x q2 c2 hq2 hc2
        refine ⟨qt, ?_, hk2, hs3⟩
        rw [hlook]
        have hne2 : c2.sendPid ≠ s.nProms := by
          intro h
          rw [h, hI.promBound s.nProms le_rfl] at hqt
          cases hqt
        simp [hne2]
        exact hqt
    case contContDistinct =>
      intro p1 pr1 c1 p2 pr2 c2 h1 h2 hc1 hc2 heq
      rw [hlook] at h1 h2
      by_cases hx1 : p1 = s.nProms
      · subst hx1
        simp at h1
        rw [← h1] at hc1
        simp [hnewProm] at hc1
      · by_cases hx2 : p2 = s.nProms
        · subst hx2
          simp at h2
          rw [← h2] at hc2
          simp [hnewProm] at hc2
        · simp [hx1] at h1
          simp [hx2] at h2
          exact hI.contContDistinct p1 pr1 c1 p2 pr2 c2 h1 h2 hc1 hc2 heq
    case contPendDisjoint =>
      intro x q2 c2 y hq2 hc2 hy
      rw [hlook] at hq2
      by_cases hx : x = s.nProms
      · subst hx
        simp at hq2
        rw [← hq2] at hc2
        simp [hnewProm] at hc2
      · simp [hx] at hq2
        exact hI.contPendDisjoint x q2 c2 y hq2 hc2 hy
    case sockProm =>
      intro i k2 hk2
      rw [hlooks] at hk2
      by_cases hi : i = s.nSocks
      · subst hi
        simp at hk2
        rw [← hk2]
        refine ⟨newProm, ?_, rfl, rfl⟩
        rw [hlook]
        simp [hnewSock]
      · simp [hi] at hk2
        obtain ⟨q2, hq2, hqk2, hqs2⟩ := hI.sockProm i k2 hk2
        refine ⟨q2, ?_, hqk2, hqs2⟩
        rw [hlook]
        have hne2 : k2.connPid ≠ s.nProms := by
          intro h
          rw [h, hI.promBound s.nProms le_rfl] at hq2
          cases hq2
        simp [hne2]
        exact hq2
    case promSock =>
      intro x q2 i hq2 hs3
      rw [hlook] at hq2
      by_cases hx : x = s.nProms
      · subst hx
        simp at hq2
        rw [← hq2] at hs3
        simp [hnewProm] at hs3
        subst hs3
        refine ⟨newSock, ?_, rfl⟩
        rw [hlooks]
        simp
      · simp [hx] at hq2
        obtain ⟨k2, hk2, hkc⟩ := hI.promSock x q2 i hq2 hs3
        refine ⟨k2, ?_, hkc⟩
        rw [hlooks]
        have hne2 : i ≠ s.nSocks := by
          intro h
          rw [h, hI.sockBound s.nSocks le_rfl] at hk2
          cases hk2
        simp [hne2]
        exact hk2
    case pendKeyLe => exact hI.pendKeyLe
    case pendKeyNodup => exact hI.pendKeyNodup
    case pendPidNodup => exact hI.pendPidNodup
    case pendProm =>
      intro x hx
      obtain ⟨q2, hq2, hk2, hs3⟩ := hI.pendProm x hx
      refine ⟨q2, ?_, hk2, hs3⟩
      rw [hlook]
      have hne2 : x.2.sendPid ≠ s.nProms := by
        intro h
        rw [h, hI.promBound s.nProms le_rfl] at hq2
        cases hq2
      simp [hne2]
      exact hq2
    case pendTimer => exact hI.pendTimer
    case timerPend => exact hI.timerPend
    case sendOnce =>
      intro x q2 hq2 hk2
      rw [hlook] at hq2
      by_cases hx : x = s.nProms
      · subst hx
        simp at hq2
        rw [← hq2] at hk2
        simp [hnewProm] at hk2
      · simp [hx] at hq2
        exact hI.sendOnce x q2 hq2 hk2
    case logReason =>
      intro x hx q2 hq2
      rw [hlook] at hq2
      have hlt := hI.logBound x hx
      have hne2 : x.1 ≠ s.nProms := Nat.ne_of_lt hlt
      simp [hne2] at hq2
      exact hI.logReason x hx q2 hq2
    case issuedChain => exact hI.issuedChain
    case issuedLe => exact hI.issuedLe

theorem inv_wsSend (s : St) (a : String) (tmo : Nat) (hI : Invariant s) :
    Invariant (wsSend s a tmo) := by
  have hA := inv_allocProm s ⟨.send, none, [], none⟩ hI rfl rfl rfl
  have hq1 : (allocProm s ⟨.send, none, [], none⟩).proms s.nProms =
      some ⟨.send, none, [], none⟩ := allocProm_proms_eq s _
  have hnp1 : ∀ x ∈ (allocProm s ⟨.send, none, [], none⟩).wsPending,
      x.2.sendPid ≠ s.nProms := by
    intro x hx h
    obtain ⟨q2, hq2, _, _⟩ := hI.pendProm x hx
    rw [h, hI.promBound s.nProms le_rfl] at hq2
    cases hq2
  have hnc1 : ∀ p2 q2 c2, s.proms p2 = some q2 → c2 ∈ q2.conts →
      c2.sendPid ≠ s.nProms := by
    intro p2 q2 c2 hq2 hc2 h
    obtain ⟨qt, hqt, _, _⟩ := hI.contValid p2 q2 c2 hq2 hc2
    rw [h, hI.promBound s.nProms le_rfl] at hqt
    cases hqt
  cases hw : wsOpenB s
  case true =>
    rw [wsSend_open s a tmo hw]
    refine inv_readyBody _ ⟨s.nProms, a, tmo⟩ hA ⟨.send, none, [], none⟩ hq1 rfl rfl
      hnp1 ?_
    intro p2 q2 c2 hq2 hc2
    rcases allocProm_lookup s ⟨.send, none, [], none⟩ p2 q2 hq2 with ⟨_, rfl⟩ | ⟨_, hold⟩
    · simp at hc2
    · exact hnc1 p2 q2 c2 hold hc2
  case false =>
    rw [wsSend_notOpen s a tmo hw]
    set s1 := allocProm s ⟨.send, none, [], none⟩ with hs1
    have hI2 : Invariant (wsConnect s1).1 := inv_wsConnect s1 hA
    obtain ⟨hcp2, hpend2, hprom2, ⟨cpr, hcpr, hcprk, hcprs, hcprc⟩, hcont2⟩ :=
      wsConnect_facts s1
    rw [hcp2]
    have hplt : s.nProms ≠ s1.nProms := by
      show s.nProms ≠ s.nProms + 1
      omega
    refine inv_attachCont (wsConnect s1).1 s1.nProms ⟨s.nProms, a, tmo⟩ hI2
      cpr hcpr hcprk hcprs hcprc ⟨.send, none, [], none⟩ ?_ rfl rfl ?_ ?_
    · rw [hprom2 s.nProms hplt]
      exact hq1
    · intro x hx
      rw [hpend2] at hx
      exact hnp1 x hx
    · intro p2 q2 c2 hq2 hc2
      obtain ⟨q3, hq3, hc3⟩ := hcont2 p2 q2 c2 hq2 hc2
      rcases allocProm_lookup s ⟨.send, none, [], none⟩ p2 q3 hq3 with ⟨_, rfl⟩ | ⟨_, hold⟩
      · simp at hc3
      · exact hnc1 p2 q3 c2 hold hc3

theorem inv_sockState (s : St) (sid : Nat) (k : Sock) (rs : ReadyState) (d : Nat)
    (hI : Invariant s) (hk : s.socks sid = some k) :
    Invariant { s with
      socks := fun i =>
        if i = sid then some { k with readyState := rs } else s.socks i,
      wsReconnectDelay := d } := by
  have hslt : sid < s.nSocks := by
    by_contra hge
    rw [hI.sockBound sid (Nat.le_of_not_lt hge)] at hk
    cases hk
  constructor
  case promBound => exact hI.promBound
  case sockBound =>
    intro i hi
    have hi2 : s.nSocks ≤ i := hi
    have hne : i ≠ sid := by omega
    show (if i = sid then _ else s.socks i) = none
    simp [hne]
    exact hI.sockBound i hi2
  case timerBound => exact hI.timerBound
  case logBound => exact hI.logBound
  case connState => exact hI.connState
  case sendNoConts => exact hI.sendNoConts
  case settledNoConts => exact hI.settledNoConts
  case contsLen => exact hI.contsLen
  case contValid => exact hI.contValid
  case contContDistinct => exact hI.contContDistinct
  case contPendDisjoint => exact hI.contPendDisjoint
  case sockProm =>
    intro i k2 hk2
    by_cases hi : i = sid
    · subst hi
      have hk3 : (if i = i then some { k with readyState := rs } else s.socks i)
          = some k2 := hk2
      simp only [if_pos rfl] at hk3
      obtain rfl : k2 = { k with readyState := rs } := (Option.some.inj hk3).symm
      exact hI.sockProm i k hk
    · have hk3 : (if i = sid then some { k with readyState := rs } else s.socks i)
          = some k2 := hk2
      simp only [if_neg hi] at hk3
      exact hI.sockProm i k2 hk3
  case promSock =>
    intro p q2 i hq2 hs2
    obtain ⟨k2, hk2, hkc⟩ := hI.promSock p q2 i hq2 hs2
    by_cases hi : i = sid
    · subst hi
      rw [hk] at hk2
      obtain rfl : k = k2 := Option.some.inj hk2
      refine ⟨{ k with readyState := rs }, ?_, hkc⟩
      show (if i = i then _ else _) = _
      simp
    · refine ⟨k2, ?_, hkc⟩
      show (if i = sid then _ else s.socks i) = some k2
      simp [hi]
      exact hk2
  case pendKeyLe => exact hI.pendKeyLe
  case pendKeyNodup => exact hI.pendKeyNodup
  case pendPidNodup => exact hI.pendPidNodup
  case pendProm => exact hI.pendProm
  case pendTimer => exact hI.pendTimer
  case timerPend => exact hI.timerPend
  case sendOnce => exact hI.sendOnce
  case logReason => exact hI.logReason
  case issuedChain => exact hI.issuedChain
  case issuedLe => exact hI.issuedLe

theorem pend_key_inj (s : St) (hI : Invariant s) (x y : Nat × Pend)
    (hx : x ∈ s.wsPending) (hy : y ∈ s.wsPending) (h : x.1 = y.1) : x = y :=
  List.inj_on_of_nodup_map hI.pendKeyNodup hx hy h

theorem pend_pid_inj (s : St) (hI : Invariant s) (x y : Nat × Pend)
    (hx : x ∈ s.wsPending) (hy : y ∈ s.wsPending)
    (h : x.2.sendPid = y.2.sendPid) : x = y :=
  List.inj_on_of_nodup_map hI.pendPidNodup hx hy h

theorem inv_pendTimerNodup (s : St) (hI : Invariant s) :
    (s.wsPending.map (fun x => x.2.timer)).Nodup := by
  have hl : s.wsPending.Nodup := hI.pendKeyNodup.of_map
  refine List.Nodup.map_on ?_ hl
  intro x hx y hy hxy
  obtain ⟨t1, ht1, _, hr1, _⟩ := hI.pendTimer x hx
  obtain ⟨t2, ht2, _, hr2, _⟩ := hI.pendTimer y hy
  rw [hxy, ht2] at ht1
  obtain rfl : t2 = t1 := Option.some.inj ht1
  exact pend_key_inj s hI x y hx hy (by rw [← hr1, ← hr2])

theorem length_le_one_of_nodup_const {α : Type} {l : List α} {x : α}
    (hnd : l.Nodup) (hall : ∀ y ∈ l, y = x) : l.length ≤ 1 := by
  match l with
  | [] => simp
  | [a] => simp
  | a :: b :: t =>
    exfalso
    have ha := hall a (by simp)
    have hb := hall b (by simp)
    rw [List.nodup_cons] at hnd
    exact hnd.1 (by rw [ha, ← hb]; simp)

theorem inv_pendDelClear (s : St) (id : Nat) (e : Pend) (hI : Invariant s)
    (hmem : (id, e) ∈ s.wsPending) :
    Invariant (clearTimer { s with wsPending := pendDel s.wsPending id } e.timer) := by
  obtain ⟨t0, ht0, hact0, hrid0, hpid0⟩ := hI.pendTimer (id, e) hmem
  have htlt : e.timer < s.nTimers := by
    by_contra hge
    rw [hI.timerBound e.timer (Nat.le_of_not_lt hge)] at ht0
    cases ht0
  have hlookT : ∀ t,
      (clearTimer { s with wsPending := pendDel s.wsPending id } e.timer).timers t =
        if t = e.timer then some { t0 with active := false } else s.timers t := by
    intro t
    by_cases ht : t = e.timer
    · subst ht
      rw [clearTimer_timers_eq_some { s with wsPending := pendDel s.wsPending id }
        e.timer t0 ht0]
      simp
    · rw [clearTimer_timers_ne { s with wsPending := pendDel s.wsPending id }
        e.timer t ht]
      simp [ht]
  have hdP : (clearTimer { s with wsPending := pendDel s.wsPending id }
      e.timer).wsPending = pendDel s.wsPending id := rfl
  constructor
  case promBound => exact hI.promBound
  case sockBound => exact hI.sockBound
  case timerBound =>
    intro t ht
    have ht2 : s.nTimers ≤ t := ht
    rw [hlookT]
    have hne : t ≠ e.timer := by omega
    simp [hne]
    exact hI.timerBound t ht2
  case logBound => exact hI.logBound
  case connState => exact hI.connState
  case sendNoConts => exact hI.sendNoConts
  case settledNoConts => exact hI.settledNoConts
  case contsLen => exact hI.contsLen
  case contValid => exact hI.contValid
  case contContDistinct => exact hI.contContDistinct
  case contPendDisjoint =>
    intro p2 q2 c2 y hq2 hc2 hy
    have hy2 : y ∈ pendDel s.wsPending id := hy
    rw [mem_pendDel] at hy2
    exact hI.contPendDisjoint p2 q2 c2 y hq2 hc2 hy2.1
  case sockProm => exact hI.sockProm
  case promSock => exact hI.promSock
  case pendKeyLe =>
    intro x hx
    have hx2 : x ∈ pendDel s.wsPending id := hx
    rw [mem_pendDel] at hx2
    exact hI.pendKeyLe x hx2.1
  case pendKeyNodup =>
    exact hI.pendKeyNodup.sublist ((pendDel_sublist s.wsPending id).map Prod.fst)
  case pendPidNodup =>
    exact hI.pendPidNodup.sublist
      ((pendDel_sublist s.wsPending id).map (fun x => x.2.sendPid))
  case pendProm =>
    intro x hx
    have hx2 : x ∈ pendDel s.wsPending id := hx
    rw [mem_pendDel] at hx2
    exact hI.pendProm x hx2.1
  case pendTimer =>
    intro x hx
    have hx2 : x ∈ pendDel s.wsPending id := hx
    rw [mem_pendDel] at hx2
    obtain ⟨t1, ht1, hact1, hrid1, hpid1⟩ := hI.pendTimer x hx2.1
    refine ⟨t1, ?_, hact1, hrid1, hpid1⟩
    rw [hlookT]
    have hne : x.2.timer ≠ e.timer := by
      intro h
      have hxe : x = (id, e) := by
        refine pend_key_inj s hI x (id, e) hx2.1 hmem ?_
        rw [h, ht0] at ht1
        obtain rfl : t1 = t0 := (Option.some.inj ht1).symm
        rw [← hrid1, ← hrid0]
      exact hx2.2 (by rw [hxe])
    simp [hne]
    exact ht1
  case timerPend =>
    intro tid t ht hact
    rw [hlookT] at ht
    by_cases htid : tid = e.timer
    · simp [htid] at ht
      rw [← ht] at hact
      simp at hact
    · simp [htid] at ht
      obtain ⟨e2, he2, het2, hep2⟩ := hI.timerPend tid t ht hact
      refine ⟨e2, ?_, het2, hep2⟩
      show (t.reqIdOf, e2) ∈ (clearTimer { s with
        wsPending := pendDel s.wsPending id } e.timer).wsPending
      rw [hdP, mem_pendDel]
      refine ⟨he2, ?_⟩
      intro hkey
      have hxe : (t.reqIdOf, e2) = (id, e) :=
        pend_key_inj s hI (t.reqIdOf, e2) (id, e) he2 hmem hkey
      have he2e : e2 = e := by
        have := congrArg Prod.snd hxe
        simpa using this
      rw [he2e] at het2
      exact htid het2.symm
  case sendOnce => exact hI.sendOnce
  case logReason => exact hI.logReason
  case issuedChain => exact hI.issuedChain
  case issuedLe => exact hI.issuedLe

theorem inv_settlePend (s : St) (id : Nat) (e : Pend) (out : Settlement) (r : Reason)
    (hI : Invariant s) (hmem : (id, e) ∈ s.wsPending) (hr : r ∈ sendReasons) :
    Invariant
      (settleSend (clearTimer { s with wsPending := pendDel s.wsPending id } e.timer)
        e.sendPid out r) := by
  have hI4 := inv_pendDelClear s id e hI hmem
  obtain ⟨q, hq, hqk, hqs⟩ := hI.pendProm (id, e) hmem
  refine inv_settleSendFinal _ e.sendPid out r hI4 q hq hqk hqs ?_ ?_ hr
  · intro x hx
    have hx2 := (mem_pendDel s.wsPending id x).mp hx
    intro h
    have hxe : x = (id, e) := pend_pid_inj s hI x (id, e) hx2.1 hmem h
    exact hx2.2 (by rw [hxe])
  · intro p2 q2 c2 hq2 hc2
    exact hI.contPendDisjoint p2 q2 c2 (id, e) hq2 hc2 hmem

theorem inv_closeHandler (s : St) (hI : Invariant s) : Invariant (closeHandler s) := by
  have hI1 : Invariant { s with ws := none } :=
    ⟨hI.promBound, hI.sockBound, hI.timerBound, hI.logBound, hI.connState,
     hI.sendNoConts, hI.settledNoConts, hI.contsLen, hI.contValid,
     hI.contContDistinct, hI.contPendDisjoint, hI.sockProm, hI.promSock,
     hI.pendKeyLe, hI.pendKeyNodup, hI.pendPidNodup, hI.pendProm, hI.pendTimer,
     hI.timerPend, hI.sendOnce, hI.logReason, hI.issuedChain, hI.issuedLe⟩
  set s1 : St := { s with ws := none } with hs1
  set sF : St := s.wsPending.foldl closeRejectOne s1 with hsF
  have hch : closeHandler s = { sF with
      wsPending := [],
      recon := sF.recon ++ [(sF.wsReconnectDelay, false)],
      wsReconnectDelay := min (sF.wsReconnectDelay * 2) WS_MAX_RECONNECT_DELAY } := rfl
  have hok : ∀ x ∈ s.wsPending, ∃ q, s1.proms x.2.sendPid = some q ∧ q.state = none := by
    intro x hx
    obtain ⟨q, hq, _, hqs⟩ := hI.pendProm x hx
    exact ⟨q, hq, hqs⟩
  have hndp : (s.wsPending.map (fun x => x.2.sendPid)).Nodup := hI.pendPidNodup
  have hndt : (s.wsPending.map (fun x => x.2.timer)).Nodup := inv_pendTimerNodup s hI
  have hFlog : sF.settleLog =
      s.settleLog ++ s.wsPending.map (fun x => (x.2.sendPid, Reason.channelClosed)) :=
    closeFold_log s.wsPending s1
  have hFsocks : sF.socks = s.socks := closeFold_socks s.wsPending s1
  have hFnP : sF.nProms = s.nProms := closeFold_nProms s.wsPending s1
  have hFnS : sF.nSocks = s.nSocks := closeFold_nSocks s.wsPending s1
  have hFnT : sF.nTimers = s.nTimers := closeFold_nTimers s.wsPending s1
  have hFreq : sF.wsReqId = s.wsReqId := closeFold_wsReqId s.wsPending s1
  have hFiss : sF.issued = s.issued := closeFold_issued s.wsPending s1
  have hFpne : ∀ y, (∀ x ∈ s.wsPending, x.2.sendPid ≠ y) → sF.proms y = s.proms y :=
    fun y h => closeFold_proms_ne s.wsPending s1 y h
  have hFpmem : ∀ x ∈ s.wsPending, ∀ q, s.proms x.2.sendPid = some q →
      sF.proms x.2.sendPid = some { q with state := some (.failed closedErr) } :=
    closeFold_proms_mem s.wsPending s1 hndp hok
  have hFtne : ∀ y, (∀ x ∈ s.wsPending, x.2.timer ≠ y) → sF.timers y = s.timers y :=
    fun y h => closeFold_timers_ne s.wsPending s1 y h
  have hFtmem : ∀ x ∈ s.wsPending, ∀ t0, s.timers x.2.timer = some t0 →
      sF.timers x.2.timer = some { t0 with active := false } :=
    closeFold_timers_mem s.wsPending s1 hndt
  rw [hch]
  constructor
  case promBound =>
    intro x hx
    have hx2 : sF.nProms ≤ x := hx
    rw [hFnP] at hx2
    show sF.proms x = none
    rw [hFpne x ?hne]
    · exact hI.promBound x hx2
    case hne =>
      intro x0 hx0 h
      obtain ⟨q, hq, _, _⟩ := hI.pendProm x0 hx0
      rw [h, hI.promBound x hx2] at hq
      cases hq
  case sockBound =>
    intro i hi
    have hi2 : sF.nSocks ≤ i := hi
    rw [hFnS] at hi2
    show sF.socks i = none
    rw [hFsocks]
    exact hI.sockBound i hi2
  case timerBound =>
    intro t ht
    have ht2 : sF.nTimers ≤ t := ht
    rw [hFnT] at ht2
    show sF.timers t = none
    rw [hFtne t ?hne]
    · exact hI.timerBound t ht2
    case hne =>
      intro x0 hx0 h
      obtain ⟨t0, ht0, _, _, _⟩ := hI.pendTimer x0 hx0
      rw [h, hI.timerBound t ht2] at ht0
      cases ht0
  case logBound =>
    intro x hx
    have hx2 : x ∈ sF.settleLog := hx
    rw [hFlog] at hx2
    show x.1 < sF.nProms
    rw [hFnP]
    rcases List.mem_append.mp hx2 with h1 | h2
    · exact hI.logBound x h1
    · obtain ⟨x0, hx0, hfx⟩ := List.mem_map.mp h2
      obtain ⟨q, hq, _, _⟩ := hI.pendProm x0 hx0
      have : x.1 = x0.2.sendPid := by rw [← hfx]
      rw [this]
      by_contra hge
      rw [hI.promBound x0.2.sendPid (Nat.le_of_not_lt hge)] at hq
      cases hq
  case connState =>
    intro x q2 hq2 hk2
    have hq3 : sF.proms x = some q2 := hq2
    by_cases hc : ∃ x0 ∈ s.wsPending, x0.2.sendPid = x
    · obtain ⟨x0, hx0, hpid⟩ := hc
      obtain ⟨q, hq, hqk, hqs⟩ := hI.pendProm x0 hx0
      have hfp := hFpmem x0 hx0 q hq
      rw [hpid] at hfp
      rw [hfp] at hq3
      obtain rfl : { q with state := some (.failed closedErr) } = q2 :=
        Option.some.inj hq3
      rw [show ({ q with state := some (.failed closedErr) } : Prom).kind = q.kind
        from rfl, hqk] at hk2
      cases hk2
    · push_neg at hc
      rw [hFpne x hc] at hq3
      exact hI.connState x q2 hq3 hk2
  case sendNoConts =>
    intro x q2 hq2 hk2
    have hq3 : sF.proms x = some q2 := hq2
    by_cases hc : ∃ x0 ∈ s.wsPending, x0.2.sendPid = x
    · obtain ⟨x0, hx0, hpid⟩ := hc
      obtain ⟨q, hq, hqk, hqs⟩ := hI.pendProm x0 hx0
      have hfp := hFpmem x0 hx0 q hq
      rw [hpid] at hfp
      rw [hfp] at hq3
      obtain rfl : { q with state := some (.failed closedErr) } = q2 :=
        Option.some.inj hq3
      show q.conts = []
      exact hI.sendNoConts x0.2.sendPid q hq hqk
    · push_neg at hc
      rw [hFpne x hc] at hq3
      exact hI.sendNoConts x q2 hq3 hk2
  case settledNoConts =>
    intro x q2 hq2 hk2
    have hq3 : sF.proms x = some q2 := hq2
    by_cases hc : ∃ x0 ∈ s.wsPending, x0.2.sendPid = x
    · obtain ⟨x0, hx0, hpid⟩ := hc
      obtain ⟨q, hq, hqk, hqs⟩ := hI.pendProm x0 hx0
      have hfp := hFpmem x0 hx0 q hq
      rw [hpid] at hfp
      rw [hfp] at hq3
      obtain rfl : { q with state := some (.failed closedErr) } = q2 :=
        Option.some.inj hq3
      show q.conts = []
      exact hI.sendNoConts x0.2.sendPid q hq hqk
    · push_neg at hc
      rw [hFpne x hc] at hq3
      exact hI.settledNoConts x q2 hq3 hk2
  case contsLen =>
    intro x q2 hq2
    have hq3 : sF.proms x = some q2 := hq2
    by_cases hc : ∃ x0 ∈ s.wsPending, x0.2.sendPid = x
    · obtain ⟨x0, hx0, hpid⟩ := hc
      obtain ⟨q, hq, hqk, hqs⟩ := hI.pendProm x0 hx0
      have hfp := hFpmem x0 hx0 q hq
      rw [hpid] at hfp
      rw [hfp] at hq3
      obtain rfl : { q with state := some (.failed closedErr) } = q2 :=
        Option.some.inj hq3
      show q.conts.length ≤ 1
      rw [hI.sendNoConts x0.2.sendPid q hq hqk]
      simp
    · push_neg at hc
      rw [hFpne x hc] at hq3
      exact hI.contsLen x q2 hq3
  case contValid =>
    intro x q2 c2 hq2 hc2
    have hq3 : sF.proms x = some q2 := hq2
    by_cases hc : ∃ x0 ∈ s.wsPending, x0.2.sendPid = x
    · obtain ⟨x0, hx0, hpid⟩ := hc
      obtain ⟨q, hq, hqk, hqs⟩ := hI.pendProm x0 hx0
      have hfp := hFpmem x0 hx0 q hq
      rw [hpid] at hfp
      rw [hfp] at hq3
      obtain rfl : { q with state := some (.failed closedErr) } = q2 :=
        Option.some.inj hq3
      have : q.conts = [] := hI.sendNoConts x0.2.sendPid q hq hqk
      rw [show ({ q with state := some (.failed closedErr) } : Prom).conts = q.conts
        from rfl, this] at hc2
      cases hc2
    · push_neg at hc
      rw [hFpne x hc] at hq3
      obtain ⟨qt, hqt, hk2, hs2⟩ := hI.contValid x q2 c2 hq3 hc2
      refine ⟨qt, ?_, hk2, hs2⟩
      show sF.proms c2.sendPid = some qt
      rw [hFpne c2.sendPid ?hne]
      · exact hqt
      case hne =>
        intro x0 hx0 h
        exact hI.contPendDisjoint x q2 c2 x0 hq3 hc2 hx0 h.symm
  case contContDistinct =>
    intro p1 pr1 c1 p2 pr2 c2 h1 h2 hc1 hc2 heq
    have h1b : sF.proms p1 = some pr1 := h1
    have h2b : sF.proms p2 = some pr2 := h2
    have hold1 : s.proms p1 = some pr1 := by
      by_cases hc : ∃ x0 ∈ s.wsPending, x0.2.sendPid = p1
      · obtain ⟨x0, hx0, hpid⟩ := hc
        obtain ⟨q, hq, hqk, hqs⟩ := hI.pendProm x0 hx0
        have hfp := hFpmem x0 hx0 q hq
        rw [hpid] at hfp
        rw [hfp] at h1b
        obtain rfl : { q with state := some (.failed closedErr) } = pr1 :=
          Option.some.inj h1b
        have : q.conts = [] := hI.sendNoConts x0.2.sendPid q hq hqk
        rw [show ({ q with state := some (.failed closedErr) } : Prom).conts = q.conts
          from rfl, this] at hc1
        cases hc1
      · push_neg at hc
        rw [hFpne p1 hc] at h1b
        exact h1b
    have hold2 : s.proms p2 = some pr2 := by
      by_cases hc : ∃ x0 ∈ s.wsPending, x0.2.sendPid = p2
      · obtain ⟨x0, hx0, hpid⟩ := hc
        obtain ⟨q, hq, hqk, hqs⟩ := hI.pendProm x0 hx0
        have hfp := hFpmem x0 hx0 q hq
        rw [hpid] at hfp
        rw [hfp] at h2b
        obtain rfl : { q with state := some (.failed closedErr) } = pr2 :=
          Option.some.inj h2b
        have : q.conts = [] := hI.sendNoConts x0.2.sendPid q hq hqk
        rw [show ({ q with state := some (.failed closedErr) } : Prom).conts = q.conts
          from rfl, this] at hc2
        cases hc2
      · push_neg at hc
        rw [hFpne p2 hc] at h2b
        exact h2b
    exact hI.contContDistinct p1 pr1 c1 p2 pr2 c2 hold1 hold2 hc1 hc2 heq
  case contPendDisjoint =>
    intro p2 q2 c2 y hq2 hc2 hy
    cases hy
  case sockProm =>
    intro i k2 hk2
    have hk3 : sF.socks i = some k2 := hk2
    rw [hFsocks] at hk3
    obtain ⟨q2, hq2, hqk2, hqs2⟩ := hI.sockProm i k2 hk3
    refine ⟨q2, ?_, hqk2, hqs2⟩
    show sF.proms k2.connPid = some q2
    rw [hFpne k2.connPid ?hne]
    · exact hq2
    case hne =>
      intro x0 hx0 h
      obtain ⟨qp, hqp, hqpk, _⟩ := hI.pendProm x0 hx0
      rw [h, hq2] at hqp
      obtain rfl : q2 = qp := Option.some.inj hqp
      rw [hqk2] at hqpk
      cases hqpk
  case promSock =>
    intro x q2 i hq2 hs2
    have hq3 : sF.proms x = some q2 := hq2
    by_cases hc : ∃ x0 ∈ s.wsPending, x0.2.sendPid = x
    · obtain ⟨x0, hx0, hpid⟩ := hc
      obtain ⟨q, hq, hqk, hqs⟩ := hI.pendProm x0 hx0
      have hfp := hFpmem x0 hx0 q hq
      rw [hpid] at hfp
      rw [hfp] at hq3
      obtain rfl : { q with state := some (.failed closedErr) } = q2 :=
        Option.some.inj hq3
      have hs3 : q.sock = some i := hs2
      obtain ⟨k2, hk2, hkc⟩ := hI.promSock x0.2.sendPid q i hq hs3
      rw [hpid] at hkc
      refine ⟨k2, ?_, hkc⟩
      show sF.socks i = some k2
      rw [hFsocks]
      exact hk2
    · push_neg at hc
      rw [hFpne x hc] at hq3
      obtain ⟨k2, hk2, hkc⟩ := hI.promSock x q2 i hq3 hs2
      refine ⟨k2, ?_, hkc⟩
      show sF.socks i = some k2
      rw [hFsocks]
      exact hk2
  case pendKeyLe =>
    intro x hx
    cases hx
  case pendKeyNodup => simp
  case pendPidNodup => simp
  case pendProm =>
    intro x hx
    cases hx
  case pendTimer =>
    intro x hx
    cases hx
  case timerPend =>
    intro tid t ht hact
    have ht2 : sF.timers tid = some t := ht
    exfalso
    by_cases hc : ∃ x0 ∈ s.wsPending, x0.2.timer = tid
    · obtain ⟨x0, hx0, hxt⟩ := hc
      obtain ⟨t1, ht1, _, _, _⟩ := hI.pendTimer x0 hx0
      have hfm := hFtmem x0 hx0 t1 ht1
      rw [hxt] at hfm
      rw [hfm] at ht2
      obtain rfl : { t1 with active := false } = t := Option.some.inj ht2
      simp at hact
    · push_neg at hc
      rw [hFtne tid hc] at ht2
      obtain ⟨e2, he2, het2, _⟩ := hI.timerPend tid t ht2 hact
      exact hc (t.reqIdOf, e2) he2 het2
  case sendOnce =>
    intro x q2 hq2 hk2
    have hq3 : sF.proms x = some q2 := hq2
    have hlogf : ({ sF with
        wsPending := ([] : List (Nat × Pend)),
        recon := sF.recon ++ [(sF.wsReconnectDelay, false)],
        wsReconnectDelay :=
          min (sF.wsReconnectDelay * 2) WS_MAX_RECONNECT_DELAY } : St).settleLog =
        s.settleLog ++ s.wsPending.map (fun z => (z.2.sendPid, Reason.channelClosed)) :=
      hFlog
    have hlcf := logCount_of_append s _
      (s.wsPending.map (fun z => (z.2.sendPid, Reason.channelClosed))) hlogf x
    by_cases hc : ∃ x0 ∈ s.wsPending, x0.2.sendPid = x
    · obtain ⟨x0, hx0, hpid⟩ := hc
      obtain ⟨q, hq, hqk, hqs⟩ := hI.pendProm x0 hx0
      have hfp := hFpmem x0 hx0 q hq
      rw [hpid] at hfp
      rw [hfp] at hq3
      obtain rfl : { q with state := some (.failed closedErr) } = q2 :=
        Option.some.inj hq3
      right
      constructor
      · simp
      · rw [hlcf]
        have hlc0 : logCount s x = 0 := by
          rcases hI.sendOnce x q (hpid ▸ hq) hqk with ⟨_, h0⟩ | ⟨hne2, _⟩
          · exact h0
          · exact absurd hqs hne2
        rw [hlc0]
        have hfil : ((s.wsPending.map
            (fun z => (z.2.sendPid, Reason.channelClosed))).filter
              (fun y => y.1 = x)).length = 1 := by
          rw [List.filter_map]
          rw [List.length_map]
          show (s.wsPending.filter (fun z => decide (z.2.sendPid = x))).length = 1
          have hmemf : x0 ∈ s.wsPending.filter
              (fun z => decide (z.2.sendPid = x)) := by
            rw [List.mem_filter]
            exact ⟨hx0, by simp [hpid]⟩
          have hge1 : 1 ≤ (s.wsPending.filter
              (fun z => decide (z.2.sendPid = x))).length :=
            List.length_pos_of_mem hmemf
          have hle1 : (s.wsPending.filter
              (fun z => decide (z.2.sendPid = x))).length ≤ 1 := by
            have hmap : ((s.wsPending.filter
                (fun z => decide (z.2.sendPid = x))).map
                  (fun z => z.2.sendPid)).length =
                (s.wsPending.filter (fun z => decide (z.2.sendPid = x))).length :=
              List.length_map _ _
            rw [← hmap]
            refine @length_le_one_of_nodup_const Nat _ x ?_ ?_
            · have hsub : (s.wsPending.filter
                  (fun z => decide (z.2.sendPid = x))).Sublist s.wsPending :=
                List.filter_sublist s.wsPending
              exact hndp.sublist (hsub.map (fun z => z.2.sendPid))
            · intro y hy
              obtain ⟨z, hz, hzy⟩ := List.mem_map.mp hy
              rw [List.mem_filter] at hz
              have := hz.2
              simp at this
              rw [← hzy]
              exact this
          omega
        rw [hfil]
    · push_neg at hc
      rw [hFpne x hc] at hq3
      rw [hlcf]
      have hfil0 : ((s.wsPending.map
          (fun z => (z.2.sendPid, Reason.channelClosed))).filter
            (fun y => y.1 = x)).length = 0 := by
        rw [List.length_eq_zero, List.filter_eq_nil_iff]
        intro a ha
        obtain ⟨z, hz, hza⟩ := List.mem_map.mp ha
        simp
        rw [← hza]
        exact hc z hz
      rw [hfil0]
      simpa using hI.sendOnce x q2 hq3 hk2
  case logReason =>
    intro x hx q2 hq2
    have hx2 : x ∈ s.settleLog ++
        s.wsPending.map (fun z => (z.2.sendPid, Reason.channelClosed)) := by
      have : x ∈ sF.settleLog := hx
      rwa [hFlog] at this
    have hq3 : sF.proms x.1 = some q2 := hq2
    have hkind : ∀ qq, s.proms x.1 = some qq → qq.kind = q2.kind := by
      intro qq hqq
      by_cases hc : ∃ x0 ∈ s.wsPending, x0.2.sendPid = x.1
      · obtain ⟨x0, hx0, hpid⟩ := hc
        have hfp := hFpmem x0 hx0 qq (hpid ▸ hqq)
        rw [hpid] at hfp
        rw [hfp] at hq3
        obtain rfl : { qq with state := some (.failed closedErr) } = q2 :=
          Option.some.inj hq3
        rfl
      · push_neg at hc
        rw [hFpne x.1 hc] at hq3
        rw [hqq] at hq3
        obtain rfl : qq = q2 := Option.some.inj hq3
        rfl
    rcases List.mem_append.mp hx2 with h1 | h2
    · have hq4 : ∃ qq, s.proms x.1 = some qq := by
        by_cases hc : ∃ x0 ∈ s.wsPending, x0.2.sendPid = x.1
        · obtain ⟨x0, hx0, hpid⟩ := hc
          obtain ⟨q, hq, _, _⟩ := hI.pendProm x0 hx0
          exact ⟨q, hpid ▸ hq⟩
        · push_neg at hc
          rw [hFpne x.1 hc] at hq3
          exact ⟨q2, hq3⟩
      obtain ⟨qq, hqq⟩ := hq4
      have hold := hI.logReason x h1 qq hqq
      have hkk := hkind qq hqq
      constructor
      · intro hks
        exact hold.1 (by rw [hkk]; exact hks)
      · intro hkc
        exact hold.2 (by rw [hkk]; exact hkc)
    · obtain ⟨z, hz, hzx⟩ := List.mem_map.mp h2
      obtain ⟨q, hq, hqk, hqs⟩ := hI.pendProm z hz
      have hx1 : x.1 = z.2.sendPid := by rw [← hzx]
      have hx2r : x.2 = Reason.channelClosed := by rw [← hzx]
      have hfp := hFpmem z hz q hq
      rw [← hx1] at hfp
      rw [hfp] at hq3
      obtain rfl : { q with state := some (.failed closedErr) } = q2 :=
        Option.some.inj hq3
      constructor
      · intro _
        rw [hx2r]
        simp [sendReasons]
      · intro hkc
        have : q.kind = PKind.connect := hkc
        rw [hqk] at this
        cases this
  case issuedChain =>
    show sF.issued.Pairwise (· < ·)
    rw [hFiss]
    exact hI.issuedChain
  case issuedLe =>
    intro i hi
    have hi2 : i ∈ sF.issued := hi
    rw [hFiss] at hi2
    show i ≤ sF.wsReqId
    rw [hFreq]
    exact hI.issuedLe i hi2

theorem inv_copy (s s2 : St) (hI : Invariant s)
    (hproms : s2.proms = s.proms) (hnP : s2.nProms = s.nProms)
    (hsocks : s2.socks = s.socks) (hnS : s2.nSocks = s.nSocks)
    (htimers : s2.timers = s.timers) (hnT : s2.nTimers = s.nTimers)
    (hpend : s2.wsPending = s.wsPending) (hreq : s2.wsReqId = s.wsReqId)
    (hlog : s2.settleLog = s.settleLog) (hiss : s2.issued = s.issued) :
    Invariant s2 := by
  have hlc : ∀ x, logCount s2 x = logCount s x := by
    intro x
    unfold logCount
    rw [hlog]
  constructor
  case promBound =>
    intro p hp
    rw [hproms]
    exact hI.promBound p (by rw [← hnP]; exact hp)
  case sockBound =>
    intro i hi
    rw [hsocks]
    exact hI.sockBound i (by rw [← hnS]; exact hi)
  case timerBound =>
    intro t ht
    rw [htimers]
    exact hI.timerBound t (by rw [← hnT]; exact ht)
  case logBound =>
    intro x hx
    rw [hnP]
    exact hI.logBound x (by rw [← hlog]; exact hx)
  case connState =>
    intro p pr h hk
    rw [hproms] at h
    exact hI.connState p pr h hk
  case sendNoConts =>
    intro p pr h hk
    rw [hproms] at h
    exact hI.sendNoConts p pr h hk
  case settledNoConts =>
    intro p pr h hk
    rw [hproms] at h
    exact hI.settledNoConts p pr h hk
  case contsLen =>
    intro p pr h
    rw [hproms] at h
    exact hI.contsLen p pr h
  case contValid =>
    intro p pr c h hc
    rw [hproms] at h
    obtain ⟨q, hq, hk, hs⟩ := hI.contValid p pr c h hc
    rw [← hproms] at hq
    exact ⟨q, hq, hk, hs⟩
  case contContDistinct =>
    intro p1 pr1 c1 p2 pr2 c2 h1 h2 hc1 hc2 heq
    rw [hproms] at h1 h2
    exact hI.contContDistinct p1 pr1 c1 p2 pr2 c2 h1 h2 hc1 hc2 heq
  case contPendDisjoint =>
    intro p pr c x h hc hx
    rw [hproms] at h
    rw [hpend] at hx
    exact hI.contPendDisjoint p pr c x h hc hx
  case sockProm =>
    intro i k hk
    rw [hsocks] at hk
    obtain ⟨pr, hpr, hprk, hprs⟩ := hI.sockProm i k hk
    rw [← hproms] at hpr
    exact ⟨pr, hpr, hprk, hprs⟩
  case promSock =>
    intro p pr i h hs2
    rw [hproms] at h
    obtain ⟨k, hk, hkc⟩ := hI.promSock p pr i h hs2
    rw [← hsocks] at hk
    exact ⟨k, hk, hkc⟩
  case pendKeyLe =>
    intro x hx
    rw [hpend] at hx
    rw [hreq]
    exact hI.pendKeyLe x hx
  case pendKeyNodup =>
    rw [hpend]
    exact hI.pendKeyNodup
  case pendPidNodup =>
    rw [hpend]
    exact hI.pendPidNodup
  case pendProm =>
    intro x hx
    rw [hpend] at hx
    obtain ⟨q, hq, hk, hs⟩ := hI.pendProm x hx
    rw [← hproms] at hq
    exact ⟨q, hq, hk, hs⟩
  case pendTimer =>
    intro x hx
    rw [hpend] at hx
    obtain ⟨t, ht, h1, h2, h3⟩ := hI.pendTimer x hx
    rw [← htimers] at ht
    exact ⟨t, ht, h1, h2, h3⟩
  case timerPend =>
    intro tid t ht hact
    rw [htimers] at ht
    obtain ⟨e, he, h1, h2⟩ := hI.timerPend tid t ht hact
    rw [← hpend] at he
    exact ⟨e, he, h1, h2⟩
  case sendOnce =>
    intro p pr h hk
    rw [hproms] at h
    rw [hlc]
    exact hI.sendOnce p pr h hk
  case logReason =>
    intro x hx q hq
    rw [hlog] at hx
    rw [hproms] at hq
    exact hI.logReason x hx q hq
  case issuedChain =>
    rw [hiss]
    exact hI.issuedChain
  case issuedLe =>
    intro i hi
    rw [hiss] at hi
    rw [hreq]
    exact hI.issuedLe i hi

theorem inv_handleMessage (s : St) (cp : Nat) (m : ServerMsg) (hI : Invariant s)
    (cpr : Prom) (hcp : s.proms cp = some cpr) (hk : cpr.kind = .connect) :
    Invariant (handleMessage s cp m) := by
  cases m with
  | auth tok =>
    rw [handleMessage_auth]
    have hI2 : Invariant { s with wsToken := some tok, sessionTok := some tok } :=
      inv_copy s _ hI rfl rfl rfl rfl rfl rfl rfl rfl rfl rfl
    exact inv_resolveConnect _ cp .connectAuth hI2 cpr hcp hk (Or.inr rfl)
  | reply id ok res er c lim cur att =>
    cases hpg : pendGet s.wsPending id with
    | none =>
      rw [handleMessage_reply_miss s cp id ok res er c lim cur att hpg]
      exact hI
    | some e =>
      have hmem := pendGet_mem s.wsPending id e hpg
      cases ok
      case true =>
        rw [handleMessage_reply_ok s cp id res er c lim cur att e hpg]
        exact inv_settlePend s id e (.value res) .success hI hmem
          (by simp [sendReasons])
      case false =>
        rw [handleMessage_reply_fail s cp id res er c lim cur att e hpg]
        exact inv_settlePend s id e (.failed (mkWsError er c lim cur att))
          .remoteFailure hI hmem (by simp [sendReasons])

theorem invariant_step (s : St) (e : Ev) (hI : Invariant s) : Invariant (step s e) := by
  cases e with
  | connect =>
    rw [step_connect]
    exact inv_wsConnect s hI
  | send a tmo =>
    rw [step_send]
    exact inv_wsSend s a tmo hI
  | sendDefault a =>
    rw [step_sendDefault]
    exact inv_wsSend s a 30000 hI
  | sockOpen sid =>
    cases hk : s.socks sid with
    | none =>
      rw [step_sockOpen_none s sid hk]
      exact hI
    | some k =>
      by_cases hc : k.readyState = .CONNECTING
      · rw [step_sockOpen_conn s sid k hk hc]
        exact inv_sockState s sid k .OPEN 500 hI hk
      · rw [step_sockOpen_other s sid k hk hc]
        exact hI
  | sockMsg sid m =>
    cases hk : s.socks sid with
    | none =>
      rw [step_sockMsg_none s sid m hk]
      exact hI
    | some k =>
      by_cases hc : k.readyState = .OPEN
      · rw [step_sockMsg_open s sid m k hk hc]
        obtain ⟨cpr, hcp, hck, _⟩ := hI.sockProm sid k hk
        exact inv_handleMessage s k.connPid m hI cpr hcp hck
      · rw [step_sockMsg_notOpen s sid m k hk hc]
        exact hI
  | sockClose sid =>
    cases hk : s.socks sid with
    | none =>
      rw [step_sockClose_none s sid hk]
      exact hI
    | some k =>
      by_cases hc : k.readyState = .CLOSED
      · rw [step_sockClose_closed s sid k hk hc]
        exact hI
      · rw [step_sockClose_live s sid k hk hc]
        apply inv_closeHandler
        exact inv_sockState s sid k .CLOSED s.wsReconnectDelay hI hk
  | timerFire tid =>
    cases ht : s.timers tid with
    | none =>
      rw [step_timerFire_none s tid ht]
      exact hI
    | some t =>
      cases hact : t.active
      case false =>
        rw [step_timerFire_inactive s tid t ht hact]
        exact hI
      case true =>
        rw [step_timerFire_active s tid t ht hact]
        obtain ⟨e2, he2, het2, hep2⟩ := hI.timerPend tid t ht hact
        rw [← het2, ← hep2]
        exact inv_settlePend s t.reqIdOf e2 (.failed (timeoutErr t.timeoutMs))
          .timedOut hI he2 (by simp [sendReasons])
  | reconFire k =>
    cases hr : s.recon.get? k with
    | none =>
      rw [step_reconFire_none s k hr]
      exact hI
    | some rc =>
      obtain ⟨d, b⟩ := rc
      cases b
      case true =>
        rw [step_reconFire_fired s k d hr]
        exact hI
      case false =>
        rw [step_reconFire_unfired s k d hr]
        apply inv_wsConnect
        exact inv_copy s _ hI rfl rfl rfl rfl rfl rfl rfl rfl rfl rfl

theorem invariant_init (m s0 : Option String) : Invariant (initSt m s0) := by
  constructor <;> intros <;> simp_all [initSt, logCount]

theorem invariant_run_from (s : St) (evs : List Ev) (hI : Invariant s) :
    Invariant (run s evs) := by
  induction evs generalizing s with
  | nil => exact hI
  | cons e t ih => exact ih (step s e) (invariant_step s e hI)

theorem invariant_run (m s0 : Option String) (evs : List Ev) :
    Invariant (run (initSt m s0) evs) :=
  invariant_run_from (initSt m s0) evs (invariant_init m s0)

/-! ### The backoff schedule -/

theorem wsOpenB_none (s : St) (h : s.ws = none) : wsOpenB s = false := by
  unfold wsOpenB
  rw [h]

theorem closeHandler_recon (s2 : St) :
    (closeHandler s2).recon = s2.recon ++ [(s2.wsReconnectDelay, false)] := by
  show (s2.wsPending.foldl closeRejectOne { s2 with ws := none }).recon ++
    [((s2.wsPending.foldl closeRejectOne { s2 with ws := none }).wsReconnectDelay,
      false)] = _
  rw [closeFold_recon, closeFold_delay]

theorem closeHandler_ws (s2 : St) : (closeHandler s2).ws = none := by
  show (s2.wsPending.foldl closeRejectOne { s2 with ws := none }).ws = none
  rw [closeFold_ws]

theorem closeHandler_delay (s2 : St) :
    (closeHandler s2).wsReconnectDelay =
      min (s2.wsReconnectDelay * 2) WS_MAX_RECONNECT_DELAY := by
  show min ((s2.wsPending.foldl closeRejectOne
    { s2 with ws := none }).wsReconnectDelay * 2) WS_MAX_RECONNECT_DELAY = _
  rw [closeFold_delay]

theorem closeHandler_nSocks (s2 : St) : (closeHandler s2).nSocks = s2.nSocks := by
  show (s2.wsPending.foldl closeRejectOne { s2 with ws := none }).nSocks = _
  rw [closeFold_nSocks]

theorem step_connect_notOpen_facts (s : St) (hw : wsOpenB s = false) :
    (step s Ev.connect).recon = s.recon ∧
    (step s Ev.connect).wsReconnectDelay = s.wsReconnectDelay ∧
    (step s Ev.connect).nSocks = s.nSocks + 1 ∧
    (step s Ev.connect).socks s.nSocks =
      some ⟨.CONNECTING, s.nProms, urlTokenOf s⟩ := by
  rw [step_connect, wsConnect_notOpen s hw]
  refine ⟨rfl, rfl, rfl, ?_⟩
  show (if s.nSocks = s.nSocks then _ else _) = _
  simp

theorem closeBlock_once (s : St) (h1 : s.ws = none) :
    (run s [Ev.connect, Ev.sockClose s.nSocks]).recon =
      s.recon ++ [(s.wsReconnectDelay, false)] ∧
    (run s [Ev.connect, Ev.sockClose s.nSocks]).ws = none ∧
    (run s [Ev.connect, Ev.sockClose s.nSocks]).wsReconnectDelay =
      min (s.wsReconnectDelay * 2) WS_MAX_RECONNECT_DELAY ∧
    (run s [Ev.connect, Ev.sockClose s.nSocks]).nSocks = s.nSocks + 1 := by
  have hw : wsOpenB s = false := wsOpenB_none s h1
  obtain ⟨hf1, hf2, hf3, hf4⟩ := step_connect_notOpen_facts s hw
  have hrun : run s [Ev.connect, Ev.sockClose s.nSocks] =
      step (step s Ev.connect) (Ev.sockClose s.nSocks) := rfl
  have hstep2 := step_sockClose_live (step s Ev.connect) s.nSocks
    ⟨.CONNECTING, s.nProms, urlTokenOf s⟩ hf4 (by simp)
  rw [hrun, hstep2]
  refine ⟨?_, ?_, ?_, ?_⟩
  · rw [closeHandler_recon]
    show (step s Ev.connect).recon ++
      [((step s Ev.connect).wsReconnectDelay, false)] = _
    rw [hf1, hf2]
  · rw [closeHandler_ws]
  · rw [closeHandler_delay]
    show min ((step s Ev.connect).wsReconnectDelay * 2) WS_MAX_RECONNECT_DELAY = _
    rw [hf2]
  · rw [closeHandler_nSocks]
    show (step s Ev.connect).nSocks = _
    rw [hf3]

theorem backoff_double (j : Nat) :
    min (min (500 * 2 ^ j) 16000 * 2) WS_MAX_RECONNECT_DELAY =
      min (500 * 2 ^ (j + 1)) 16000 := by
  have hmx : WS_MAX_RECONNECT_DELAY = 16000 := rfl
  have h2 : 500 * 2 ^ (j + 1) = 500 * 2 ^ j * 2 := by ring
  rw [hmx, h2]
  omega

theorem closeBlocks_run (k : Nat) : ∀ (s : St) (j : Nat), s.ws = none →
    s.wsReconnectDelay = min (500 * 2 ^ j) 16000 →
    (run s (closeBlocks s.nSocks k)).recon =
      s.recon ++ (List.range k).map (fun i => (min (500 * 2 ^ (j + i)) 16000, false)) ∧
    (run s (closeBlocks s.nSocks k)).ws = none ∧
    (run s (closeBlocks s.nSocks k)).wsReconnectDelay =
      min (500 * 2 ^ (j + k)) 16000 := by
  induction k with
  | zero =>
    intro s j h1 h2
    simp [closeBlocks, run]
    exact ⟨h1, h2⟩
  | succ k ih =>
    intro s j h1 h2
    have hsplit : closeBlocks s.nSocks (k + 1) =
        [Ev.connect, Ev.sockClose s.nSocks] ++ closeBlocks (s.nSocks + 1) k := rfl
    have hrunsplit : run s (closeBlocks s.nSocks (k + 1)) =
        run (run s [Ev.connect, Ev.sockClose s.nSocks])
          (closeBlocks (s.nSocks + 1) k) := by
      rw [hsplit]
      unfold run
      rw [List.foldl_append]
    obtain ⟨hR, hW, hD, hN⟩ := closeBlock_once s h1
    set sB := run s [Ev.connect, Ev.sockClose s.nSocks] with hsB
    have hD2 : sB.wsReconnectDelay = min (500 * 2 ^ (j + 1)) 16000 := by
      rw [hD, h2, backoff_double]
    obtain ⟨ihR, ihW, ihD⟩ := ih sB (j + 1) hW hD2
    rw [hN] at ihR ihW ihD
    rw [hrunsplit]
    refine ⟨?_, ihW, ?_⟩
    · rw [ihR, hR, List.append_assoc]
      congr 1
      rw [List.range_succ_eq_map, List.map_cons, List.map_map]
      rw [List.singleton_append]
      congr 1
      · rw [h2, Nat.add_zero]
      · refine List.map_congr_left ?_
        intro i _
        have hje : j + 1 + i = j + (i + 1) := by omega
        show (min (500 * 2 ^ (j + 1 + i)) 16000, false) =
          (min (500 * 2 ^ (j + (i + 1))) 16000, false)
        rw [hje]
    · rw [ihD]
      have hje : j + 1 + k = j + (k + 1) := by omega
      rw [hje]

/-! ### What can settle a promise -/

theorem readyBody_proms_ne (s : St) (c : ThenCont) (y : Nat) (hne : c.sendPid ≠ y) :
    (readyBody s c).proms y = s.proms y := by
  cases hw : wsOpenB s
  case false =>
    rw [readyBody_notOpen s c hw]
    exact settleSend_proms_ne _ _ _ _ _ (fun h => hne h.symm)
  case true =>
    rw [readyBody_open s c hw]

theorem contsFold_proms_ne (l : List ThenCont) (s : St) (y : Nat)
    (hne : ∀ c ∈ l, c.sendPid ≠ y) :
    (l.foldl readyBody s).proms y = s.proms y := by
  induction l generalizing s with
  | nil => rfl
  | cons c t ih =>
    simp only [List.foldl_cons]
    rw [ih (readyBody s c) (fun c2 hc2 => hne c2 (List.mem_cons_of_mem c hc2))]
    exact readyBody_proms_ne s c y (hne c (List.mem_cons_self c t))

theorem resolveConnect_pres (s : St) (cp : Nat) (r : Reason) (y : Nat) (hne : cp ≠ y)
    (hconts : ∀ cpr2, s.proms cp = some cpr2 → ∀ c2 ∈ cpr2.conts, c2.sendPid ≠ y) :
    (resolveConnect s cp r).proms y = s.proms y := by
  cases hcp : s.proms cp with
  | none => rw [resolveConnect_none s cp r hcp]
  | some cpr =>
    by_cases hst : cpr.state = none
    · rw [resolveConnect_unsettled s cp r cpr hcp hst]
      rw [contsFold_proms_ne cpr.conts _ y (hconts cpr hcp)]
      show (if y = cp then _ else s.proms y) = s.proms y
      have hne2 : y ≠ cp := fun h => hne h.symm
      simp [hne2]
    · rw [resolveConnect_settled s cp r cpr hcp hst]

theorem attachCont_pres (s : St) (cp : Nat) (c : ThenCont) (y : Nat)
    (hne1 : cp ≠ y) (hne2 : c.sendPid ≠ y) :
    (attachCont s cp c).proms y = s.proms y := by
  cases hcp : s.proms cp with
  | none => simp [attachCont, hcp]
  | some cpr =>
    cases hst : cpr.state with
    | none =>
      rw [attachCont_pending s cp c cpr hcp hst]
      show (if y = cp then _ else s.proms y) = s.proms y
      have hne3 : y ≠ cp := fun h => hne1 h.symm
      simp [hne3]
    | some st =>
      cases st with
      | ready =>
        rw [attachCont_ready s cp c cpr hcp hst]
        exact readyBody_proms_ne s c y hne2
      | value v =>
        have : attachCont s cp c = readyBody s c := by
          simp [attachCont, hcp, hst]
        rw [this]
        exact readyBody_proms_ne s c y hne2
      | failed err =>
        have : attachCont s cp c =
            settleSend s c.sendPid (.failed err) .connectCatch := by
          simp [attachCont, hcp, hst]
        rw [this]
        exact settleSend_proms_ne _ _ _ _ _ (fun h => hne2 h.symm)

theorem wsConnect_pres (s : St) (y : Nat) (hy : y < s.nProms) :
    (wsConnect s).1.proms y = s.proms y := by
  obtain ⟨_, _, hpr, _, _⟩ := wsConnect_facts s
  exact hpr y (Nat.ne_of_lt hy)

theorem wsSend_pres (s : St) (a : String) (tmo : Nat) (y : Nat) (hy : y < s.nProms) :
    (wsSend s a tmo).proms y = s.proms y := by
  have hne0 : s.nProms ≠ y := Nat.ne_of_gt hy
  cases hw : wsOpenB s
  case true =>
    rw [wsSend_open s a tmo hw]
    rw [readyBody_proms_ne _ _ y hne0]
    exact allocProm_proms_ne s _ y (Nat.ne_of_lt hy)
  case false =>
    rw [wsSend_notOpen s a tmo hw]
    obtain ⟨hsnd, _, hpr, _, _⟩ := wsConnect_facts (allocProm s ⟨.send, none, [], none⟩)
    rw [hsnd]
    rw [attachCont_pres _ _ _ y ?hcp hne0]
    case hcp =>
      show (allocProm s ⟨.send, none, [], none⟩).nProms ≠ y
      show s.nProms + 1 ≠ y
      omega
    rw [hpr y (by show y ≠ s.nProms + 1; omega)]
    exact allocProm_proms_ne s _ y (Nat.ne_of_lt hy)

theorem settle_targets_not (s : St) (e : Ev) (hI : Invariant s) (y : Nat) (qy : Prom)
    (hqy : s.proms y = some qy)
    (hnp : ∀ x ∈ s.wsPending, x.2.sendPid ≠ y)
    (hauth : ∀ sid2 k2 tok, e = .sockMsg sid2 (.auth tok) →
      s.socks sid2 = some k2 → k2.readyState = .OPEN → k2.connPid ≠ y ∧
      (∀ cpr2, s.proms k2.connPid = some cpr2 → ∀ c2 ∈ cpr2.conts, c2.sendPid ≠ y)) :
    (step s e).proms y = s.proms y := by
  have hylt : y < s.nProms := by
    by_contra hge
    rw [hI.promBound y (Nat.le_of_not_lt hge)] at hqy
    cases hqy
  cases e with
  | connect =>
    rw [step_connect]
    exact wsConnect_pres s y hylt
  | send a tmo =>
    rw [step_send]
    exact wsSend_pres s a tmo y hylt
  | sendDefault a =>
    rw [step_sendDefault]
    exact wsSend_pres s a 30000 y hylt
  | sockOpen sid2 =>
    cases hk2 : s.socks sid2 with
    | none => rw [step_sockOpen_none s sid2 hk2]
    | some k2 =>
      by_cases hc : k2.readyState = .CONNECTING
      · rw [step_sockOpen_conn s sid2 k2 hk2 hc]
      · rw [step_sockOpen_other s sid2 k2 hk2 hc]
  | sockMsg sid2 m =>
    cases hk2 : s.socks sid2 with
    | none => rw [step_sockMsg_none s sid2 m hk2]
    | some k2 =>
      by_cases hc : k2.readyState = .OPEN
      · rw [step_sockMsg_open s sid2 m k2 hk2 hc]
        cases m with
        | auth tok =>
          rw [handleMessage_auth]
          obtain ⟨hcp, hcc⟩ := hauth sid2 k2 tok rfl hk2 hc
          exact resolveConnect_pres _ _ _ y hcp hcc
        | reply id ok res er c lim cur att =>
          cases hpg : pendGet s.wsPending id with
          | none => rw [handleMessage_reply_miss s k2.connPid id ok res er c lim cur att hpg]
          | some en =>
            have hmem := pendGet_mem s.wsPending id en hpg
            have hney : en.sendPid ≠ y := hnp (id, en) hmem
            cases ok with
            | true =>
              rw [handleMessage_reply_ok s k2.connPid id res er c lim cur att en hpg]
              exact settleSend_proms_ne _ _ _ _ _ (fun h => hney h.symm)
            | false =>
              rw [handleMessage_reply_fail s k2.connPid id res er c lim cur att en hpg]
              exact settleSend_proms_ne _ _ _ _ _ (fun h => hney h.symm)
      · rw [step_sockMsg_notOpen s sid2 m k2 hk2 hc]
  | sockClose sid2 =>
    cases hk2 : s.socks sid2 with
    | none => rw [step_sockClose_none s sid2 hk2]
    | some k2 =>
      by_cases hc : k2.readyState = .CLOSED
      · rw [step_sockClose_closed s sid2 k2 hk2 hc]
      · rw [step_sockClose_live s sid2 k2 hk2 hc]
        show ((closeHandler _).proms) y = s.proms y
        have hcl : ∀ s3 : St, s3.wsPending = s.wsPending →
            (closeHandler s3).proms y = s3.proms y := by
          intro s3 hp3
          show (s3.wsPending.foldl closeRejectOne { s3 with ws := none }).proms y =
            s3.proms y
          rw [closeFold_proms_ne s3.wsPending { s3 with ws := none } y ?hside]
          case hside =>
            intro x hx
            rw [hp3] at hx
            exact hnp x hx
        exact hcl _ rfl
  | timerFire tid =>
    cases ht : s.timers tid with
    | none => rw [step_timerFire_none s tid ht]
    | some t =>
      cases hact : t.active
      case false => rw [step_timerFire_inactive s tid t ht hact]
      case true =>
        rw [step_timerFire_active s tid t ht hact]
        obtain ⟨e2, he2, _, hep2⟩ := hI.timerPend tid t ht hact
        have hney : t.sendPid ≠ y := by
          rw [← hep2]
          exact hnp (t.reqIdOf, e2) he2
        exact settleSend_proms_ne _ _ _ _ _ (fun h => hney h.symm)
  | reconFire k =>
    cases hr : s.recon.get? k with
    | none => rw [step_reconFire_none s k hr]
    | some rc =>
      obtain ⟨d, b⟩ := rc
      cases b
      case true => rw [step_reconFire_fired s k d hr]
      case false =>
        rw [step_reconFire_unfired s k d hr]
        exact wsConnect_pres { s with recon := s.recon.set k (d, true) } y hylt

theorem readyBody_socks (s : St) (c : ThenCont) : (readyBody s c).socks = s.socks := by
  cases hw : wsOpenB s
  case false => rw [readyBody_notOpen s c hw]; rfl
  case true => rw [readyBody_open s c hw]

theorem contsFold_socks (l : List ThenCont) (s : St) :
    (l.foldl readyBody s).socks = s.socks := by
  induction l generalizing s with
  | nil => rfl
  | cons c t ih =>
    simp only [List.foldl_cons]
    rw [ih (readyBody s c), readyBody_socks]

theorem resolveConnect_socks (s : St) (cp : Nat) (r : Reason) :
    (resolveConnect s cp r).socks = s.socks := by
  cases hcp : s.proms cp with
  | none => rw [resolveConnect_none s cp r hcp]
  | some cpr =>
    by_cases hst : cpr.state = none
    · rw [resolveConnect_unsettled s cp r cpr hcp hst, contsFold_socks]
    · rw [resolveConnect_settled s cp r cpr hcp hst]

theorem attachCont_socks (s : St) (cp : Nat) (c : ThenCont) :
    (attachCont s cp c).socks = s.socks := by
  cases hcp : s.proms cp with
  | none => simp [attachCont, hcp]
  | some cpr =>
    cases hst : cpr.state with
    | none => rw [attachCont_pending s cp c cpr hcp hst]
    | some st =>
      cases st with
      | ready => rw [attachCont_ready s cp c cpr hcp hst, readyBody_socks]
      | value v =>
        have : attachCont s cp c = readyBody s c := by simp [attachCont, hcp, hst]
        rw [this, readyBody_socks]
      | failed err =>
        have : attachCont s cp c =
            settleSend s c.sendPid (.failed err) .connectCatch := by
          simp [attachCont, hcp, hst]
        rw [this]
        rfl

theorem wsConnect_socks_ne (s : St) (i : Nat) (hi : i ≠ s.nSocks) :
    (wsConnect s).1.socks i = s.socks i := by
  cases hw : wsOpenB s
  case false =>
    rw [wsConnect_notOpen s hw]
    show (if i = s.nSocks then _ else s.socks i) = s.socks i
    simp [hi]
  case true =>
    rw [wsConnect_open s hw, resolveConnect_socks]
    rfl

theorem wsSend_socks_ne (s : St) (a : String) (tmo : Nat) (i : Nat)
    (hi : i ≠ s.nSocks) : (wsSend s a tmo).socks i = s.socks i := by
  cases hw : wsOpenB s
  case true =>
    rw [wsSend_open s a tmo hw, readyBody_socks]
    rfl
  case false =>
    rw [wsSend_notOpen s a tmo hw, attachCont_socks]
    exact wsConnect_socks_ne (allocProm s ⟨.send, none, [], none⟩) i hi

theorem handleMessage_socks (s : St) (cp : Nat) (m : ServerMsg) :
    (handleMessage s cp m).socks = s.socks := by
  cases m with
  | auth tok => rw [handleMessage_auth, resolveConnect_socks]
  | reply id ok res er c lim cur att =>
    cases hpg : pendGet s.wsPending id with
    | none => rw [handleMessage_reply_miss s cp id ok res er c lim cur att hpg]
    | some e =>
      cases ok with
      | true => rw [handleMessage_reply_ok s cp id res er c lim cur att e hpg]; rfl
      | false => rw [handleMessage_reply_fail s cp id res er c lim cur att e hpg]; rfl

theorem closeHandler_socks (s2 : St) : (closeHandler s2).socks = s2.socks := by
  show (s2.wsPending.foldl closeRejectOne { s2 with ws := none }).socks = _
  rw [closeFold_socks]

theorem step_preserves_closed (s : St) (e : Ev) (hI : Invariant s) (sid : Nat)
    (k : Sock) (hk : s.socks sid = some k) (hc : k.readyState = .CLOSED) :
    (step s e).socks sid = some k := by
  have hlt : sid < s.nSocks := by
    by_contra hge
    rw [hI.sockBound sid (Nat.le_of_not_lt hge)] at hk
    cases hk
  cases e with
  | connect =>
    rw [step_connect, wsConnect_socks_ne s sid (Nat.ne_of_lt hlt)]
    exact hk
  | send a tmo =>
    rw [step_send, wsSend_socks_ne s a tmo sid (Nat.ne_of_lt hlt)]
    exact hk
  | sendDefault a =>
    rw [step_sendDefault, wsSend_socks_ne s a 30000 sid (Nat.ne_of_lt hlt)]
    exact hk
  | sockOpen sid2 =>
    cases hk2 : s.socks sid2 with
    | none => rw [step_sockOpen_none s sid2 hk2]; exact hk
    | some k2 =>
      by_cases hcn : k2.readyState = .CONNECTING
      · rw [step_sockOpen_conn s sid2 k2 hk2 hcn]
        have hne : sid ≠ sid2 := by
          intro h
          rw [h, hk2] at hk
          obtain rfl : k2 = k := Option.some.inj hk
          rw [hc] at hcn
          cases hcn
        show (if sid = sid2 then _ else s.socks sid) = some k
        simp [hne]
        exact hk
      · rw [step_sockOpen_other s sid2 k2 hk2 hcn]; exact hk
  | sockMsg sid2 m =>
    cases hk2 : s.socks sid2 with
    | none => rw [step_sockMsg_none s sid2 m hk2]; exact hk
    | some k2 =>
      by_cases hcn : k2.readyState = .OPEN
      · rw [step_sockMsg_open s sid2 m k2 hk2 hcn, handleMessage_socks]; exact hk
      · rw [step_sockMsg_notOpen s sid2 m k2 hk2 hcn]; exact hk
  | sockClose sid2 =>
    cases hk2 : s.socks sid2 with
    | none => rw [step_sockClose_none s sid2 hk2]; exact hk
    | some k2 =>
      by_cases hcn : k2.readyState = .CLOSED
      · rw [step_sockClose_closed s sid2 k2 hk2 hcn]; exact hk
      · rw [step_sockClose_live s sid2 k2 hk2 hcn, closeHandler_socks]
        have hne : sid ≠ sid2 := by
          intro h
          rw [h, hk2] at hk
          obtain rfl : k2 = k := Option.some.inj hk
          exact hcn hc
        show (if sid = sid2 then _ else s.socks sid) = some k
        simp [hne]
        exact hk
  | timerFire tid =>
    cases ht : s.timers tid with
    | none => rw [step_timerFire_none s tid ht]; exact hk
    | some t =>
      cases hact : t.active with
      | false => rw [step_timerFire_inactive s tid t ht hact]; exact hk
      | true => rw [step_timerFire_active s tid t ht hact]; exact hk
  | reconFire kk =>
    cases hr : s.recon.get? kk with
    | none => rw [step_reconFire_none s kk hr]; exact hk
    | some rc =>
      obtain ⟨d, b⟩ := rc
      cases b with
      | true => rw [step_reconFire_fired s kk d hr]; exact hk
      | false =>
        rw [step_reconFire_unfired s kk d hr]
        rw [wsConnect_socks_ne { s with recon := s.recon.set kk (d, true) } sid
          (Nat.ne_of_lt hlt)]
        exact hk

theorem frozen_step (s : St) (e : Ev) (sid p q : Nat) (hI : Invariant s)
    (hF : Frozen s sid p q) : Frozen (step s e) sid p q := by
  obtain ⟨k, pr, c, hks, hkc, hkp, hp, hkind, hst, hsock, hcmem, hcq, hqst⟩ := hF
  have hqex : ∃ qy, s.proms q = some qy ∧ qy.kind = .send ∧ qy.state = none := by
    obtain ⟨qy, hqy, hqk, hqs⟩ := hI.contValid p pr c hp hcmem
    rw [hcq] at hqy
    exact ⟨qy, hqy, hqk, hqs⟩
  obtain ⟨qy, hqy, hqyk, hqys⟩ := hqex
  have hpstep : (step s e).proms p = s.proms p := by
    refine settle_targets_not s e hI p pr hp ?_ ?_
    · intro x hx h
      obtain ⟨qq, hqq, hqqk, _⟩ := hI.pendProm x hx
      rw [h, hp] at hqq
      obtain rfl : pr = qq := Option.some.inj hqq
      rw [hkind] at hqqk
      cases hqqk
    · intro sid2 k2 tok hev hk2 hopen
      constructor
      · intro h
        obtain ⟨pr2, hpr2, _, hps2⟩ := hI.sockProm sid2 k2 hk2
        rw [h, hp] at hpr2
        obtain rfl : pr = pr2 := Option.some.inj hpr2
        rw [hsock] at hps2
        obtain rfl : sid = sid2 := Option.some.inj hps2
        rw [hks] at hk2
        obtain rfl : k = k2 := Option.some.inj hk2
        rw [hkc] at hopen
        cases hopen
      · intro cpr2 hcpr2 c2 hc2 h
        obtain ⟨qt, hqt, hqtk, _⟩ := hI.contValid k2.connPid cpr2 c2 hcpr2 hc2
        rw [h, hp] at hqt
        obtain rfl : pr = qt := Option.some.inj hqt
        rw [hkind] at hqtk
        cases hqtk
  have hqstep : (step s e).proms q = s.proms q := by
    refine settle_targets_not s e hI q qy hqy ?_ ?_
    · intro x hx h
      refine hI.contPendDisjoint p pr c x hp hcmem hx ?_
      rw [hcq, h]
    · intro sid2 k2 tok hev hk2 hopen
      have hcpne : k2.connPid ≠ p := by
        intro h
        obtain ⟨pr2, hpr2, _, hps2⟩ := hI.sockProm sid2 k2 hk2
        rw [h, hp] at hpr2
        obtain rfl : pr = pr2 := Option.some.inj hpr2
        rw [hsock] at hps2
        obtain rfl : sid = sid2 := Option.some.inj hps2
        rw [hks] at hk2
        obtain rfl : k = k2 := Option.some.inj hk2
        rw [hkc] at hopen
        cases hopen
      constructor
      · intro h
        obtain ⟨pr2, hpr2, hpr2k, _⟩ := hI.sockProm sid2 k2 hk2
        rw [h, hqy] at hpr2
        obtain rfl : qy = pr2 := Option.some.inj hpr2
        rw [hqyk] at hpr2k
        cases hpr2k
      · intro cpr2 hcpr2 c2 hc2 h
        have : c2.sendPid = c.sendPid := by rw [h, hcq]
        have := hI.contContDistinct k2.connPid cpr2 c2 p pr c hcpr2 hp hc2 hcmem this
        exact hcpne this
  refine ⟨k, pr, c, ?_, hkc, hkp, ?_, hkind, hst, hsock, hcmem, hcq, ?_⟩
  · exact step_preserves_closed s e hI sid k hks hkc
  · rw [hpstep]
    exact hp
  · show promState (step s e) q = none
    unfold promState
    rw [hqstep, hqy]
    exact hqys

theorem frozen_run (s : St) (evs : List Ev) (sid p q : Nat) (hI : Invariant s)
    (hF : Frozen s sid p q) : Frozen (run s evs) sid p q := by
  induction evs generalizing s with
  | nil => exact hF
  | cons e t ih =>
    exact ih (step s e) (invariant_step s e hI) (frozen_step s e sid p q hI hF)

theorem connect_settle_only_auth (s : St) (e : Ev) (hI : Invariant s)
    (p sid : Nat) (pr : Prom) (hp : s.proms p = some pr) (hkind : pr.kind = .connect)
    (hsock : pr.sock = some sid) (hst : pr.state = none)
    (hset : promState (step s e) p ≠ none) :
    ∃ tok, e = .sockMsg sid (.auth tok) := by
  by_contra hnotauth
  push_neg at hnotauth
  apply hset
  have hpres : (step s e).proms p = s.proms p := by
    refine settle_targets_not s e hI p pr hp ?_ ?_
    · intro x hx h
      obtain ⟨qq, hqq, hqqk, _⟩ := hI.pendProm x hx
      rw [h, hp] at hqq
      obtain rfl : pr = qq := Option.some.inj hqq
      rw [hkind] at hqqk
      cases hqqk
    · intro sid2 k2 tok hev hk2 hopen
      constructor
      · intro h
        obtain ⟨pr2, hpr2, _, hps2⟩ := hI.sockProm sid2 k2 hk2
        rw [h, hp] at hpr2
        obtain rfl : pr = pr2 := Option.some.inj hpr2
        rw [hsock] at hps2
        obtain rfl : sid = sid2 := Option.some.inj hps2
        exact hnotauth tok hev
      · intro cpr2 hcpr2 c2 hc2 h
        obtain ⟨qt, hqt, hqtk, _⟩ := hI.contValid k2.connPid cpr2 c2 hcpr2 hc2
        rw [h, hp] at hqt
        obtain rfl : pr = qt := Option.some.inj hqt
        rw [hkind] at hqtk
        cases hqtk
  unfold promState
  rw [hpres, hp]
  exact hst

theorem readyBody_wsToken (s : St) (c : ThenCont) :
    (readyBody s c).wsToken = s.wsToken := by
  cases hw : wsOpenB s
  case false => rw [readyBody_notOpen s c hw]; rfl
  case true => rw [readyBody_open s c hw]

theorem contsFold_wsToken (l : List ThenCont) (s : St) :
    (l.foldl readyBody s).wsToken = s.wsToken := by
  induction l generalizing s with
  | nil => rfl
  | cons c t ih =>
    simp only [List.foldl_cons]
    rw [ih (readyBody s c), readyBody_wsToken]

theorem resolveConnect_wsToken (s : St) (cp : Nat) (r : Reason) :
    (resolveConnect s cp r).wsToken = s.wsToken := by
  cases hcp : s.proms cp with
  | none => rw [resolveConnect_none s cp r hcp]
  | some cpr =>
    by_cases hst : cpr.state = none
    · rw [resolveConnect_unsettled s cp r cpr hcp hst, contsFold_wsToken]
    · rw [resolveConnect_settled s cp r cpr hcp hst]

theorem readyBody_reqId_le (s : St) (c : ThenCont) :
    s.wsReqId ≤ (readyBody s c).wsReqId := by
  cases hw : wsOpenB s
  case false =>
    rw [readyBody_notOpen s c hw]
    exact Nat.le_refl _
  case true =>
    rw [readyBody_open s c hw]
    show s.wsReqId ≤ s.wsReqId + 1
    omega

theorem contsFold_reqId_le (l : List ThenCont) (s : St) :
    s.wsReqId ≤ (l.foldl readyBody s).wsReqId := by
  induction l generalizing s with
  | nil => exact Nat.le_refl _
  | cons c t ih =>
    simp only [List.foldl_cons]
    exact Nat.le_trans (readyBody_reqId_le s c) (ih (readyBody s c))

theorem resolveConnect_reqId_le (s : St) (cp : Nat) (r : Reason) :
    s.wsReqId ≤ (resolveConnect s cp r).wsReqId := by
  cases hcp : s.proms cp with
  | none => rw [resolveConnect_none s cp r hcp]
  | some cpr =>
    by_cases hst : cpr.state = none
    · rw [resolveConnect_unsettled s cp r cpr hcp hst]
      refine Nat.le_trans ?_ (contsFold_reqId_le cpr.conts _)
      exact Nat.le_refl _
    · rw [resolveConnect_settled s cp r cpr hcp hst]

theorem attachCont_reqId_le (s : St) (cp : Nat) (c : ThenCont) :
    s.wsReqId ≤ (attachCont s cp c).wsReqId := by
  cases hcp : s.proms cp with
  | none => simp [attachCont, hcp]
  | some cpr =>
    cases hst : cpr.state with
    | none =>
      rw [attachCont_pending s cp c cpr hcp hst]
    | some st =>
      cases st with
      | ready => rw [attachCont_ready s cp c cpr hcp hst]; exact readyBody_reqId_le s c
      | value v =>
        have : attachCont s cp c = readyBody s c := by simp [attachCont, hcp, hst]
        rw [this]
        exact readyBody_reqId_le s c
      | failed err =>
        have : attachCont s cp c =
            settleSend s c.sendPid (.failed err) .connectCatch := by
          simp [attachCont, hcp, hst]
        rw [this]
        exact Nat.le_refl _

theorem wsConnect_reqId_le (s : St) : s.wsReqId ≤ (wsConnect s).1.wsReqId := by
  cases hw : wsOpenB s
  case true =>
    rw [wsConnect_open s hw]
    refine Nat.le_trans ?_ (resolveConnect_reqId_le _ s.nProms .connectImmediate)
    exact Nat.le_refl _
  case false =>
    rw [wsConnect_notOpen s hw]
    exact Nat.le_refl _

theorem wsSend_reqId_le (s : St) (a : String) (tmo : Nat) :
    s.wsReqId ≤ (wsSend s a tmo).wsReqId := by
  cases hw : wsOpenB s
  case true =>
    rw [wsSend_open s a tmo hw]
    refine Nat.le_trans ?_ (readyBody_reqId_le _ ⟨s.nProms, a, tmo⟩)
    exact Nat.le_refl _
  case false =>
    rw [wsSend_notOpen s a tmo hw]
    exact Nat.le_trans (wsConnect_reqId_le (allocProm s ⟨.send, none, [], none⟩))
      (attachCont_reqId_le _ _ _)

theorem closeHandler_reqId (s2 : St) : (closeHandler s2).wsReqId = s2.wsReqId := by
  show (s2.wsPending.foldl closeRejectOne { s2 with ws := none }).wsReqId = _
  rw [closeFold_wsReqId]

theorem step_reqId_mono (s : St) (e : Ev) : s.wsReqId ≤ (step s e).wsReqId := by
  cases e with
  | connect => rw [step_connect]; exact wsConnect_reqId_le s
  | send a tmo => rw [step_send]; exact wsSend_reqId_le s a tmo
  | sendDefault a => rw [step_sendDefault]; exact wsSend_reqId_le s a 30000
  | sockOpen sid =>
    cases hk : s.socks sid with
    | none => rw [step_sockOpen_none s sid hk]
    | some k =>
      by_cases hc : k.readyState = .CONNECTING
      · rw [step_sockOpen_conn s sid k hk hc]
      · rw [step_sockOpen_other s sid k hk hc]
  | sockMsg sid m =>
    cases hk : s.socks sid with
    | none => rw [step_sockMsg_none s sid m hk]
    | some k =>
      by_cases hc : k.readyState = .OPEN
      · rw [step_sockMsg_open s sid m k hk hc]
        cases m with
        | auth tok =>
          rw [handleMessage_auth]
          refine Nat.le_trans ?_ (resolveConnect_reqId_le _ k.connPid .connectAuth)
          exact Nat.le_refl _
        | reply id ok res er c lim cur att =>
          cases hpg : pendGet s.wsPending id with
          | none =>
            rw [handleMessage_reply_miss s k.connPid id ok res er c lim cur att hpg]
          | some en =>
            cases ok with
            | true =>
              rw [handleMessage_reply_ok s k.connPid id res er c lim cur att en hpg]
              exact Nat.le_refl _
            | false =>
              rw [handleMessage_reply_fail s k.connPid id res er c lim cur att en hpg]
              exact Nat.le_refl _
      · rw [step_sockMsg_notOpen s sid m k hk hc]
  | sockClose sid =>
    cases hk : s.socks sid with
    | none => rw [step_sockClose_none s sid hk]
    | some k =>
      by_cases hc : k.readyState = .CLOSED
      · rw [step_sockClose_closed s sid k hk hc]
      · rw [step_sockClose_live s sid k hk hc, closeHandler_reqId]
  | timerFire tid =>
    cases ht : s.timers tid with
    | none => rw [step_timerFire_none s tid ht]
    | some t =>
      cases hact : t.active with
      | false => rw [step_timerFire_inactive s tid t ht hact]
      | true =>
        rw [step_timerFire_active s tid t ht hact]
        exact Nat.le_refl _
  | reconFire k =>
    cases hr : s.recon.get? k with
    | none => rw [step_reconFire_none s k hr]
    | some rc =>
      obtain ⟨d, b⟩ := rc
      cases b with
      | true => rw [step_reconFire_fired s k d hr]
      | false =>
        rw [step_reconFire_unfired s k d hr]
        refine Nat.le_trans ?_ (wsConnect_reqId_le _)
        exact Nat.le_refl _

theorem mkWsError_eq_ref (er : Option String) (c : Option Int)
    (lim cur att : Option Int) :
    mkWsError er c lim cur att = refFailureError er c lim cur att := by
  unfold mkWsError refFailureError jsOrString jsOrInt
  cases er with
  | none =>
    cases c with
    | none => cases lim <;> simp
    | some cc =>
      by_cases hc : cc = 0 <;> cases lim <;> simp [hc]
  | some em =>
    by_cases he : em = "" <;> cases c with
    | none => cases lim <;> simp [he]
    | some cc =>
      by_cases hc : cc = 0 <;> cases lim <;> simp [he, hc]

theorem readyBody_sessionTok (s : St) (c : ThenCont) :
    (readyBody s c).sessionTok = s.sessionTok := by
  cases hw : wsOpenB s
  case false => rw [readyBody_notOpen s c hw]; rfl
  case true => rw [readyBody_open s c hw]

theorem contsFold_sessionTok (l : List ThenCont) (s : St) :
    (l.foldl readyBody s).sessionTok = s.sessionTok := by
  induction l generalizing s with
  | nil => rfl
  | cons c t ih =>
    simp only [List.foldl_cons]
    rw [ih (readyBody s c), readyBody_sessionTok]

theorem resolveConnect_sessionTok (s : St) (cp : Nat) (r : Reason) :
    (resolveConnect s cp r).sessionTok = s.sessionTok := by
  cases hcp : s.proms cp with
  | none => rw [resolveConnect_none s cp r hcp]
  | some cpr =>
    by_cases hst : cpr.state = none
    · rw [resolveConnect_unsettled s cp r cpr hcp hst, contsFold_sessionTok]
    · rw [resolveConnect_settled s cp r cpr hcp hst]

theorem readyBody_timers_fresh (s : St) (c : ThenCont) (h : wsOpenB s = true) :
    (readyBody s c).timers s.nTimers =
      some ⟨true, s.wsReqId + 1, c.sendPid, c.timeoutMs⟩ := by
  rw [readyBody_open s c h]
  show (if s.nTimers = s.nTimers
      then some (⟨true, s.wsReqId + 1, c.sendPid, c.timeoutMs⟩ : Timer)
      else s.timers s.nTimers) = _
  rw [if_pos rfl]

theorem closeHandler_effects (sc : St)
    (hnd : (sc.wsPending.map (fun z => z.2.sendPid)).Nodup)
    (hndT : (sc.wsPending.map (fun z => z.2.timer)).Nodup)
    (hok : ∀ z ∈ sc.wsPending, ∃ q, sc.proms z.2.sendPid = some q ∧ q.state = none)
    (hokT : ∀ z ∈ sc.wsPending, ∃ t, sc.timers z.2.timer = some t) :
    (closeHandler sc).wsPending = [] ∧
    ∀ x ∈ sc.wsPending,
      promState (closeHandler sc) x.2.sendPid = some (.failed closedErr) ∧
      (x.2.sendPid, Reason.channelClosed) ∈ (closeHandler sc).settleLog ∧
      ∃ t, (closeHandler sc).timers x.2.timer = some t ∧ t.active = false := by
  refine ⟨rfl, ?_⟩
  intro x hx
  have hok2 : ∀ z ∈ sc.wsPending,
      ∃ q, ({ sc with ws := none } : St).proms z.2.sendPid = some q ∧ q.state = none :=
    hok
  refine ⟨?_, ?_, ?_⟩
  · obtain ⟨q, hq, hqs⟩ := hok x hx
    have hq0 : ({ sc with ws := none } : St).proms x.2.sendPid = some q := hq
    have h1 := closeFold_proms_mem sc.wsPending { sc with ws := none } hnd hok2 x hx q hq0
    have h2 : (closeHandler sc).proms x.2.sendPid
        = some { q with state := some (.failed closedErr) } := h1
    unfold promState
    rw [h2]
  · have hlog : (closeHandler sc).settleLog
        = ({ sc with ws := none } : St).settleLog
            ++ sc.wsPending.map (fun z => (z.2.sendPid, Reason.channelClosed)) :=
      closeFold_log sc.wsPending { sc with ws := none }
    rw [hlog]
    exact List.mem_append_right _
      (List.mem_map_of_mem (fun z => (z.2.sendPid, Reason.channelClosed)) hx)
  · obtain ⟨t0, ht0⟩ := hokT x hx
    have ht1 : ({ sc with ws := none } : St).timers x.2.timer = some t0 := ht0
    have h3 := closeFold_timers_mem sc.wsPending { sc with ws := none } hndT x hx t0 ht1
    have h4 : (closeHandler sc).timers x.2.timer = some { t0 with active := false } := h3
    exact ⟨{ t0 with active := false }, h4, rfl⟩

/-! ## The claims -/

/-- Claim C1, counterexample.  Two `wsConnect` calls issued while the first
attempt is still `CONNECTING` open two live transports and allocate two distinct
promises, both unsettled — the second call neither shares the in-flight future nor
refrains from opening a second transport.  And a call made while the socket is
`OPEN` but the authentication push has not yet arrived resolves immediately
(promise `1` is `ready`) even though the in-flight first promise (`0`) is still
pending, so it does not share that future either. -/
theorem claim_C1_counterexample :
    liveTransportCount (run (initSt none none) [.connect, .connect]) = 2 ∧
    (run (initSt none none) [.connect, .connect]).nProms = 2 ∧
    promState (run (initSt none none) [.connect, .connect]) 0 = none ∧
    promState (run (initSt none none) [.connect, .connect]) 1 = none ∧
    promState (run (initSt none none) [.connect, .sockOpen 0, .connect]) 1
      = some .ready ∧
    promState (run (initSt none none) [.connect, .sockOpen 0, .connect]) 0 = none := by
  exact ⟨by decide, by decide, by decide, by decide, by decide, by decide⟩

/-- Claim C1 (amended).  `wsConnect` short-circuits only when the current
transport is already `OPEN`: then it opens no socket, changes no socket state and
resolves its freshly allocated promise immediately.  In every other state —
including while a previous attempt is still `CONNECTING` — the call allocates a
fresh, unsettled promise and opens a brand-new transport. -/
theorem claim_C1_amended (s : St) :
    (wsOpenB s = true →
      (step s .connect).nSocks = s.nSocks ∧
      (step s .connect).socks = s.socks ∧
      promState (step s .connect) s.nProms = some .ready) ∧
    (wsOpenB s = false →
      (step s .connect).nSocks = s.nSocks + 1 ∧
      (step s .connect).socks s.nSocks = some ⟨.CONNECTING, s.nProms, urlTokenOf s⟩ ∧
      promState (step s .connect) s.nProms = none) := by
  constructor
  · intro h
    have hre := resolveConnect_unsettled (allocProm s ⟨.connect, none, [], none⟩)
      s.nProms .connectImmediate ⟨.connect, none, [], none⟩
      (allocProm_proms_eq s ⟨.connect, none, [], none⟩) rfl
    simp only [List.foldl_nil] at hre
    rw [step_connect, wsConnect_open s h]
    rw [hre]
    refine ⟨rfl, rfl, ?_⟩
    simp [promState]
  · intro h
    rw [step_connect, wsConnect_notOpen s h]
    refine ⟨rfl, ?_, ?_⟩
    · show (if s.nSocks = s.nSocks then some (⟨.CONNECTING, s.nProms, urlTokenOf s⟩ : Sock)
        else s.socks s.nSocks) = _
      rw [if_pos rfl]
    · simp [promState]

/-- Claim C1, witness: the two branches of the amended claim at concrete states
(an open authen­ticated-or-not transport, and the pristine initial state). -/
theorem claim_C1_witness :
    wsOpenB (run (initSt none none) [.connect, .sockOpen 0]) = true ∧
    promState (step (run (initSt none none) [.connect, .sockOpen 0]) .connect)
      (run (initSt none none) [.connect, .sockOpen 0]).nProms = some .ready ∧
    wsOpenB (initSt none none) = false ∧
    (step (initSt none none) .connect).nSocks = 1 := by
  refine ⟨by decide, ?_, rfl, ?_⟩
  · exact ((claim_C1_amended (run (initSt none none) [.connect, .sockOpen 0])).1
      (by decide)).2.2
  · exact ((claim_C1_amended (initSt none none)).2 rfl).1

/-- Claim C2, counterexample.  Trace: `wsConnect`; a `wsSend` queued on the
pending connect promise; the first transport closes (the reconnect transport is
socket `1`); the new transport opens and authenticates.  The queued `ready`
continuation then runs with `_ws = null` (the close handler nulled it and the
reconnect has not fired), so the send promise `1` settles through the fifth path
`'WebSocket not connected'` — a path the claim's list (matching success, matching
failure, timeout, connection-close) does not contain. -/
theorem claim_C2_counterexample :
    (run (initSt none none) [.connect, .sendDefault "a", .sockClose 0, .sockOpen 1,
        .sockMsg 1 (.auth "t")]).proms 1
      = some ⟨.send, some (.failed notConnectedErr), [], none⟩ ∧
    (run (initSt none none) [.connect, .sendDefault "a", .sockClose 0, .sockOpen 1,
        .sockMsg 1 (.auth "t")]).settleLog
      = [(2, .connectAuth), (1, .notConnected)] ∧
    Reason.notConnected ∉ [Reason.success, Reason.remoteFailure, Reason.timedOut,
        Reason.channelClosed] := by
  exact ⟨by decide, by decide, by decide⟩

/-- Claim C2 (amended).  Every `wsSend` promise settles at most once: at most one
settlement attempt is ever recorded for it, it is unsettled exactly when no
attempt has been recorded, and every recorded settlement comes from one of the
five send paths (matching success, matching failure, timeout, connection close,
or the not-connected rejection of the re-checked guard). -/
theorem claim_C2_amended (m s0 : Option String) (evs : List Ev) (p : Nat) (pr : Prom)
    (hp : (run (initSt m s0) evs).proms p = some pr) (hk : pr.kind = .send) :
    logCount (run (initSt m s0) evs) p ≤ 1 ∧
    (pr.state = none ↔ logCount (run (initSt m s0) evs) p = 0) ∧
    ∀ r, (p, r) ∈ (run (initSt m s0) evs).settleLog → r ∈ sendReasons := by
  have hI := invariant_run m s0 evs
  refine ⟨?_, ?_, ?_⟩
  · rcases hI.sendOnce p pr hp hk with ⟨_, h2⟩ | ⟨_, h2⟩ <;> omega
  · rcases hI.sendOnce p pr hp hk with ⟨h1, h2⟩ | ⟨h1, h2⟩
    · exact ⟨fun _ => h2, fun _ => h1⟩
    · constructor
      · intro hc
        exact absurd hc h1
      · intro hc
        omega
  · intro r hr
    exact (hI.logReason (p, r) hr pr hp).1 hk

/-- Claim C2, witness: on a successful round trip the send promise `1` holds the
value `7`, its settlement log has exactly one entry, and that entry's reason is a
send reason. -/
theorem claim_C2_witness :
    (run (initSt none none) [.connect, .sockOpen 0, .sockMsg 0 (.auth "t"),
        .sendDefault "a", .sockMsg 0 (.reply 1 true 7 none none none none none)]).proms 1
      = some ⟨.send, some (.value 7), [], none⟩ ∧
    (logCount (run (initSt none none) [.connect, .sockOpen 0, .sockMsg 0 (.auth "t"),
        .sendDefault "a", .sockMsg 0 (.reply 1 true 7 none none none none none)]) 1 ≤ 1 ∧
      ((⟨.send, some (.value 7), [], none⟩ : Prom).state = none ↔
        logCount (run (initSt none none) [.connect, .sockOpen 0, .sockMsg 0 (.auth "t"),
          .sendDefault "a", .sockMsg 0 (.reply 1 true 7 none none none none none)]) 1
          = 0) ∧
      ∀ r, (1, r) ∈ (run (initSt none none) [.connect, .sockOpen 0,
          .sockMsg 0 (.auth "t"), .sendDefault "a",
          .sockMsg 0 (.reply 1 true 7 none none none none none)]).settleLog →
        r ∈ sendReasons) :=
  ⟨by decide,
   claim_C2_amended none none [.connect, .sockOpen 0, .sockMsg 0 (.auth "t"),
      .sendDefault "a", .sockMsg 0 (.reply 1 true 7 none none none none none)] 1
     ⟨.send, some (.value 7), [], none⟩ (by decide) rfl⟩

/-- Claim C3.  Backoff growth: from any state with no current transport and the
backoff floor of 500 ms, a run of `k` consecutive connection attempts each ending
in a close event schedules reconnect delays `min(500 * 2 ^ (k - 1), 16000)` for
attempt `k` (the list entry of index `i` is attempt `i + 1`), and the stored delay
after the run is `min(500 * 2 ^ k, 16000)`.  Backoff reset: from *every* state —
whatever backoff `s.wsReconnectDelay` has accumulated from prior failures — a
successful open of a connecting socket resets the delay, so the close that follows
it schedules 500 ms again (not the prior exponent), and the stored delay
afterwards is the doubling of 500, restarting the sequence. -/
theorem claim_C3_backoff (s : St) :
    (s.ws = none → s.wsReconnectDelay = 500 →
      ∀ k, (run s (closeBlocks s.nSocks k)).recon =
          s.recon ++ (List.range k).map (fun i => (min (500 * 2 ^ i) 16000, false)) ∧
        (run s (closeBlocks s.nSocks k)).wsReconnectDelay = min (500 * 2 ^ k) 16000) ∧
    (∀ sid k2, s.socks sid = some k2 → k2.readyState = .CONNECTING →
      (run s [.sockOpen sid, .sockClose sid]).recon = s.recon ++ [(500, false)] ∧
      (run s [.sockOpen sid, .sockClose sid]).wsReconnectDelay
        = min (500 * 2) WS_MAX_RECONNECT_DELAY) := by
  constructor
  · intro h1 h2 k
    have h0 : s.wsReconnectDelay = min (500 * 2 ^ 0) 16000 := by
      rw [h2]
      decide
    obtain ⟨hr, _, hd⟩ := closeBlocks_run k s 0 h1 h0
    refine ⟨?_, ?_⟩
    · rw [hr]
      congr 1
      refine List.map_congr_left ?_
      intro i _
      show (min (500 * 2 ^ (0 + i)) 16000, false) = (min (500 * 2 ^ i) 16000, false)
      rw [Nat.zero_add]
    · rw [hd, Nat.zero_add]
  · intro sid k2 hk hc
    have hrun : run s [Ev.sockOpen sid, Ev.sockClose sid]
        = step (step s (.sockOpen sid)) (.sockClose sid) := rfl
    have hsk : ({ s with
        socks := fun i =>
          if i = sid then some { k2 with readyState := .OPEN } else s.socks i,
        wsReconnectDelay := 500 } : St).socks sid
        = some { k2 with readyState := .OPEN } := by
      show (if sid = sid then some { k2 with readyState := .OPEN } else s.socks sid) = _
      rw [if_pos rfl]
    constructor
    · rw [hrun, step_sockOpen_conn s sid k2 hk hc,
        step_sockClose_live _ sid { k2 with readyState := .OPEN } hsk (by simp),
        closeHandler_recon]
    · rw [hrun, step_sockOpen_conn s sid k2 hk hc,
        step_sockClose_live _ sid { k2 with readyState := .OPEN } hsk (by simp),
        closeHandler_delay]

/-- Claim C3, witness.  Growth: from the initial state, seven consecutive failed
attempts schedule 500, 1000, 2000, 4000, 8000, 16000, 16000 ms.  Reset: after five
failed attempts the accumulated delay is 16000 ms — not the floor — yet when the
sixth attempt's socket opens successfully and then closes, the scheduled delay is
500 ms again and the stored delay is the restarted doubling, 1000 ms. -/
theorem claim_C3_witness :
    (run (initSt none none) (closeBlocks (initSt none none).nSocks 7)).recon
      = (initSt none none).recon
          ++ (List.range 7).map (fun i => (min (500 * 2 ^ i) 16000, false)) ∧
    (run (initSt none none) (closeBlocks (initSt none none).nSocks 7)).wsReconnectDelay
      = min (500 * 2 ^ 7) 16000 ∧
    (run (initSt none none) (closeBlocks 0 5 ++ [.connect])).wsReconnectDelay
      = 16000 ∧
    (run (run (initSt none none) (closeBlocks 0 5 ++ [.connect]))
        [.sockOpen 5, .sockClose 5]).recon
      = (run (initSt none none) (closeBlocks 0 5 ++ [.connect])).recon
          ++ [(500, false)] ∧
    (run (run (initSt none none) (closeBlocks 0 5 ++ [.connect]))
        [.sockOpen 5, .sockClose 5]).wsReconnectDelay
      = min (500 * 2) WS_MAX_RECONNECT_DELAY := by
  obtain ⟨hg1, hg2⟩ := (claim_C3_backoff (initSt none none)).1 rfl rfl 7
  obtain ⟨hr1, hr2⟩ :=
    (claim_C3_backoff (run (initSt none none) (closeBlocks 0 5 ++ [.connect]))).2
      5 ⟨.CONNECTING, 5, none⟩ (by decide) rfl
  exact ⟨hg1, hg2, by decide, hr1, hr2⟩

/-- Claim C4.  When a close event fires on a non-closed socket, the pending table
is emptied at once and every entry that was pending has its promise rejected with
`'WebSocket closed'`, its reason logged as a channel-close, and its timeout timer
cleared — the bulk rejection happens at the moment of close, not at the entries'
individual timeouts. -/
theorem claim_C4_close_rejects_all (m s0 : Option String) (evs : List Ev) (sid : Nat)
    (k : Sock) (hk : (run (initSt m s0) evs).socks sid = some k)
    (hne : k.readyState ≠ .CLOSED) :
    (step (run (initSt m s0) evs) (.sockClose sid)).wsPending = [] ∧
    ∀ x ∈ (run (initSt m s0) evs).wsPending,
      promState (step (run (initSt m s0) evs) (.sockClose sid)) x.2.sendPid
          = some (.failed closedErr) ∧
      (x.2.sendPid, Reason.channelClosed) ∈
        (step (run (initSt m s0) evs) (.sockClose sid)).settleLog ∧
      ∃ t, (step (run (initSt m s0) evs) (.sockClose sid)).timers x.2.timer = some t ∧
        t.active = false := by
  have hI := invariant_run m s0 evs
  rw [step_sockClose_live (run (initSt m s0) evs) sid k hk hne]
  refine closeHandler_effects _ hI.pendPidNodup
    (inv_pendTimerNodup (run (initSt m s0) evs) hI) ?_ ?_
  · intro z hz
    obtain ⟨q, hq, _, hqs⟩ := hI.pendProm z hz
    exact ⟨q, hq, hqs⟩
  · intro z hz
    obtain ⟨t, ht, _, _, _⟩ := hI.pendTimer z hz
    exact ⟨t, ht⟩

/-- Claim C4, witness: with two requests pending, the close event empties the
table and both futures are rejected with the channel-closed error on the spot. -/
theorem claim_C4_witness :
    (run (initSt none none) [.connect, .sockOpen 0, .sockMsg 0 (.auth "t"),
        .sendDefault "a", .sendDefault "b"]).wsPending
      = [(1, ⟨1, 0⟩), (2, ⟨2, 1⟩)] ∧
    ((step (run (initSt none none) [.connect, .sockOpen 0, .sockMsg 0 (.auth "t"),
        .sendDefault "a", .sendDefault "b"]) (.sockClose 0)).wsPending = [] ∧
      ∀ x ∈ (run (initSt none none) [.connect, .sockOpen 0, .sockMsg 0 (.auth "t"),
          .sendDefault "a", .sendDefault "b"]).wsPending,
        promState (step (run (initSt none none) [.connect, .sockOpen 0,
            .sockMsg 0 (.auth "t"), .sendDefault "a", .sendDefault "b"])
            (.sockClose 0)) x.2.sendPid
          = some (.failed closedErr) ∧
        (x.2.sendPid, Reason.channelClosed) ∈
          (step (run (initSt none none) [.connect, .sockOpen 0, .sockMsg 0 (.auth "t"),
            .sendDefault "a", .sendDefault "b"]) (.sockClose 0)).settleLog ∧
        ∃ t, (step (run (initSt none none) [.connect, .sockOpen 0,
            .sockMsg 0 (.auth "t"), .sendDefault "a", .sendDefault "b"])
            (.sockClose 0)).timers x.2.timer = some t ∧ t.active = false) :=
  ⟨by decide,
   claim_C4_close_rejects_all none none [.connect, .sockOpen 0, .sockMsg 0 (.auth "t"),
      .sendDefault "a", .sendDefault "b"] 0 ⟨.OPEN, 0, none⟩ (by decide) (by decide)⟩

/-- Claim C5.  Token precedence of the connection URL: with no pushed token, a
truthy meta-tag token wins over whatever `sessionStorage` holds; once the
authentication push has stored a token it wins over both; and the auth message
both stores the pushed token and caches it in `sessionStorage`. -/
theorem claim_C5_token_precedence (s : St) :
    (wsOpenB s = false → s.wsToken = none → jsTruthyStr s.metaTok = true →
      (step s .connect).socks s.nSocks = some ⟨.CONNECTING, s.nProms, s.metaTok⟩) ∧
    (wsOpenB s = false → jsTruthyStr s.wsToken = true →
      (step s .connect).socks s.nSocks = some ⟨.CONNECTING, s.nProms, s.wsToken⟩) ∧
    (∀ sid k tok, s.socks sid = some k → k.readyState = .OPEN →
      (step s (.sockMsg sid (.auth tok))).wsToken = some tok ∧
      (step s (.sockMsg sid (.auth tok))).sessionTok = some tok) := by
  refine ⟨?_, ?_, ?_⟩
  · intro hw hT hM
    obtain ⟨_, _, _, h4⟩ := step_connect_notOpen_facts s hw
    rw [h4]
    have hu : urlTokenOf s = s.metaTok := by
      cases hmt : s.metaTok with
      | none =>
        rw [hmt] at hM
        exact absurd hM (by decide)
      | some mt =>
        rw [hmt] at hM
        simp [jsTruthyStr] at hM
        simp [urlTokenOf, jsOrOpt, getInitialToken, jsTruthyStr, hT, hmt, hM]
    rw [hu]
  · intro hw hT
    obtain ⟨_, _, _, h4⟩ := step_connect_notOpen_facts s hw
    rw [h4]
    have hu : urlTokenOf s = s.wsToken := by
      simp [urlTokenOf, jsOrOpt, hT]
    rw [hu]
  · intro sid k tok hk hopen
    rw [step_sockMsg_open s sid (.auth tok) k hk hopen, handleMessage_auth]
    constructor
    · rw [resolveConnect_wsToken]
    · rw [resolveConnect_sessionTok]

/-- Claim C5, witness: at page load with a fresh meta-tag token and a stale
cached one the connection URL carries the fresh token, and after the server pushes
a token on an open transport the stored token is the pushed one. -/
theorem claim_C5_witness :
    (step (initSt (some "fresh") (some "stale")) .connect).socks 0
      = some ⟨.CONNECTING, 0, some "fresh"⟩ ∧
    (step (run (initSt none none) [.connect, .sockOpen 0])
        (.sockMsg 0 (.auth "pushed"))).wsToken = some "pushed" :=
  ⟨(claim_C5_token_precedence (initSt (some "fresh") (some "stale"))).1
      rfl rfl (by decide),
   ((claim_C5_token_precedence (run (initSt none none) [.connect, .sockOpen 0])).2.2
      0 ⟨.OPEN, 0, none⟩ "pushed" (by decide) rfl).1⟩

/-- Claim C6.  Correlation-id uniqueness on every reachable state: no two
pending-table entries share an id, the ids handed out over the whole run form a
strictly increasing (hence duplicate-free) sequence even across reconnections,
and no event — close and reconnect included — ever decreases the id counter. -/
theorem claim_C6_correlation_ids (m s0 : Option String) (evs : List Ev) :
    ((run (initSt m s0) evs).wsPending.map Prod.fst).Nodup ∧
    (run (initSt m s0) evs).issued.Pairwise (· < ·) ∧
    (run (initSt m s0) evs).issued.Nodup ∧
    ∀ e, (run (initSt m s0) evs).wsReqId ≤ (step (run (initSt m s0) evs) e).wsReqId := by
  have hI := invariant_run m s0 evs
  refine ⟨hI.pendKeyNodup, hI.issuedChain, ?_, fun e => step_reqId_mono _ e⟩
  exact List.Pairwise.imp (fun h => Nat.ne_of_lt h) hI.issuedChain

/-- Claim C7, counterexample.  A failure frame whose error field is the empty
string, whose code is `0`, and which carries `current = 7`, `attempted = 3` but no
`limit`, is delivered as message `'Request failed'`, code `500`, and no rate-limit
fields at all — the multiplexer replaces falsy fields with defaults and drops
`current`/`attempted` when `limit` is absent, rather than propagating the frame
verbatim. -/
theorem claim_C7_counterexample :
    promState (run (initSt none none)
        [.connect, .sockOpen 0, .sockMsg 0 (.auth "t"), .sendDefault "a",
         .sockMsg 0 (.reply 1 false 0 (some "") (some 0) none (some 7) (some 3))]) 1
      = some (.failed ⟨"Request failed", some 500, none, none, none⟩) := by
  decide

/-- Claim C7 (amended).  For every inbound failure frame matching a pending
request whose error message is a non-empty string and whose code is a nonzero
number, the rejection carries that message and code verbatim, carries the frame's
`limit` field, and carries `current` and `attempted` exactly when the frame has a
`limit` field (they are dropped when `limit` is absent).  Falsy fields are not
verbatim: an empty or absent message becomes `'Request failed'` and a zero or
absent code becomes `500`. -/
theorem claim_C7_amended (m s0 : Option String) (evs : List Ev) (sid : Nat) (k : Sock)
    (id : Nat) (e : Pend) (res : Nat) (em : String) (cc : Int) (lim cur att : Option Int)
    (hk : (run (initSt m s0) evs).socks sid = some k) (hopen : k.readyState = .OPEN)
    (hpg : pendGet (run (initSt m s0) evs).wsPending id = some e)
    (hem : em ≠ "") (hcc : cc ≠ 0) :
    promState (step (run (initSt m s0) evs)
        (.sockMsg sid (.reply id false res (some em) (some cc) lim cur att))) e.sendPid
      = some (.failed ⟨em, some cc, lim, if lim.isSome then cur else none,
          if lim.isSome then att else none⟩) := by
  have hI := invariant_run m s0 evs
  rw [step_sockMsg_open (run (initSt m s0) evs) sid _ k hk hopen,
    handleMessage_reply_fail (run (initSt m s0) evs) k.connPid id res (some em)
      (some cc) lim cur att e hpg]
  obtain ⟨q, hq, _, hqs⟩ :=
    hI.pendProm (id, e) (pendGet_mem (run (initSt m s0) evs).wsPending id e hpg)
  have hq2 : (clearTimer
      { run (initSt m s0) evs with
        wsPending := pendDel (run (initSt m s0) evs).wsPending id } e.timer).proms
        e.sendPid = some q := hq
  unfold promState
  rw [settleSend_proms_eq _ e.sendPid
    (.failed (mkWsError (some em) (some cc) lim cur att)) .remoteFailure q hq2 hqs]
  show some (Settlement.failed (mkWsError (some em) (some cc) lim cur att))
      = some (.failed ⟨em, some cc, lim, if lim.isSome then cur else none,
          if lim.isSome then att else none⟩)
  have hmk : mkWsError (some em) (some cc) lim cur att
      = ⟨em, some cc, lim, if lim.isSome then cur else none,
          if lim.isSome then att else none⟩ := by
    simp [mkWsError, jsOrString, jsOrInt, hem, hcc]
  rw [hmk]

/-- Claim C7, witness: a rate-limited failure frame with truthy message and code
and a present `limit` field is delivered with all five fields intact. -/
theorem claim_C7_witness :
    pendGet (run (initSt none none) [.connect, .sockOpen 0, .sockMsg 0 (.auth "t"),
        .sendDefault "a"]).wsPending 1 = some ⟨1, 0⟩ ∧
    promState (step (run (initSt none none) [.connect, .sockOpen 0,
        .sockMsg 0 (.auth "t"), .sendDefault "a"])
        (.sockMsg 0 (.reply 1 false 0 (some "Rate limited") (some 429) (some 10)
          (some 10) (some 1)))) 1
      = some (.failed ⟨"Rate limited", some 429, some 10, some 10, some 1⟩) :=
  ⟨by decide,
   claim_C7_amended none none [.connect, .sockOpen 0, .sockMsg 0 (.auth "t"),
      .sendDefault "a"] 0 ⟨.OPEN, 0, none⟩ 1 ⟨1, 0⟩ 0 "Rate limited" 429
     (some 10) (some 10) (some 1) (by decide) rfl (by decide) (by decide) (by decide)⟩

/-- Claim C8.  Timeout handling: a `wsSend` without a caller-specified timeout
starts a 30000 ms timer, the `generate` action issued with `GENERATION_TIMEOUT_MS`
starts a 120000 ms timer, a firing timer removes the pending entry and rejects the
future with the timeout error, and that error's message reports the elapsed
timeout in seconds. -/
theorem claim_C8_timeouts (m s0 : Option String) (evs : List Ev) :
    (∀ a, wsOpenB (run (initSt m s0) evs) = true →
      (step (run (initSt m s0) evs) (.sendDefault a)).timers
          (run (initSt m s0) evs).nTimers
        = some ⟨true, (run (initSt m s0) evs).wsReqId + 1,
            (run (initSt m s0) evs).nProms, 30000⟩) ∧
    (wsOpenB (run (initSt m s0) evs) = true →
      (step (run (initSt m s0) evs) (.send "generate" GENERATION_TIMEOUT_MS)).timers
          (run (initSt m s0) evs).nTimers
        = some ⟨true, (run (initSt m s0) evs).wsReqId + 1,
            (run (initSt m s0) evs).nProms, GENERATION_TIMEOUT_MS⟩) ∧
    GENERATION_TIMEOUT_MS = 120000 ∧
    (∀ tid t, (run (initSt m s0) evs).timers tid = some t → t.active = true →
      pendGet (step (run (initSt m s0) evs) (.timerFire tid)).wsPending t.reqIdOf
          = none ∧
      promState (step (run (initSt m s0) evs) (.timerFire tid)) t.sendPid
          = some (.failed (timeoutErr t.timeoutMs))) ∧
    (timeoutErr 30000).message = "Request timed out after 30s" ∧
    (timeoutErr 120000).message = "Request timed out after 120s" := by
  have hI := invariant_run m s0 evs
  refine ⟨?_, ?_, rfl, ?_, by decide, by decide⟩
  · intro a h
    rw [step_sendDefault, wsSend_open (run (initSt m s0) evs) a 30000 h]
    exact readyBody_timers_fresh (allocProm (run (initSt m s0) evs) ⟨.send, none, [], none⟩)
      ⟨(run (initSt m s0) evs).nProms, a, 30000⟩ h
  · intro h
    rw [step_send, wsSend_open (run (initSt m s0) evs) "generate" GENERATION_TIMEOUT_MS h]
    exact readyBody_timers_fresh (allocProm (run (initSt m s0) evs) ⟨.send, none, [], none⟩)
      ⟨(run (initSt m s0) evs).nProms, "generate", GENERATION_TIMEOUT_MS⟩ h
  · intro tid t ht hact
    rw [step_timerFire_active (run (initSt m s0) evs) tid t ht hact]
    constructor
    · refine pendGet_eq_none _ _ ?_
      intro x hx
      exact ((mem_pendDel _ _ x).mp hx).2
    · obtain ⟨e, hmem, _, hesp⟩ := hI.timerPend tid t ht hact
      obtain ⟨q, hq, _, hqs⟩ := hI.pendProm (t.reqIdOf, e) hmem
      have hq' : (run (initSt m s0) evs).proms t.sendPid = some q := by
        rw [← hesp]
        exact hq
      have hq2 : ({ clearTimer (run (initSt m s0) evs) tid with
          wsPending := pendDel (clearTimer (run (initSt m s0) evs) tid).wsPending
            t.reqIdOf } : St).proms t.sendPid = some q := hq'
      unfold promState
      rw [settleSend_proms_eq _ t.sendPid (.failed (timeoutErr t.timeoutMs))
        .timedOut q hq2 hqs]

/-- Claim C8, witness: on an open transport a default send starts timer
`⟨active, id 1, promise 1, 30000 ms⟩`, a `generate` send starts a 120000 ms timer,
and when the timer of the pending request fires the future is rejected with the
timeout error. -/
theorem claim_C8_witness :
    (step (run (initSt none none) [.connect, .sockOpen 0]) (.sendDefault "a")).timers 0
      = some ⟨true, 1, 1, 30000⟩ ∧
    (step (run (initSt none none) [.connect, .sockOpen 0])
        (.send "generate" GENERATION_TIMEOUT_MS)).timers 0
      = some ⟨true, 1, 1, 120000⟩ ∧
    promState (step (run (initSt none none) [.connect, .sockOpen 0, .sendDefault "a"])
        (.timerFire 0)) 1 = some (.failed (timeoutErr 30000)) :=
  ⟨(claim_C8_timeouts none none [.connect, .sockOpen 0]).1 "a" (by decide),
   (claim_C8_timeouts none none [.connect, .sockOpen 0]).2.1 (by decide),
   ((claim_C8_timeouts none none [.connect, .sockOpen 0, .sendDefault "a"]).2.2.2.1
      0 ⟨true, 1, 1, 30000⟩ (by decide) rfl).2⟩

/-- Claim C9.  On every reachable state: a connect promise is never rejected (it
is unsettled or resolved); an unsettled connect promise can be settled by one
event only — the authentication push arriving on the very socket that invocation
created; and once that socket is closed while the promise still holds the queued
`ready` continuation of an unsettled send promise, both stay unsettled under every
possible continuation of the run — the awaiting `wsSend` caller hangs without
not-connected, timeout or channel-closed rejection ever reaching it. -/
theorem claim_C9_connect_hang (m s0 : Option String) (evs : List Ev) :
    (∀ p pr, (run (initSt m s0) evs).proms p = some pr → pr.kind = .connect →
      pr.state = none ∨ pr.state = some .ready) ∧
    (∀ e p sid pr, (run (initSt m s0) evs).proms p = some pr → pr.kind = .connect →
      pr.sock = some sid → pr.state = none →
      promState (step (run (initSt m s0) evs) e) p ≠ none →
      ∃ tok, e = .sockMsg sid (.auth tok)) ∧
    (∀ sid p q, Frozen (run (initSt m s0) evs) sid p q →
      staysUnsettled (run (initSt m s0) evs) p ∧
      staysUnsettled (run (initSt m s0) evs) q) := by
  have hI := invariant_run m s0 evs
  refine ⟨?_, ?_, ?_⟩
  · intro p pr hp hk
    exact hI.connState p pr hp hk
  · intro e p sid pr hp hk hsock hst hset
    exact connect_settle_only_auth (run (initSt m s0) evs) e hI p sid pr
      hp hk hsock hst hset
  · intro sid p q hF
    constructor
    · intro evs2
      obtain ⟨k, pr, c, _, _, _, hpr, _, hst, _, _, _, _⟩ :=
        frozen_run (run (initSt m s0) evs) evs2 sid p q hI hF
      unfold promState
      rw [hpr]
      exact hst
    · intro evs2
      obtain ⟨k, pr, c, _, _, _, _, _, _, _, _, _, hq⟩ :=
        frozen_run (run (initSt m s0) evs) evs2 sid p q hI hF
      exact hq

/-- Claim C9, witness: after a `wsSend` from the pristine state (which invokes
`wsConnect` and queues its `ready` continuation) the transport closes before any
authentication push; the configuration is frozen, and both the connect promise
(`1`) and the send promise (`0`) stay unsettled under every continuation. -/
theorem claim_C9_witness :
    Frozen (run (initSt none none) [.sendDefault "a", .sockClose 0]) 0 1 0 ∧
    staysUnsettled (run (initSt none none) [.sendDefault "a", .sockClose 0]) 1 ∧
    staysUnsettled (run (initSt none none) [.sendDefault "a", .sockClose 0]) 0 := by
  have hF : Frozen (run (initSt none none) [.sendDefault "a", .sockClose 0]) 0 1 0 :=
    ⟨⟨.CLOSED, 1, none⟩, ⟨.connect, none, [⟨0, "a", 30000⟩], some 0⟩, ⟨0, "a", 30000⟩,
      by decide, rfl, rfl, by decide, rfl, rfl, rfl, by decide, rfl, by decide⟩
  exact ⟨hF,
    (claim_C9_connect_hang none none [.sendDefault "a", .sockClose 0]).2.2 0 1 0 hF⟩

/-- Claim C10.  For every inbound failure frame matching a pending request, the
rejection error equals `refFailureError`, the reference definition written from
the claim: message is the frame's error field if non-empty else `'Request
failed'`; code is the frame's code if truthy else `500`; and limit, current and
attempted are copied exactly when the frame's limit field is present. -/
theorem claim_C10_refinement (m s0 : Option String) (evs : List Ev) (sid : Nat)
    (k : Sock) (id : Nat) (e : Pend) (res : Nat) (er : Option String)
    (c lim cur att : Option Int)
    (hk : (run (initSt m s0) evs).socks sid = some k) (hopen : k.readyState = .OPEN)
    (hpg : pendGet (run (initSt m s0) evs).wsPending id = some e) :
    promState (step (run (initSt m s0) evs)
        (.sockMsg sid (.reply id false res er c lim cur att))) e.sendPid
      = some (.failed (refFailureError er c lim cur att)) := by
  have hI := invariant_run m s0 evs
  rw [step_sockMsg_open (run (initSt m s0) evs) sid _ k hk hopen,
    handleMessage_reply_fail (run (initSt m s0) evs) k.connPid id res er c lim cur att
      e hpg]
  obtain ⟨q, hq, _, hqs⟩ :=
    hI.pendProm (id, e) (pendGet_mem (run (initSt m s0) evs).wsPending id e hpg)
  have hq2 : (clearTimer
      { run (initSt m s0) evs with
        wsPending := pendDel (run (initSt m s0) evs).wsPending id } e.timer).proms
        e.sendPid = some q := hq
  unfold promState
  rw [settleSend_proms_eq _ e.sendPid (.failed (mkWsError er c lim cur att))
    .remoteFailure q hq2 hqs]
  show some (Settlement.failed (mkWsError er c lim cur att))
      = some (.failed (refFailureError er c lim cur att))
  rw [mkWsError_eq_ref]

/-- Claim C10, witness: a failure frame with no message, no code, a `current`
field but no `limit` is delivered as the reference error at those fields —
`'Request failed'`, code `500`, and no rate-limit fields. -/
theorem claim_C10_witness :
    pendGet (run (initSt none none) [.connect, .sockOpen 0, .sockMsg 0 (.auth "t"),
        .sendDefault "a"]).wsPending 1 = some ⟨1, 0⟩ ∧
    promState (step (run (initSt none none) [.connect, .sockOpen 0,
        .sockMsg 0 (.auth "t"), .sendDefault "a"])
        (.sockMsg 0 (.reply 1 false 0 none none none (some 5) none))) 1
      = some (.failed (refFailureError none none none (some 5) none)) :=
  ⟨by decide,
   claim_C10_refinement none none [.connect, .sockOpen 0, .sockMsg 0 (.auth "t"),
      .sendDefault "a"] 0 ⟨.OPEN, 0, none⟩ 1 ⟨1, 0⟩ 0 none none none (some 5) none
     (by decide) rfl (by decide)⟩
